import Mathlib

/-!
# lua-icxx: stack balance, registry ownership and pending results

A shallow embedding of the host-side reference layer of `lua-icxx`
(`LuaTempResult`, `LuaRegRef`, `LuaStackCleaner`, `LuaObjRef`, `LuaTableRef`,
`LuaFuncRef`, `LuaClassObjRef`) over a model of the Lua 5.1 C API.

Conventions of the embedding
* The C `int`s of the source (stack positions, counts, registry keys, error
  codes) are `Int`; the values that occur are bounded by the stack depth, far
  from the machine range, so no wrap-around is modelled for them. A number of
  the runtime read as an `int` (`getObjFromStack<int>`) is reduced to 32 bits
  (`toInt32`).
* A `lua_State*` of the source is a `Bool`: `true` for a pointer to the one
  runtime connection of the model, `false` for `NULL`.
* Text (`std::string`, `const char*`, the strings of the runtime) is
  `String`; where the source reads text as a C string it is cut before its
  first NUL character (`c_str`); a `const char*` that may be `NULL` is an
  `Option String`.
* A host operation is a function from the runtime state to
  `Except Fault (result × state)`; `assert(...)` is checked (debug build).
-/

set_option autoImplicit false

/-! ## Runtime values and state -/

/-- The three ways a host operation stops without returning to its caller. -/
inductive Fault where
  /-- an `assert(...)` of the source does not hold -/
  | assertion
  /-- the runtime raises an error outside any protected call -/
  | panic
  /-- the C or C++ behaviour is undefined: `NULL` connection or `NULL` text
  dereferenced, stack index outside the stack handed to the C API -/
  | undefined
  deriving DecidableEq, Repr

/-- Modelled from the spec: a value of the embedded runtime ("nil, boolean,
number, string, function, table, or opaque object"); `lua.h` is not under
`src/`. Numbers are integers, tables, functions and opaque objects are
identified by their address. -/
inductive LuaValue where
  | nil
  | boolean (b : Bool)
  | number (n : Int)
  | string (s : String)
  | table (id : Nat)
  | function (id : Nat)
  | userdata (id : Nat)
  deriving DecidableEq, Repr

/-- Modelled from the spec: the type tags of `lua.h` (Lua 5.1), which is not
under `src/`. -/
def LUA_TNONE : Int := -1
/-- Modelled from the spec: type tag of nil (`lua.h`, not under `src/`). -/
def LUA_TNIL : Int := 0
/-- Modelled from the spec: type tag of booleans (`lua.h`). -/
def LUA_TBOOLEAN : Int := 1
/-- Modelled from the spec: type tag of numbers (`lua.h`). -/
def LUA_TNUMBER : Int := 3
/-- Modelled from the spec: type tag of strings (`lua.h`). -/
def LUA_TSTRING : Int := 4
/-- Modelled from the spec: type tag of tables (`lua.h`). -/
def LUA_TTABLE : Int := 5
/-- Modelled from the spec: type tag of functions (`lua.h`). -/
def LUA_TFUNCTION : Int := 6
/-- Modelled from the spec: type tag of opaque objects (`lua.h`). -/
def LUA_TUSERDATA : Int := 7

/-- Modelled from the spec: the runtime's type-tag introspection of one value
(`ttype` of the Lua sources, not under `src/`). -/
def LuaValue.typeTag : LuaValue → Int
  | .nil => LUA_TNIL
  | .boolean _ => LUA_TBOOLEAN
  | .number _ => LUA_TNUMBER
  | .string _ => LUA_TSTRING
  | .table _ => LUA_TTABLE
  | .function _ => LUA_TFUNCTION
  | .userdata _ => LUA_TUSERDATA

/-- Modelled from the spec: a table of the runtime, its raw fields and its
optional metatable (the Lua sources are not under `src/`). -/
structure LuaTable where
  fields : List (LuaValue × LuaValue)
  metatable : Option Nat
  deriving DecidableEq, Repr

/-- Modelled from the spec: the part of the runtime that scripts can reach:
tables, the environment of each function, the metatable of each opaque object
and the metatable shared by all values of one basic type. -/
structure Heap where
  tables : List (Nat × LuaTable)
  fenv : List (Nat × LuaValue)
  udmeta : List (Nat × Nat)
  typemeta : List (Int × Nat)
  deriving DecidableEq, Repr

/-- Modelled from the spec: the registry seen through `luaL_ref` and
`luaL_unref` (`lauxlib`, not under `src/`): the live references, the list of
released keys waiting for reuse (most recently released first) and the
highest key handed out so far. -/
structure Registry where
  slots : List (Int × LuaValue)
  free : List Int
  size : Nat
  deriving DecidableEq, Repr

/-- Modelled from the spec: one runtime connection: the shared value stack
(bottom first, position 1 is the head of the list), the registry and the
heap. -/
structure lua_State where
  stack : List LuaValue
  registry : Registry
  heap : Heap
  deriving DecidableEq, Repr

/-- The `assert(...)` of `<cassert>` in a debug build. -/
def cassert (b : Bool) : Except Fault Unit :=
  if b then .ok () else .error Fault.assertion

/-- Error codes of `LuaCallStatus.h`; the numeric values of the runtime's own
codes come from `lua.h` and `lauxlib.h` (Lua 5.1). -/
def LUA_ERR_NONE : Int := 0
/-- `LUA_ERR_RUN = LUA_ERRRUN`. -/
def LUA_ERR_RUN : Int := 2
/-- `LUA_ERR_SYNTAX = LUA_ERRSYNTAX`. -/
def LUA_ERR_SYNTAX : Int := 3
/-- `LUA_ERR_MEM = LUA_ERRMEM`. -/
def LUA_ERR_MEM : Int := 4
/-- `LUA_ERR_ERR = LUA_ERRERR`. -/
def LUA_ERR_ERR : Int := 5
/-- `LUA_ERR_FILE = LUA_ERRFILE`. -/
def LUA_ERR_FILE : Int := 6
/-- `LUA_NO_LUA = 100`. -/
def LUA_NO_LUA : Int := 100

/-- `LUA_UNACCEPTABLE_STACK_POS` of `LuaAdapters.h`. -/
def LUA_UNACCEPTABLE_STACK_POS : Int := 0

/-! ## The stack part of the C API -/

/-- Modelled from the spec: `lua_gettop`, the current depth of the stack. -/
def lua_gettop (s : lua_State) : Int := s.stack.length

/-- Modelled from the spec: the slot a stack index addresses (`index2adr` of
the Lua sources): positive indices count from the bottom, negative ones from
the top; a positive index above the top is acceptable and holds no value
(`some none`); index 0 and a negative index below the bottom are outside the
stack (`none`). -/
def index2adr (s : lua_State) (idx : Int) : Option (Option LuaValue) :=
  if idx > 0 then some (s.stack[(idx - 1).toNat]?)
  else if idx < 0 ∧ -idx ≤ s.stack.length then
    some (s.stack.reverse[(-idx - 1).toNat]?)
  else none

/-- Modelled from the spec: the value at a valid index, a fault when the
index addresses no slot of the stack. -/
def stackValue (s : lua_State) (idx : Int) : Except Fault LuaValue :=
  match index2adr s idx with
  | some (some v) => .ok v
  | _ => .error Fault.undefined

/-- Modelled from the spec: the 0-based list position of a valid index. -/
def stackSlot (s : lua_State) (idx : Int) : Except Fault Nat :=
  if idx > 0 ∧ idx ≤ s.stack.length then .ok (idx - 1).toNat
  else if idx < 0 ∧ -idx ≤ s.stack.length then
    .ok (s.stack.length - (-idx).toNat)
  else .error Fault.undefined

/-- Modelled from the spec: `lua_settop`: with a non-negative index the
stack is cut to that depth, or filled with nil up to it; a negative index
names the new top relative to the current one. -/
def lua_settop (s : lua_State) (idx : Int) : Except Fault lua_State :=
  if idx ≥ 0 then
    .ok { s with stack := s.stack.take idx.toNat ++
            List.replicate (idx.toNat - s.stack.length) LuaValue.nil }
  else if -idx ≤ s.stack.length + 1 then
    .ok { s with stack := s.stack.take (s.stack.length + 1 - (-idx).toNat) }
  else .error Fault.undefined

/-- Modelled from the spec: `lua_pop(L, n)`, that is `lua_settop(L, -n-1)`. -/
def lua_pop (s : lua_State) (n : Int) : Except Fault lua_State :=
  lua_settop s (-n - 1)

/-- Modelled from the spec: `lua_checkstack`; the stack of the model has no
capacity limit, so room for more values is always granted. -/
def lua_checkstack (_s : lua_State) (_extra : Int) : Bool := true

/-- Modelled from the spec: a push grows the stack by exactly one value. -/
def pushValue (s : lua_State) (v : LuaValue) : lua_State :=
  { s with stack := s.stack ++ [v] }

/-- Modelled from the spec: `lua_pushnil`. -/
def lua_pushnil (s : lua_State) : lua_State := pushValue s LuaValue.nil

/-- Modelled from the spec: `lua_pushboolean`. -/
def lua_pushboolean (s : lua_State) (b : Bool) : lua_State :=
  pushValue s (LuaValue.boolean b)

/-- Modelled from the spec: `lua_pushinteger`. -/
def lua_pushinteger (s : lua_State) (n : Int) : lua_State :=
  pushValue s (LuaValue.number n)

/-- Modelled from the spec: the text a `const char*` denotes (`c_str()` of a
`std::string`, the pointer `lua_tostring` returns, the name given to
`lua_getfield`): a C string ends before its first NUL character. -/
def c_str (str : String) : String :=
  ⟨str.data.takeWhile fun c => c.toNat != 0⟩

/-- Modelled from the spec: `lua_pushstring(L, const char*)`: the
zero-terminated string is pushed. -/
def lua_pushstring (s : lua_State) (str : String) : lua_State :=
  pushValue s (LuaValue.string (c_str str))

/-- Modelled from the spec: `lua_pushvalue`, a copy of the value at the index
is pushed (nil for an acceptable index that holds no value). -/
def lua_pushvalue (s : lua_State) (idx : Int) : Except Fault lua_State :=
  match index2adr s idx with
  | some v => .ok (pushValue s (v.getD LuaValue.nil))
  | none => .error Fault.undefined

/-- Modelled from the spec: `lua_remove`, the slot at a valid index is taken
out and the slots above it move down. -/
def lua_remove (s : lua_State) (idx : Int) : Except Fault lua_State := do
  let i ← stackSlot s idx
  pure { s with stack := s.stack.eraseIdx i }

/-- Modelled from the spec: `lua_insert`, the top value moves to a valid
index and the slots from there up move one position higher. -/
def lua_insert (s : lua_State) (idx : Int) : Except Fault lua_State := do
  let i ← stackSlot s idx
  match s.stack.getLast? with
  | some v => pure { s with stack := (s.stack.dropLast).insertIdx i v }
  | none => throw Fault.undefined

/-- Modelled from the spec: `lua_replace`, the top value is popped and
written to the slot at a valid index. -/
def lua_replace (s : lua_State) (idx : Int) : Except Fault lua_State := do
  let i ← stackSlot s idx
  match s.stack.getLast? with
  | some v => pure { s with stack := (s.stack.set i v).dropLast }
  | none => throw Fault.undefined

/-- Modelled from the spec: `lua_type`, the type tag at an index
(`LUA_TNONE` for an acceptable index that holds no value). -/
def lua_type (s : lua_State) (idx : Int) : Except Fault Int :=
  match index2adr s idx with
  | some (some v) => .ok v.typeTag
  | some none => .ok LUA_TNONE
  | none => .error Fault.undefined

/-- Modelled from the spec: `lua_isnil`, that is `lua_type == LUA_TNIL`. -/
def lua_isnil (s : lua_State) (idx : Int) : Except Fault Bool := do
  let t ← lua_type s idx
  pure (t == LUA_TNIL)

/-- Modelled from the spec: `lua_toboolean`: false for nil, false and an
empty slot, true for every other value. -/
def lua_toboolean (s : lua_State) (idx : Int) : Except Fault Bool :=
  match index2adr s idx with
  | some (some LuaValue.nil) => .ok false
  | some (some (LuaValue.boolean b)) => .ok b
  | some (some _) => .ok true
  | some none => .ok false
  | none => .error Fault.undefined

/-- Modelled from the spec: the value of a run of decimal digits, none when
another character occurs. -/
def decimalValue : List Char → Nat → Option Nat
  | [], acc => some acc
  | c :: cs, acc =>
    if c.isDigit then decimalValue cs (acc * 10 + (c.toNat - 48)) else none

/-- Modelled from the spec: the number a string denotes when the runtime
converts it (`luaO_str2d` of the Lua sources); numbers being integers in the
model, a numeric string is an optional minus sign followed by at least one
decimal digit. -/
def luaO_str2d (str : String) : Option Int :=
  match str.data with
  | [] => none
  | '-' :: cs =>
    if cs.isEmpty then none else (decimalValue cs 0).map fun n => -(n : Int)
  | cs => (decimalValue cs 0).map fun n => (n : Int)

/-- Modelled from the spec: `lua_tointeger`: the number itself, the number a
numeric string denotes, and 0 for every other value. -/
def lua_tointeger (s : lua_State) (idx : Int) : Except Fault Int :=
  match index2adr s idx with
  | some (some (LuaValue.number n)) => .ok n
  | some (some (LuaValue.string str)) => .ok ((luaO_str2d str).getD 0)
  | some _ => .ok 0
  | none => .error Fault.undefined

/-- Modelled from the spec: `lua_tostring` (`lua_tolstring` without the
length): the text of a string, as the C string the returned pointer denotes;
a number is converted to its text in place, in the stack slot itself; every
other value gives `NULL`. -/
def lua_tostring (s : lua_State) (idx : Int) :
    Except Fault (Option String × lua_State) :=
  match index2adr s idx with
  | some (some (LuaValue.string str)) => .ok (some (c_str str), s)
  | some (some (LuaValue.number n)) => do
      let i ← stackSlot s idx
      pure (some (toString n),
        { s with stack := s.stack.set i (LuaValue.string (toString n)) })
  | some _ => .ok (none, s)
  | none => .error Fault.undefined

/-! ## The registry part of the C API -/

/-- Modelled from the spec: `LUA_REGISTRYINDEX`, the pseudo-index of the
registry (`lua.h`, Lua 5.1). -/
def LUA_REGISTRYINDEX : Int := -10000
/-- Modelled from the spec: `LUA_NOREF` of `lauxlib.h`, "no reference". -/
def LUA_NOREF : Int := -2
/-- Modelled from the spec: `LUA_REFNIL` of `lauxlib.h`, the key that
`luaL_ref` returns for nil. -/
def LUA_REFNIL : Int := -1

/-- Modelled from the spec: the value the registry holds under a key, nil
when the key is not a live reference. -/
def Registry.lookup (rg : Registry) (key : Int) : LuaValue :=
  match rg.slots.find? (fun p => p.1 == key) with
  | some p => p.2
  | none => LuaValue.nil

/-- Modelled from the spec: the keys of the live references. -/
def Registry.keys (rg : Registry) : List Int := rg.slots.map Prod.fst

/-- Modelled from the spec: the connection-wide count of registry slots
outstanding ("slots outstanding" counter of the spec's test). -/
def Registry.outstanding (rg : Registry) : Nat := rg.slots.length

/-- Modelled from the spec: `luaL_ref(L, LUA_REGISTRYINDEX)`, "create
reference to value": pops the top value; nil gets the fixed key `LUA_REFNIL`
and no slot; every other value is stored under the most recently released
key if there is one, and under a new key otherwise (`lauxlib.c` of Lua 5.1,
not under `src/`). The source only ever passes `LUA_REGISTRYINDEX`. -/
def luaL_ref (s : lua_State) (t : Int) : Except Fault (Int × lua_State) :=
  if t ≠ LUA_REGISTRYINDEX then .error Fault.undefined
  else
    match s.stack.getLast? with
    | none => .error Fault.undefined
    | some v =>
      if v = LuaValue.nil then .ok (LUA_REFNIL, { s with stack := s.stack.dropLast })
      else
        match s.registry.free with
        | r :: rest =>
          .ok (r, { s with
            stack := s.stack.dropLast
            registry :=
              { slots := (r, v) :: s.registry.slots.filter (fun p => p.1 ≠ r)
                free := rest
                size := s.registry.size } })
        | [] =>
          .ok (((s.registry.size : Int) + 1), { s with
            stack := s.stack.dropLast
            registry :=
              { slots := ((s.registry.size : Int) + 1, v) ::
                  s.registry.slots.filter (fun p => p.1 ≠ (s.registry.size : Int) + 1)
                free := []
                size := s.registry.size + 1 } })

/-- Modelled from the spec: `luaL_unref(L, LUA_REGISTRYINDEX, ref)`, "release
reference": nothing for a negative key (`LUA_NOREF`, `LUA_REFNIL`); otherwise
the entry is removed and the key is put first in the list of keys to reuse,
whether or not it was live (`lauxlib.c` of Lua 5.1, not under `src/`). -/
def luaL_unref (s : lua_State) (t : Int) (ref : Int) : lua_State :=
  if t = LUA_REGISTRYINDEX ∧ ref ≥ 0 then
    { s with registry :=
        { slots := s.registry.slots.filter (fun p => p.1 ≠ ref)
          free := ref :: s.registry.free
          size := s.registry.size } }
  else s

/-! ## The heap part of the C API: tables, metatables, environments, calls -/

/-- Modelled from the spec: the table stored at an address. -/
def Heap.table? (h : Heap) (id : Nat) : Option LuaTable :=
  (h.tables.find? (fun p => p.1 == id)).map Prod.snd

/-- Modelled from the spec: raw read of a table field, nil when absent. -/
def LuaTable.rawget (t : LuaTable) (k : LuaValue) : LuaValue :=
  ((t.fields.find? (fun p => p.1 == k)).map Prod.snd).getD LuaValue.nil

/-- Modelled from the spec: raw write of a table field; writing nil removes
the field. -/
def LuaTable.rawset (t : LuaTable) (k v : LuaValue) : LuaTable :=
  { t with fields :=
      if v = LuaValue.nil then t.fields.filter (fun p => p.1 ≠ k)
      else (k, v) :: t.fields.filter (fun p => p.1 ≠ k) }

/-- Modelled from the spec: the heap with the table at one address
replaced. -/
def Heap.setTable (h : Heap) (id : Nat) (t : LuaTable) : Heap :=
  { h with tables := (id, t) :: h.tables.filter (fun p => p.1 ≠ id) }

/-- Modelled from the spec: an address no table of the heap uses. -/
def Heap.freshTable (h : Heap) : Nat :=
  (h.tables.map Prod.fst).foldl max 0 + 1

/-- Modelled from the spec: the metatable of a value: its own for a table or
an opaque object, the one of its basic type otherwise. -/
def Heap.metatableOf (h : Heap) : LuaValue → Option Nat
  | .table id => (h.table? id).bind LuaTable.metatable
  | .userdata id => (h.udmeta.find? (fun p => p.1 == id)).map Prod.snd
  | v => (h.typemeta.find? (fun p => p.1 == v.typeTag)).map Prod.snd

/-- Modelled from the spec: the handler a value's metatable holds for an
event (`luaT_gettmbyobj`), nil when there is none. -/
def Heap.metafield (h : Heap) (v : LuaValue) (event : String) : LuaValue :=
  match h.metatableOf v with
  | none => LuaValue.nil
  | some m =>
    match h.table? m with
    | some t => t.rawget (LuaValue.string event)
    | none => LuaValue.nil

/-- Modelled from the spec: the kinds of fault a protected call reports. -/
inductive CallError where
  | run
  | mem
  | err
  deriving DecidableEq, Repr

/-- Modelled from the spec: the status `lua_pcall` returns for a fault
(`LUA_ERRRUN`, `LUA_ERRMEM`, `LUA_ERRERR`); never 0. -/
def CallError.code : CallError → Int
  | .run => LUA_ERR_RUN
  | .mem => LUA_ERR_MEM
  | .err => LUA_ERR_ERR

/-- Modelled from the spec: what running a value with arguments gives:
the values it returns, or a fault with its error value. -/
inductive CallOutcome where
  | returned (vals : List LuaValue)
  | raised (kind : CallError) (err : LuaValue)
  deriving DecidableEq, Repr

/-- Modelled from the spec: the interpreter of the embedded runtime, which is
not under `src/`: it runs a value (script function, host function, or a value
that cannot be called) on arguments over the heap. It sees neither the
caller's stack slots nor the registry. -/
structure Runtime where
  call : Heap → LuaValue → List LuaValue → CallOutcome × Heap

/-- Modelled from the spec: `MAXTAGLOOP` of `luaconf.h`, the longest chain
of metatable handlers followed by one field access. -/
def MAXTAGLOOP : Nat := 100

/-- Modelled from the spec: field read with metatable handlers
(`luaV_gettable`): the raw field if present or if there is no `__index`
handler; a handler that is a function is called with the object and the key,
any other handler is indexed in turn. Indexing a value that has no handler,
a fault in a handler and a chain longer than `MAXTAGLOOP` are runtime errors,
here outside any protected call. -/
def luaV_gettable (rt : Runtime) :
    Nat → Heap → LuaValue → LuaValue → Except Fault (LuaValue × Heap)
  | 0, _, _, _ => .error Fault.panic
  | fuel + 1, h, t, key =>
    let viaHandler (tm : LuaValue) : Except Fault (LuaValue × Heap) :=
      match tm with
      | .function _ =>
        match rt.call h tm [t, key] with
        | (.returned vals, h1) => .ok (vals.headD LuaValue.nil, h1)
        | (.raised _ _, _) => .error Fault.panic
      | _ => luaV_gettable rt fuel h tm key
    match t with
    | .table id =>
      match h.table? id with
      | none => .error Fault.undefined
      | some tbl =>
        if tbl.rawget key ≠ LuaValue.nil then .ok (tbl.rawget key, h)
        else if h.metafield t "__index" = LuaValue.nil then .ok (LuaValue.nil, h)
        else viaHandler (h.metafield t "__index")
    | _ =>
      if h.metafield t "__index" = LuaValue.nil then .error Fault.panic
      else viaHandler (h.metafield t "__index")

/-- Modelled from the spec: field write with metatable handlers
(`luaV_settable`): a raw write if the field is present or there is no
`__newindex` handler (a nil key is a runtime error); otherwise the handler is
called, or written to in turn. -/
def luaV_settable (rt : Runtime) :
    Nat → Heap → LuaValue → LuaValue → LuaValue → Except Fault Heap
  | 0, _, _, _, _ => .error Fault.panic
  | fuel + 1, h, t, key, val =>
    let viaHandler (tm : LuaValue) : Except Fault Heap :=
      match tm with
      | .function _ =>
        match rt.call h tm [t, key, val] with
        | (.returned _, h1) => .ok h1
        | (.raised _ _, _) => .error Fault.panic
      | _ => luaV_settable rt fuel h tm key val
    match t with
    | .table id =>
      match h.table? id with
      | none => .error Fault.undefined
      | some tbl =>
        if tbl.rawget key ≠ LuaValue.nil ∨ h.metafield t "__newindex" = LuaValue.nil then
          if key = LuaValue.nil then .error Fault.panic
          else .ok (h.setTable id (tbl.rawset key val))
        else viaHandler (h.metafield t "__newindex")
    | _ =>
      if h.metafield t "__newindex" = LuaValue.nil then .error Fault.panic
      else viaHandler (h.metafield t "__newindex")

/-- Modelled from the spec: `lua_gettable`: the key on top of the stack is
replaced by the field of the value at the index. -/
def lua_gettable (rt : Runtime) (s : lua_State) (idx : Int) :
    Except Fault lua_State := do
  let t ← stackValue s idx
  match s.stack.getLast? with
  | none => throw Fault.undefined
  | some key =>
    let (v, h) ← luaV_gettable rt MAXTAGLOOP s.heap t key
    pure { s with stack := s.stack.dropLast ++ [v], heap := h }

/-- Modelled from the spec: `lua_getfield(L, idx, const char* k)`: the field
named by the C string `k` of the value at the index is pushed. -/
def lua_getfield (rt : Runtime) (s : lua_State) (idx : Int) (k : String) :
    Except Fault lua_State := do
  let t ← stackValue s idx
  let (v, h) ← luaV_gettable rt MAXTAGLOOP s.heap t (LuaValue.string (c_str k))
  pure { s with stack := s.stack ++ [v], heap := h }

/-- Modelled from the spec: `lua_rawgeti`: the raw field `n` of the table at
the index, or of the registry for `LUA_REGISTRYINDEX`, is pushed ("push value
for reference"); the index must hold a table. -/
def lua_rawgeti (s : lua_State) (idx : Int) (n : Int) : Except Fault lua_State :=
  if idx = LUA_REGISTRYINDEX then .ok (pushValue s (s.registry.lookup n))
  else do
    let t ← stackValue s idx
    match t with
    | .table id =>
      match s.heap.table? id with
      | some tbl => pure (pushValue s (tbl.rawget (LuaValue.number n)))
      | none => throw Fault.undefined
    | _ => throw Fault.undefined

/-- Modelled from the spec: `lua_settable`: key and value are popped from the
top of the stack and written to the value at the index. -/
def lua_settable (rt : Runtime) (s : lua_State) (idx : Int) :
    Except Fault lua_State := do
  let t ← stackValue s idx
  match s.stack.getLast?, s.stack.dropLast.getLast? with
  | some val, some key =>
    let h ← luaV_settable rt MAXTAGLOOP s.heap t key val
    pure { s with stack := s.stack.dropLast.dropLast, heap := h }
  | _, _ => throw Fault.undefined

/-- Modelled from the spec: `lua_setfield(L, idx, const char* k)`: the value
on top of the stack is popped and written to the field named by the C string
`k` of the value at the index. -/
def lua_setfield (rt : Runtime) (s : lua_State) (idx : Int) (k : String) :
    Except Fault lua_State := do
  let t ← stackValue s idx
  match s.stack.getLast? with
  | some val =>
    let h ← luaV_settable rt MAXTAGLOOP s.heap t (LuaValue.string (c_str k)) val
    pure { s with stack := s.stack.dropLast, heap := h }
  | none => throw Fault.undefined

/-- Modelled from the spec: `lua_newtable`: a new empty table is pushed. -/
def lua_newtable (s : lua_State) : lua_State :=
  { s with
    stack := s.stack ++ [LuaValue.table s.heap.freshTable]
    heap := s.heap.setTable s.heap.freshTable ⟨[], none⟩ }

/-- Modelled from the spec: `lua_getmetatable`: if the value at the index has
a metatable it is pushed and 1 is returned; otherwise nothing is pushed and 0
is returned. -/
def lua_getmetatable (s : lua_State) (idx : Int) : Except Fault (Int × lua_State) := do
  let obj ← stackValue s idx
  match s.heap.metatableOf obj with
  | some m => pure (1, pushValue s (LuaValue.table m))
  | none => pure (0, s)

/-- Modelled from the spec: `lua_setmetatable`: the table or nil on top of
the stack is popped and made the metatable of the value at the index (of
that table or opaque object, or of the whole basic type for other values). -/
def lua_setmetatable (s : lua_State) (idx : Int) : Except Fault (Int × lua_State) := do
  let obj ← stackValue s idx
  let mt ← (match s.stack.getLast? with
    | some LuaValue.nil => .ok none
    | some (LuaValue.table m) => .ok (some m)
    | _ => .error Fault.undefined : Except Fault (Option Nat))
  let h : Heap ← (match obj with
    | .table id =>
      match s.heap.table? id with
      | some tbl => .ok (s.heap.setTable id { tbl with metatable := mt })
      | none => .error Fault.undefined
    | .userdata id =>
      .ok { s.heap with udmeta :=
        match mt with
        | some m => (id, m) :: s.heap.udmeta.filter (fun p => p.1 ≠ id)
        | none => s.heap.udmeta.filter (fun p => p.1 ≠ id) }
    | v =>
      .ok { s.heap with typemeta :=
        match mt with
        | some m => (v.typeTag, m) :: s.heap.typemeta.filter (fun p => p.1 ≠ v.typeTag)
        | none => s.heap.typemeta.filter (fun p => p.1 ≠ v.typeTag) }
      : Except Fault Heap)
  pure (1, { s with stack := s.stack.dropLast, heap := h })

/-- Modelled from the spec: `lua_getfenv`: the environment table of the
function at the index is pushed, nil for a value that has none (opaque
objects carry no environment in the model). -/
def lua_getfenv (s : lua_State) (idx : Int) : Except Fault lua_State := do
  let o ← stackValue s idx
  match o with
  | .function id =>
    pure (pushValue s (((s.heap.fenv.find? (fun p => p.1 == id)).map Prod.snd).getD
      LuaValue.nil))
  | _ => pure (pushValue s LuaValue.nil)

/-- Modelled from the spec: `lua_setfenv`: the table on top of the stack is
popped and made the environment of the function at the index; returns 1 for
a function or an opaque object (whose environment the model does not keep)
and 0 for every other value, for which nothing is set. -/
def lua_setfenv (s : lua_State) (idx : Int) : Except Fault (Int × lua_State) := do
  let o ← stackValue s idx
  match s.stack.getLast? with
  | some (LuaValue.table e) =>
    match o with
    | .function id =>
      pure (1, { s with
        stack := s.stack.dropLast
        heap := { s.heap with fenv :=
          (id, LuaValue.table e) :: s.heap.fenv.filter (fun p => p.1 ≠ id) } })
    | .userdata _ => pure (1, { s with stack := s.stack.dropLast })
    | _ => pure (0, { s with stack := s.stack.dropLast })
  | _ => throw Fault.undefined

/-- Modelled from the spec: `LUA_MULTRET`, "all results". -/
def LUA_MULTRET : Int := -1

/-- Modelled from the spec: `lua_pcall(L, nargs, LUA_MULTRET, 0)`, the
protected call: the function and its `nargs` arguments are popped; on
success all results are pushed and 0 is returned; a fault is turned into its
status code and one pushed error value. -/
def lua_pcall (rt : Runtime) (s : lua_State) (nargs : Int) (_nresults : Int)
    (_errfunc : Int) : Except Fault (Int × lua_State) :=
  if nargs < 0 ∨ (s.stack.length : Int) < nargs + 1 then .error Fault.undefined
  else
    let base := s.stack.length - (nargs.toNat + 1)
    match s.stack.drop base with
    | [] => .error Fault.undefined
    | f :: args =>
      match rt.call s.heap f args with
      | (.returned vals, h) =>
        .ok (0, { s with stack := s.stack.take base ++ vals, heap := h })
      | (.raised kind err, h) =>
        .ok (kind.code, { s with stack := s.stack.take base ++ [err], heap := h })

/-! ## LuaRegRef (`LuaRegistryRef.h`) -/

/-- The data members of `class LuaRegRef`. -/
structure LuaRegRef where
  mLua : Bool
  mRegKey : Int
  deriving DecidableEq, Repr

namespace LuaRegRef

/-- `LuaRegRef::getRef(lua_State* lua, int stackPos)`. -/
def getRef (lua : Bool) (stackPos : Int) (s : lua_State) :
    Except Fault (Int × lua_State) := do
  cassert lua
  if stackPos > 0 ∧ stackPos > lua_gettop s then pure (LUA_NOREF, s)
  else if stackPos < 0 ∧ -stackPos > lua_gettop s then pure (LUA_NOREF, s)
  else if stackPos == 0 then pure (LUA_NOREF, s)
  else do
    cassert (lua_checkstack s 1)
    let s1 ← lua_pushvalue s stackPos
    luaL_ref s1 LUA_REGISTRYINDEX

/-- `LuaRegRef::isNil()`. -/
def isNil (self : LuaRegRef) : Bool :=
  self.mRegKey == LUA_NOREF || self.mRegKey == LUA_REFNIL

/-- `LuaRegRef::pushObj()`. -/
def pushObj (self : LuaRegRef) (s : lua_State) : Except Fault lua_State := do
  cassert self.mLua
  lua_rawgeti s LUA_REGISTRYINDEX self.mRegKey

/-- `LuaRegRef::copyRef(const LuaRegRef& rhs)`. -/
def copyRef (rhs : LuaRegRef) (s : lua_State) : Except Fault (Int × lua_State) :=
  if rhs.isNil then pure (LUA_NOREF, s)
  else do
    cassert rhs.mLua
    let s1 ← rhs.pushObj s
    luaL_ref s1 LUA_REGISTRYINDEX

/-- `LuaRegRef::LuaRegRef()`, the nil reference. -/
def ctorNil : LuaRegRef := { mLua := false, mRegKey := LUA_NOREF }

/-- `LuaRegRef::LuaRegRef(lua_State* lua, int stackPos = -1)`. -/
def ctor (lua : Bool) (stackPos : Int) (s : lua_State) :
    Except Fault (LuaRegRef × lua_State) := do
  let (key, s1) ← getRef lua stackPos s
  pure ({ mLua := lua, mRegKey := key }, s1)

/-- `LuaRegRef::~LuaRegRef()`. -/
def dtor (self : LuaRegRef) (s : lua_State) : lua_State :=
  if self.mLua then luaL_unref s LUA_REGISTRYINDEX self.mRegKey else s

/-- `LuaRegRef::LuaRegRef(const LuaRegRef& rhs)`. -/
def copyCtor (rhs : LuaRegRef) (s : lua_State) :
    Except Fault (LuaRegRef × lua_State) := do
  let (key, s1) ← copyRef rhs s
  pure ({ mLua := rhs.mLua, mRegKey := key }, s1)

/-- `LuaRegRef::operator=(const LuaRegRef& rhs)`; the result is the new
content of the assigned handle `_self`. -/
def assign (_self rhs : LuaRegRef) (s : lua_State) :
    Except Fault (LuaRegRef × lua_State) := do
  let (key, s1) ← copyRef rhs s
  pure ({ mLua := rhs.mLua, mRegKey := key }, s1)

/-- `LuaRegRef::reset(lua_State* lua, int stackPos = -1)`. -/
def reset (self : LuaRegRef) (lua : Bool) (stackPos : Int) (s : lua_State) :
    Except Fault (LuaRegRef × lua_State) := do
  let (self1, s1) :=
    if self.mLua then (self, luaL_unref s LUA_REGISTRYINDEX self.mRegKey)
    else ({ self with mLua := lua }, s)
  cassert self1.mLua
  let (key, s2) ← getRef self1.mLua stackPos s1
  pure ({ self1 with mRegKey := key }, s2)

/-- `LuaRegRef::setNil()`. -/
def setNil (self : LuaRegRef) (s : lua_State) :
    Except Fault (LuaRegRef × lua_State) := do
  cassert self.mLua
  let s1 := luaL_unref s LUA_REGISTRYINDEX self.mRegKey
  pure ({ self with mRegKey := LUA_REFNIL }, s1)

/-- `LuaRegRef::getRegKey()`. -/
def getRegKey (self : LuaRegRef) : Int := self.mRegKey

/-- `LuaRegRef::operator==`. -/
def eq (self rhs : LuaRegRef) : Bool := self.mRegKey == rhs.mRegKey

/-- `LuaRegRef::operator!=`. -/
def ne (self rhs : LuaRegRef) : Bool := self.mRegKey != rhs.mRegKey

/-- `LuaRegRef::getTypeID()`. -/
def getTypeID (self : LuaRegRef) (s : lua_State) : Except Fault (Int × lua_State) := do
  cassert self.mLua
  if self.isNil then pure (LUA_TNIL, s)
  else do
    let s1 ← self.pushObj s
    let refType ← lua_type s1 (-1)
    let s2 ← lua_pop s1 1
    pure (refType, s2)

end LuaRegRef

/-! ## LuaStackCleaner (`LuaStackCleaner.h`) -/

/-- The data members of `class LuaStackCleaner`. -/
structure LuaStackCleaner where
  mLua : Bool
  mStackTop : Int
  deriving DecidableEq, Repr

namespace LuaStackCleaner

/-- `LuaStackCleaner::LuaStackCleaner(lua_State* L)`; the initialiser reads
`lua_gettop(L)` before the body asserts `L`. -/
def ctor (L : Bool) (s : lua_State) : Except Fault LuaStackCleaner := do
  if !L then throw Fault.undefined
  cassert L
  pure { mLua := L, mStackTop := lua_gettop s }

/-- `LuaStackCleaner::~LuaStackCleaner()`. -/
def dtor (self : LuaStackCleaner) (s : lua_State) : Except Fault lua_State :=
  lua_settop s self.mStackTop

/-- `LuaStackCleaner::willPop(int n)`. -/
def willPop (self : LuaStackCleaner) (s : lua_State) (n : Int) : Bool :=
  n == lua_gettop s - self.mStackTop

/-- `LuaStackCleaner::getStackLevelOrig()`. -/
def getStackLevelOrig (self : LuaStackCleaner) : Int := self.mStackTop

end LuaStackCleaner

/-! ## Marshalling adapters (`LuaAdapters.h`) -/

/-- The conversion `(int)` of a `lua_Integer` (`(TT)FN(lua, stackPos)` with
`TT = int`): the value is kept modulo `2^32`, in the range of a 32-bit
`int`. -/
def toInt32 (n : Int) : Int := (n + 2 ^ 31) % 2 ^ 32 - 2 ^ 31

/-- `getObjFromStack<int>(lua_State* lua, int stackPos = -1)`. -/
def getObjFromStack_int (lua : Bool) (stackPos : Int) (s : lua_State) :
    Except Fault Int := do
  cassert lua
  if stackPos == LUA_UNACCEPTABLE_STACK_POS then pure 0
  else do
    let n ← lua_tointeger s stackPos
    pure (toInt32 n)

/-- `getObjFromStack<bool>(lua_State* lua, int stackPos = -1)`. -/
def getObjFromStack_bool (lua : Bool) (stackPos : Int) (s : lua_State) :
    Except Fault Bool := do
  cassert lua
  if stackPos == LUA_UNACCEPTABLE_STACK_POS then pure false
  else lua_toboolean s stackPos

/-- `getObjFromStack<const char*>` and `getObjFromStack<std::string>`. -/
def getObjFromStack_string (lua : Bool) (stackPos : Int) (s : lua_State) :
    Except Fault (String × lua_State) := do
  cassert lua
  if stackPos == LUA_UNACCEPTABLE_STACK_POS then pure ("", s)
  else do
    let (str, s1) ← lua_tostring s stackPos
    pure (str.getD "", s1)

/-! ## LuaTempResult (`LuaTempResult.h`) -/

/-- The data members of `class LuaTempResult`. -/
structure LuaTempResult where
  mLua : Bool
  mErrCode : Int
  mPrevStackTop : Int
  mNumRetVal : Int
  deriving DecidableEq, Repr

/-- The data members of `class LuaTempResult::Item`. -/
structure LuaTempResult.Item where
  mLua : Bool
  mStackPos : Int
  mErrCode : Int
  deriving DecidableEq, Repr

namespace LuaTempResult

/-- `LuaTempResult::FIRST_ITEM_INDEX`. -/
def FIRST_ITEM_INDEX : Int := 1

/-- `LuaTempResult::LuaTempResult(lua_State*, int prevStackTop, int errCode,
const std::string& errMsgPrefix)`. The member initialisers read
`lua_gettop(lua)` before the body asserts `lua`. -/
def ctor (lua : Bool) (prevStackTop : Int) (errCode : Int)
    (errMsgPrefix : String) (s : lua_State) :
    Except Fault (LuaTempResult × lua_State) := do
  if !lua then throw Fault.undefined
  let self : LuaTempResult :=
    { mLua := lua, mErrCode := errCode, mPrevStackTop := prevStackTop,
      mNumRetVal := lua_gettop s - prevStackTop }
  cassert lua
  cassert (decide (self.mNumRetVal ≥ 0))
  cassert (self.mErrCode == LUA_ERR_NONE || self.mNumRetVal == 1)
  if self.mErrCode != 0 then
    let (str, s1) ← lua_tostring s (prevStackTop + 1)
    match str with
    | none => throw Fault.undefined
    | some msg =>
      let errMsg := errMsgPrefix ++ ": " ++ msg
      cassert (lua_checkstack s1 1)
      let s2 := lua_pushstring s1 errMsg
      let s3 ← lua_replace s2 (prevStackTop + 1)
      pure (self, s3)
  else
    pure (self, s)

/-- `LuaTempResult::~LuaTempResult()`. -/
def dtor (self : LuaTempResult) (s : lua_State) : Except Fault lua_State := do
  cassert (lua_gettop s == self.mPrevStackTop + self.mNumRetVal)
  lua_settop s self.mPrevStackTop

/-- `LuaTempResult::isError()`. -/
def isError (self : LuaTempResult) : Bool := self.mErrCode != LUA_ERR_NONE

/-- `LuaTempResult::ok()`. -/
def ok (self : LuaTempResult) : Bool := !self.isError

/-- `LuaTempResult::getErrCode()`. -/
def getErrCode (self : LuaTempResult) : Int := self.mErrCode

/-- `LuaTempResult::getNumItems()`. -/
def getNumItems (self : LuaTempResult) : Int := self.mNumRetVal

/-- `LuaTempResult::getLuaState()`. -/
def getLuaState (self : LuaTempResult) : Bool := self.mLua

/-- `LuaTempResult::getStackPos(int index)`. -/
def getStackPos (self : LuaTempResult) (index : Int) : Int :=
  if index > 0 ∧ index ≤ self.mNumRetVal then
    if self.mErrCode != 0 then self.mPrevStackTop + 1
    else self.mPrevStackTop + index + (1 - FIRST_ITEM_INDEX)
  else if index < 0 ∧ index ≥ -self.mNumRetVal then
    if self.mErrCode != 0 then self.mPrevStackTop + 1
    else self.mPrevStackTop + self.mNumRetVal + 1 + index
  else LUA_UNACCEPTABLE_STACK_POS

/-- `LuaTempResult::Item::Item(lua_State*, int stackPos, LuaErrCode)`. -/
def Item.ctor (lua : Bool) (stackPos : Int) (errCode : Int) :
    Except Fault LuaTempResult.Item := do
  cassert lua
  pure { mLua := lua, mStackPos := stackPos, mErrCode := errCode }

/-- `LuaTempResult::getItem(int index)`. -/
def getItem (self : LuaTempResult) (index : Int) :
    Except Fault LuaTempResult.Item :=
  Item.ctor self.mLua (self.getStackPos index) self.mErrCode

/-- `LuaTempResult::operator[](int index)`. -/
def index (self : LuaTempResult) (index : Int) :
    Except Fault LuaTempResult.Item :=
  self.getItem index

/-- `LuaTempResult::getErrMsg()`; a `NULL` from `lua_tostring` cannot be made
into a `std::string`. -/
def getErrMsg (self : LuaTempResult) (s : lua_State) :
    Except Fault (String × lua_State) := do
  if self.mErrCode != 0 then
    if !self.mLua then throw Fault.undefined
    let (str, s1) ← lua_tostring s (self.mPrevStackTop + 1)
    match str with
    | none => throw Fault.undefined
    | some msg => pure (msg, s1)
  else
    pure ("", s)

/-- `LuaTempResult::Item::isInvalid()`. -/
def Item.isInvalid (self : LuaTempResult.Item) : Bool :=
  self.mErrCode != 0 || self.mStackPos == LUA_UNACCEPTABLE_STACK_POS

/-- `LuaTempResult::Item::isError()`. -/
def Item.isError (self : LuaTempResult.Item) : Bool :=
  self.mErrCode != LUA_ERR_NONE

end LuaTempResult

/-! ## LuaTempResult: items on the stack (`LuaTempResult.h`, continued) -/

/-- A C API call through the connection pointer: undefined for `NULL`. -/
def deref (lua : Bool) : Except Fault Unit :=
  if lua then .ok () else .error Fault.undefined

/-- `isStackPosAcceptable(lua_State* lua, int pos)`. -/
def isStackPosAcceptable (s : lua_State) (pos : Int) : Bool :=
  pos != 0 && decide (|pos| ≤ lua_gettop s)

/-- `LuaTempResult::Item::push()`. -/
def LuaTempResult.Item.push (self : LuaTempResult.Item) (s : lua_State) :
    Except Fault lua_State := do
  deref self.mLua
  cassert (lua_checkstack s 1)
  if self.isInvalid then pure (lua_pushnil s)
  else lua_pushvalue s self.mStackPos

/-- `LuaTempResult::push(int index = FIRST_ITEM_INDEX)`. -/
def LuaTempResult.push (self : LuaTempResult) (index : Int) (s : lua_State) :
    Except Fault lua_State := do
  deref self.mLua
  if self.mErrCode != 0 then pure (lua_pushnil s)
  else do
    let stackPos := self.getStackPos index
    cassert (lua_checkstack s 1)
    if isStackPosAcceptable s stackPos then lua_pushvalue s stackPos
    else pure (lua_pushnil s)

/-- `LuaTempResult::getAs<int>(int indx = FIRST_ITEM_INDEX)`. -/
def LuaTempResult.getAs_int (self : LuaTempResult) (index : Int) (s : lua_State) :
    Except Fault Int :=
  getObjFromStack_int self.mLua (self.getStackPos index) s

/-- `LuaTempResult::getAs<std::string>(int indx = FIRST_ITEM_INDEX)`. -/
def LuaTempResult.getAs_string (self : LuaTempResult) (index : Int) (s : lua_State) :
    Except Fault (String × lua_State) :=
  getObjFromStack_string self.mLua (self.getStackPos index) s

/-- `LuaTempResult::Item::getAs<int>()`. -/
def LuaTempResult.Item.getAs_int (self : LuaTempResult.Item) (s : lua_State) :
    Except Fault Int :=
  getObjFromStack_int self.mLua
    (if self.mErrCode != 0 then LUA_UNACCEPTABLE_STACK_POS else self.mStackPos) s

/-- `LuaTempResult::Item::getAs<std::string>()`. -/
def LuaTempResult.Item.getAs_string (self : LuaTempResult.Item) (s : lua_State) :
    Except Fault (String × lua_State) :=
  getObjFromStack_string self.mLua
    (if self.mErrCode != 0 then LUA_UNACCEPTABLE_STACK_POS else self.mStackPos) s

/-- `LuaTempResult::Item::getTypeID()`. -/
def LuaTempResult.Item.getTypeID (self : LuaTempResult.Item) (s : lua_State) :
    Except Fault Int :=
  if self.isInvalid then pure LUA_TNIL
  else do
    deref self.mLua
    lua_type s self.mStackPos

/-- `LuaTempResult::Item::isNil()`. -/
def LuaTempResult.Item.isNil (self : LuaTempResult.Item) (s : lua_State) :
    Except Fault Bool :=
  if self.isInvalid then pure true
  else do
    deref self.mLua
    lua_isnil s self.mStackPos

/-- `LuaTempResult::isNil(int indx = FIRST_ITEM_INDEX)`. -/
def LuaTempResult.isNil (self : LuaTempResult) (indx : Int) (s : lua_State) :
    Except Fault Bool :=
  if self.mErrCode != 0 then pure true
  else do
    let stackPos := self.getStackPos indx
    deref self.mLua
    if isStackPosAcceptable s stackPos then lua_isnil s stackPos
    else pure true

/-! ## LuaObjRef (`LuaObjRef.h`, `LuaObjRef.cpp`) -/

/-- The data members of `class LuaObjRef`; `LuaTableRef`, `LuaFuncRef` and
`LuaClassObjRef` derive from it without adding state. -/
structure LuaObjRef where
  mLua : Bool
  mRegKey : LuaRegRef
  mID : String
  mErrCode : Int
  deriving DecidableEq, Repr

/-- `enum LuaObjRef::MetaMethod`. -/
inductive MetaMethod where
  | MM_ADD
  | MM_MULTIPLY
  | MM_SUBTRACT
  | MM_DIVIDE
  | MM_UNARY_MINUS
  | MM_NEGATE
  | MM_CONCATENATE
  | MM_EQUAL
  | MM_LESS_THAN
  | MM_LESS_OR_EQUAL
  | MM_TOSTRING
  | MM_INDEX
  | MM_FIELD
  | MM_NEW_INDEX
  | MM_NEW_FIELD
  deriving DecidableEq, Repr

namespace LuaObjRef

/-- `LuaObjRef::LuaObjRef(const std::string& id = "nil")`. -/
def ctorNil (id : String) : Except Fault LuaObjRef := do
  let self : LuaObjRef :=
    { mLua := false, mRegKey := LuaRegRef.ctorNil, mID := id, mErrCode := LUA_NO_LUA }
  cassert self.mRegKey.isNil
  pure self

/-- `LuaObjRef::LuaObjRef(lua_State* lua, int stackPos)`. -/
def ctor (lua : Bool) (stackPos : Int) (s : lua_State) :
    Except Fault (LuaObjRef × lua_State) := do
  let (regKey, s1) ← LuaRegRef.ctor lua stackPos s
  cassert (stackPos != 0)
  pure ({ mLua := lua, mRegKey := regKey, mID := "", mErrCode := LUA_ERR_NONE }, s1)

/-- `LuaObjRef::LuaObjRef(const LuaTempResult::Item& resultItem)`. -/
def ctorItem (resultItem : LuaTempResult.Item) (s : lua_State) :
    Except Fault (LuaObjRef × lua_State) := do
  let (regKey, s1) ← LuaRegRef.ctor resultItem.mLua resultItem.mStackPos s
  pure ({ mLua := resultItem.mLua, mRegKey := regKey, mID := "",
          mErrCode := resultItem.mErrCode }, s1)

/-- `LuaObjRef::LuaObjRef(const LuaTempResult& result)`. -/
def ctorResult (result : LuaTempResult) (s : lua_State) :
    Except Fault (LuaObjRef × lua_State) := do
  let (regKey, s1) ← LuaRegRef.ctor result.getLuaState (result.getStackPos 1) s
  pure ({ mLua := result.getLuaState, mRegKey := regKey, mID := "",
          mErrCode := result.getErrCode }, s1)

/-- `LuaObjRef::~LuaObjRef()`: the member `mRegKey` is destroyed. -/
def dtor (self : LuaObjRef) (s : lua_State) : lua_State := self.mRegKey.dtor s

/-- `LuaObjRef::resetRef(const LuaTempResult::Item& resultItem)`. -/
def resetRef (self : LuaObjRef) (resultItem : LuaTempResult.Item) (s : lua_State) :
    Except Fault (LuaObjRef × lua_State) := do
  let (regKey, s1) ← self.mRegKey.reset resultItem.mLua resultItem.mStackPos s
  pure ({ self with mLua := resultItem.mLua, mRegKey := regKey,
                    mErrCode := resultItem.mErrCode }, s1)

/-- `LuaObjRef::resetRef(const LuaTempResult& result)`, `resetRef(result[1])`. -/
def resetRefResult (self : LuaObjRef) (result : LuaTempResult) (s : lua_State) :
    Except Fault (LuaObjRef × lua_State) := do
  let item ← result.index 1
  self.resetRef item s

/-- `LuaObjRef::setNil()`. -/
def setNil (self : LuaObjRef) (s : lua_State) : Except Fault (LuaObjRef × lua_State) := do
  let (regKey, s1) ← self.mRegKey.setNil s
  pure ({ self with mRegKey := regKey }, s1)

/-- `LuaObjRef::isNil()`. -/
def isNil (self : LuaObjRef) : Bool :=
  if self.mErrCode != 0 then true else self.mRegKey.isNil

/-- `LuaObjRef::getTypeID()`. -/
def getTypeID (self : LuaObjRef) (s : lua_State) : Except Fault (Int × lua_State) :=
  if self.mErrCode != 0 then pure (LUA_TNIL, s) else self.mRegKey.getTypeID s

/-- `LuaObjRef::isError()`. -/
def isError (self : LuaObjRef) : Bool := self.mErrCode != LUA_ERR_NONE

/-- `LuaObjRef::getID()`. -/
def getID (self : LuaObjRef) : String := self.mID

/-- `LuaObjRef::getLuaState()`. -/
def getLuaState (self : LuaObjRef) : Bool := self.mLua

/-- `LuaObjRef::pushObj()`. -/
def pushObj (self : LuaObjRef) (s : lua_State) : Except Fault lua_State :=
  if self.mErrCode != 0 then do
    deref self.mLua
    cassert (lua_checkstack s 1)
    pure (lua_pushnil s)
  else self.mRegKey.pushObj s

/-- `LuaObjRef::getAs<int>()`. -/
def getAs_int (self : LuaObjRef) (s : lua_State) : Except Fault (Int × lua_State) :=
  if self.mErrCode != 0 then pure (0, s)
  else do
    let sc ← LuaStackCleaner.ctor self.mLua s
    let s1 ← self.mRegKey.pushObj s
    let v ← getObjFromStack_int self.mLua (-1) s1
    let s2 ← sc.dtor s1
    pure (v, s2)

/-- `LuaObjRef::getAs<bool>()`. -/
def getAs_bool (self : LuaObjRef) (s : lua_State) : Except Fault (Bool × lua_State) :=
  if self.mErrCode != 0 then pure (false, s)
  else do
    let sc ← LuaStackCleaner.ctor self.mLua s
    let s1 ← self.mRegKey.pushObj s
    let v ← getObjFromStack_bool self.mLua (-1) s1
    let s2 ← sc.dtor s1
    pure (v, s2)

/-- `LuaObjRef::getAs<std::string>()`. -/
def getAs_string (self : LuaObjRef) (s : lua_State) : Except Fault (String × lua_State) :=
  if self.mErrCode != 0 then pure ("", s)
  else do
    let sc ← LuaStackCleaner.ctor self.mLua s
    let s1 ← self.mRegKey.pushObj s
    let (v, s2) ← getObjFromStack_string self.mLua (-1) s1
    let s3 ← sc.dtor s2
    pure (v, s3)

/-- `LuaObjRef::getErrMsg()`. -/
def getErrMsg (self : LuaObjRef) (s : lua_State) : Except Fault (String × lua_State) :=
  if !(self.mErrCode != 0) then pure ("", s)
  else if self.mErrCode == LUA_NO_LUA then pure ("No Lua interpreter", s)
  else do
    let sc ← LuaStackCleaner.ctor self.mLua s
    let s1 ← self.mRegKey.pushObj s
    let (v, s2) ← getObjFromStack_string self.mLua (-1) s1
    let s3 ← sc.dtor s2
    pure (v, s3)

/-- `LuaObjRef::getMetaMethodFromID(MetaMethod id)`. -/
def getMetaMethodFromID : MetaMethod → String
  | .MM_ADD => "__add"
  | .MM_SUBTRACT => "__sub"
  | .MM_MULTIPLY => "__mul"
  | .MM_DIVIDE => "__div"
  | .MM_UNARY_MINUS => "__unm"
  | .MM_NEGATE => "__unm"
  | .MM_CONCATENATE => "__concat"
  | .MM_EQUAL => "__eq"
  | .MM_LESS_THAN => "__lt"
  | .MM_LESS_OR_EQUAL => "__le"
  | .MM_TOSTRING => "__tostring"
  | .MM_INDEX => "__index"
  | .MM_FIELD => "__index"
  | .MM_NEW_INDEX => "__newindex"
  | .MM_NEW_FIELD => "__newindex"

/-- `LuaObjRef::setMetaProtected(bool val = true)`. -/
def setMetaProtected (rt : Runtime) (self : LuaObjRef) (val : Bool) (s : lua_State) :
    Except Fault (Bool × lua_State) := do
  cassert self.mLua
  let sc ← LuaStackCleaner.ctor self.mLua s
  let s1 ← self.pushObj s
  cassert (lua_checkstack s1 2)
  let (has, s2) ← lua_getmetatable s1 (-1)
  if has == 0 then
    cassert (sc.willPop s2 1)
    let s3 ← sc.dtor s2
    pure (false, s3)
  else
    let s3 := if val then lua_pushstring s2 "protected!" else lua_pushnil s2
    let s4 ← lua_setfield rt s3 (-2) "__metatable"
    cassert (sc.willPop s4 2)
    let s5 ← sc.dtor s4
    pure (true, s5)

/-- `LuaObjRef::setMetaTable(const LuaTableRef& metatable)`. -/
def setMetaTable (self : LuaObjRef) (metatable : LuaObjRef) (s : lua_State) :
    Except Fault (Unit × lua_State) := do
  cassert self.mLua
  let sc ← LuaStackCleaner.ctor self.mLua s
  let s1 ← self.pushObj s
  let s2 ← metatable.pushObj s1
  let (_, s3) ← lua_setmetatable s2 (-2)
  cassert (sc.willPop s3 1)
  let s4 ← sc.dtor s3
  pure ((), s4)

/-- `LuaObjRef::getMetaTable()`. -/
def getMetaTable (self : LuaObjRef) (s : lua_State) :
    Except Fault (LuaTempResult × lua_State) := do
  cassert self.mLua
  let prevStackTop := lua_gettop s
  let s1 ← self.pushObj s
  let (has, s2) ← lua_getmetatable s1 (-1)
  let s3 ← (if has != 0 then lua_remove s2 (-2)
    else do
      let s2a ← lua_pop s2 1
      pure (lua_pushnil s2a))
  cassert (lua_gettop s3 == prevStackTop + 1)
  LuaTempResult.ctor self.mLua prevStackTop 0 "" s3

/-- `LuaObjRef::hasMetaTable()`. -/
def hasMetaTable (self : LuaObjRef) (s : lua_State) : Except Fault (Bool × lua_State) := do
  cassert self.mLua
  let sc ← LuaStackCleaner.ctor self.mLua s
  let s1 ← self.pushObj s
  let (has, s2) ← lua_getmetatable s1 (-1)
  let s3 ← sc.dtor s2
  pure (has != 0, s3)

/-- `LuaObjRef::setMetaMethod(MetaMethod id, const LuaFuncRef& func)`. -/
def setMetaMethod (rt : Runtime) (self : LuaObjRef) (id : MetaMethod) (func : LuaObjRef)
    (s : lua_State) : Except Fault (Unit × lua_State) := do
  cassert self.mLua
  let sc ← LuaStackCleaner.ctor self.mLua s
  let s1 ← self.pushObj s
  let (has, s2) ← lua_getmetatable s1 (-1)
  let s3 := if has == 0 then lua_newtable s2 else s2
  let s4 ← func.pushObj s3
  let s5 ← lua_setfield rt s4 (-2) (getMetaMethodFromID id)
  cassert (sc.willPop s5 2)
  let s6 ← sc.dtor s5
  pure ((), s6)

/-- `LuaObjRef::hasMetaBase()`. -/
def hasMetaBase (rt : Runtime) (self : LuaObjRef) (s : lua_State) :
    Except Fault (Bool × lua_State) := do
  cassert self.mLua
  let sc ← LuaStackCleaner.ctor self.mLua s
  let s1 ← self.pushObj s
  let (_, s2) ← lua_getmetatable s1 (-1)
  if (← lua_isnil s2 (-1)) then
    cassert (sc.willPop s2 2)
    let s3 ← sc.dtor s2
    pure (false, s3)
  else
    let s3 ← lua_getfield rt s2 (-2) "__index"
    let hasBase ← lua_isnil s3 (-1)
    cassert (sc.willPop s3 3)
    let s4 ← sc.dtor s3
    pure (hasBase, s4)

/-- `LuaObjRef::setMetaBase(const LuaTableRef& baseTable)`. -/
def setMetaBase (rt : Runtime) (self : LuaObjRef) (baseTable : LuaObjRef) (s : lua_State) :
    Except Fault (Unit × lua_State) := do
  cassert self.mLua
  let sc ← LuaStackCleaner.ctor self.mLua s
  let s1 ← self.pushObj s
  let (has, s2) ← lua_getmetatable s1 (-1)
  let s3 ← (if has == 0 then do
      cassert (lua_checkstack s2 2)
      let s2a := lua_newtable s2
      let s2b ← lua_pushvalue s2a (-1)
      let (_, s2c) ← lua_setmetatable s2b (-3)
      pure s2c
    else pure s2)
  let s4 ← baseTable.pushObj s3
  let s5 ← lua_setfield rt s4 (-2) "__index"
  cassert (sc.willPop s5 2)
  let s6 ← sc.dtor s5
  pure ((), s6)

end LuaObjRef

/-! ## Values the host hands to the runtime (`pushValToStack` overloads) -/

/-- A host value used as a table key (`KeyType` of `LuaTableRef`): the
primitive types of `LuaAdapters.h` (numbers are integers in the model) and
object references. -/
inductive HostKey where
  | boolean (b : Bool)
  | integer (n : Int)
  | text (str : String)
  | objRef (o : LuaObjRef)
  deriving DecidableEq, Repr

/-- A host value accepted as a function-call argument: a key-like value or a
table field `table[key]` (`LuaTableRef::Field<KeyType>`).
`NotAllowedAsFunctionArgument` excludes `LuaTempResult` and its `Item` at
compile time. -/
inductive CallArg where
  | key (k : HostKey)
  | field (table : LuaObjRef) (k : HostKey)
  deriving DecidableEq, Repr

/-- A host value accepted by `pushValToStack`, as `setField` takes it. -/
inductive HostValue where
  | arg (a : CallArg)
  | item (it : LuaTempResult.Item)
  | result (r : LuaTempResult)
  deriving DecidableEq, Repr

/-- `pushValToStack(lua_State* L, ...)` for `bool`, `int`/`long`,
`const char*`/`std::string` and `const LuaObjRef&`. -/
def pushValToStack_key (L : Bool) (k : HostKey) (s : lua_State) :
    Except Fault lua_State :=
  match k with
  | .boolean b => do
    deref L
    cassert (lua_checkstack s 1)
    pure (lua_pushboolean s b)
  | .integer n => do
    deref L
    cassert (lua_checkstack s 1)
    pure (lua_pushinteger s n)
  | .text str => do
    deref L
    cassert (lua_checkstack s 1)
    pure (lua_pushstring s str)
  | .objRef o => o.pushObj s

/-! ## LuaTableRef (`LuaTableRef.h`) -/

namespace LuaTableRef

/-- `LuaTableRef::pushFieldValue(key)`, the table being on top of the stack:
`lua_rawgeti` for an `int` key, `lua_getfield` for a string key, and
`pushValToStack(mLua, key); lua_gettable(mLua, -2)` for every other type. -/
def pushFieldValue (rt : Runtime) (self : LuaObjRef) (key : HostKey) (s : lua_State) :
    Except Fault lua_State :=
  match key with
  | .integer n => do
    deref self.mLua
    cassert (lua_checkstack s 1)
    lua_rawgeti s (-1) n
  | .text str => do
    deref self.mLua
    cassert (lua_checkstack s 1)
    lua_getfield rt s (-1) str
  | k => do
    let s1 ← pushValToStack_key self.mLua k s
    lua_gettable rt s1 (-2)

/-- `LuaTableRef::Field<KeyType>::pushObj()`. -/
def Field.pushObj (rt : Runtime) (mTable : LuaObjRef) (mKey : HostKey) (s : lua_State) :
    Except Fault lua_State := do
  let s1 ← mTable.pushObj s
  let s2 ← pushFieldValue rt mTable mKey s1
  deref mTable.getLuaState
  lua_remove s2 (-2)

end LuaTableRef

/-- `pushValToStack(lua_State* L, ...)` for the types a call accepts. -/
def pushValToStack_arg (rt : Runtime) (L : Bool) (a : CallArg) (s : lua_State) :
    Except Fault lua_State :=
  match a with
  | .key k => pushValToStack_key L k s
  | .field table k => LuaTableRef.Field.pushObj rt table k s

/-- `pushValToStack(lua_State* L, ...)`, all overloads; for a
`LuaTempResult::Item` the source asserts `L == objRef.mLua`. -/
def pushValToStack (rt : Runtime) (L : Bool) (v : HostValue) (s : lua_State) :
    Except Fault lua_State :=
  match v with
  | .arg a => pushValToStack_arg rt L a s
  | .item it => do
    cassert (L == it.mLua)
    if it.mErrCode != 0 then do
      deref L
      cassert (lua_checkstack s 1)
      pure (lua_pushnil s)
    else it.push s
  | .result r => r.push LuaTempResult.FIRST_ITEM_INDEX s

namespace LuaTableRef

/-- `LuaTableRef::hasField(const KeyType& key)`. -/
def hasField (rt : Runtime) (self : LuaObjRef) (key : HostKey) (s : lua_State) :
    Except Fault (Bool × lua_State) := do
  let sc ← LuaStackCleaner.ctor self.mLua s
  let s1 ← self.pushObj s
  let s2 ← pushFieldValue rt self key s1
  cassert (sc.willPop s2 2)
  let isnil ← lua_isnil s2 (-1)
  let s3 ← sc.dtor s2
  pure (!isnil, s3)

/-- `LuaTableRef::getField(const KeyType& key)`. -/
def getField (rt : Runtime) (self : LuaObjRef) (key : HostKey) (s : lua_State) :
    Except Fault (LuaTempResult × lua_State) := do
  deref self.mLua
  let prevStackTop := lua_gettop s
  let s1 ← self.pushObj s
  let s2 ← pushFieldValue rt self key s1
  let s3 ← lua_remove s2 (-2)
  LuaTempResult.ctor self.mLua prevStackTop 0 "" s3

/-- `LuaTableRef::setField(key, obj)`: the overload for `const char*` and
`std::string` keys uses `lua_setfield`, the template for every other key
type pushes the key and uses `lua_settable`. -/
def setField (rt : Runtime) (self : LuaObjRef) (key : HostKey) (obj : HostValue)
    (s : lua_State) : Except Fault (Unit × lua_State) :=
  match key with
  | .text str => do
    let sc ← LuaStackCleaner.ctor self.mLua s
    let s1 ← self.pushObj s
    let s2 ← pushValToStack rt self.mLua obj s1
    let s3 ← lua_setfield rt s2 (-2) str
    cassert (sc.willPop s3 1)
    let s4 ← sc.dtor s3
    pure ((), s4)
  | k => do
    let sc ← LuaStackCleaner.ctor self.mLua s
    let s1 ← self.pushObj s
    let s2 ← pushValToStack_key self.mLua k s1
    let s3 ← pushValToStack rt self.mLua obj s2
    let s4 ← lua_settable rt s3 (-3)
    cassert (sc.willPop s4 1)
    let s5 ← sc.dtor s4
    pure ((), s5)

/-- `LuaTableRef::delField(key)`: the overload for `const char*` and
`std::string` keys, and the template for every other key type. -/
def delField (rt : Runtime) (self : LuaObjRef) (key : HostKey) (s : lua_State) :
    Except Fault (Unit × lua_State) :=
  match key with
  | .text str => do
    let sc ← LuaStackCleaner.ctor self.mLua s
    let s1 ← self.pushObj s
    cassert (lua_checkstack s1 1)
    let s2 := lua_pushnil s1
    let s3 ← lua_setfield rt s2 (-2) str
    cassert (sc.willPop s3 1)
    let s4 ← sc.dtor s3
    pure ((), s4)
  | k => do
    let sc ← LuaStackCleaner.ctor self.mLua s
    let s1 ← self.pushObj s
    let s2 ← pushValToStack_key self.mLua k s1
    cassert (lua_checkstack s2 1)
    let s3 := lua_pushnil s2
    let s4 ← lua_settable rt s3 (-3)
    cassert (sc.willPop s4 1)
    let s5 ← sc.dtor s4
    pure ((), s5)

end LuaTableRef

/-! ## LuaFuncRef, LuaFuncCallParams, LuaClassObjRef (`LuaFuncRef.h`, `LuaFuncRef.cpp`) -/

/-- The data members of `class LuaFuncCallParams`. -/
structure LuaFuncCallParams where
  mLua : Bool
  mFuncID : String
  preStackTop : Int
  argsOnStack : Int
  deriving DecidableEq, Repr

namespace LuaFuncCallParams

/-- `LuaFuncCallParams::LuaFuncCallParams(funcID, lua, currStackTop,
alreadyOnStack = 0)`. -/
def ctor (funcID : String) (lua : Bool) (currStackTop : Int) (alreadyOnStack : Int) :
    LuaFuncCallParams :=
  { mFuncID := if funcID.isEmpty then "<anonymous>" else funcID
    mLua := lua
    preStackTop := currStackTop
    argsOnStack := alreadyOnStack }

/-- `LuaFuncCallParams::operator<<(const TT& obj)`. -/
def append (rt : Runtime) (self : LuaFuncCallParams) (obj : CallArg) (s : lua_State) :
    Except Fault (LuaFuncCallParams × lua_State) := do
  let s1 ← pushValToStack_arg rt self.mLua obj s
  pure ({ self with argsOnStack := self.argsOnStack + 1 }, s1)

/-- `prepCall() << arg1 << ... << argN`, the arguments in order. -/
def appendAll (rt : Runtime) (self : LuaFuncCallParams) :
    List CallArg → lua_State → Except Fault (LuaFuncCallParams × lua_State)
  | [], s => pure (self, s)
  | a :: rest, s => do
    let (self1, s1) ← self.append rt a s
    appendAll rt self1 rest s1

/-- `LuaFuncCallParams::doCall()`. -/
def doCall (rt : Runtime) (self : LuaFuncCallParams) (s : lua_State) :
    Except Fault (LuaTempResult × lua_State) := do
  cassert self.mLua
  let numRets := LUA_MULTRET
  let (errCode, s1) ← lua_pcall rt s self.argsOnStack numRets 0
  LuaTempResult.ctor self.mLua self.preStackTop errCode
    ("Function call " ++ self.mFuncID ++ "()") s1

end LuaFuncCallParams

namespace LuaFuncRef

/-- `LuaFuncRef::setEnv(const LuaTableRef& envTable)`. -/
def setEnv (self : LuaObjRef) (envTable : LuaObjRef) (s : lua_State) :
    Except Fault (Bool × lua_State) := do
  let sc ← LuaStackCleaner.ctor self.mLua s
  let s1 ← self.pushObj s
  let s2 ← envTable.pushObj s1
  let (r, s3) ← lua_setfenv s2 (-2)
  let ok := r != 0
  cassert (sc.willPop s3 1)
  let s4 ← sc.dtor s3
  pure (ok, s4)

/-- `LuaFuncRef::getEnv()`. -/
def getEnv (self : LuaObjRef) (s : lua_State) :
    Except Fault (LuaTempResult × lua_State) := do
  deref self.mLua
  let preStack := lua_gettop s
  let s1 ← self.pushObj s
  cassert (lua_checkstack s1 1)
  let s2 ← lua_getfenv s1 (-1)
  LuaTempResult.ctor self.mLua preStack 0 "" s2

/-- `LuaFuncRef::prepCall()`. -/
def prepCall (self : LuaObjRef) (s : lua_State) :
    Except Fault (LuaFuncCallParams × lua_State) := do
  let curStackTop := if self.mLua then lua_gettop s else 0
  let s1 ← self.pushObj s
  pure (LuaFuncCallParams.ctor self.getID self.mLua curStackTop 0, s1)

/-- `LuaFuncRef::call(...)` and `operator()(...)`, declared for 0 to 9
arguments: `( prepCall() << arg1 << ... << argN ).doCall()`. -/
def call (rt : Runtime) (self : LuaObjRef) (args : List CallArg) (s : lua_State) :
    Except Fault (LuaTempResult × lua_State) := do
  let (params, s1) ← prepCall self s
  let (params1, s2) ← params.appendAll rt args s1
  params1.doCall rt s2

end LuaFuncRef

namespace LuaClassObjRef

/-- `LuaClassObjRef::prepCall(const std::string& methName)`. -/
def prepCall (rt : Runtime) (self : LuaObjRef) (methName : String) (s : lua_State) :
    Except Fault (LuaFuncCallParams × lua_State) := do
  let curStackTop := if self.mLua then lua_gettop s else 0
  let s1 ← self.pushObj s
  deref self.mLua
  let s2 ← lua_getfield rt s1 (-1) methName
  let s3 ← lua_insert s2 (-2)
  cassert (lua_gettop s3 == curStackTop + 2)
  pure (LuaFuncCallParams.ctor self.getID self.mLua curStackTop 1, s3)

/-- `LuaClassObjRef::callMethod(name, ...)`, declared for a name and 0 to 8
arguments: `( prepCall(arg1) << arg2 << ... << argN ).doCall()`. -/
def callMethod (rt : Runtime) (self : LuaObjRef) (methName : String)
    (args : List CallArg) (s : lua_State) :
    Except Fault (LuaTempResult × lua_State) := do
  let (params, s1) ← prepCall rt self methName s
  let (params1, s2) ← params.appendAll rt args s1
  params1.doCall rt s2

end LuaClassObjRef

/-! ## LuaBoundMethRef (`LuaFuncRef.h`, `LuaFuncRef.cpp`) -/

/-- The copy constructor the compiler generates for `LuaObjRef` (the class
declares none): every member is copied, `mRegKey` with
`LuaRegRef(const LuaRegRef&)`. -/
def LuaObjRef.copyCtor (rhs : LuaObjRef) (s : lua_State) :
    Except Fault (LuaObjRef × lua_State) := do
  let (regKey, s1) ← LuaRegRef.copyCtor rhs.mRegKey s
  pure ({ mLua := rhs.mLua, mRegKey := regKey, mID := rhs.mID,
          mErrCode := rhs.mErrCode }, s1)

/-- The data members of `class LuaBoundMethRef`. -/
structure LuaBoundMethRef where
  mObjRef : LuaObjRef
  mMethRef : LuaObjRef
  deriving DecidableEq, Repr

namespace LuaBoundMethRef

/-- `LuaBoundMethRef::LuaBoundMethRef(const LuaObjRef& obj, const LuaFuncRef&
fn)`: the members are copy-constructed in the order of their declaration,
`mObjRef` first. -/
def ctor (obj fn : LuaObjRef) (s : lua_State) :
    Except Fault (LuaBoundMethRef × lua_State) := do
  let (o, s1) ← LuaObjRef.copyCtor obj s
  let (m, s2) ← LuaObjRef.copyCtor fn s1
  pure ({ mObjRef := o, mMethRef := m }, s2)

/-- `LuaBoundMethRef::LuaBoundMethRef(const LuaTempResult& res)`:
`mObjRef( res[1] ), mMethRef( res[2] )`. -/
def ctorResult (res : LuaTempResult) (s : lua_State) :
    Except Fault (LuaBoundMethRef × lua_State) := do
  let item1 ← res.index 1
  let (o, s1) ← LuaObjRef.ctorItem item1 s
  let item2 ← res.index 2
  let (m, s2) ← LuaObjRef.ctorItem item2 s1
  pure ({ mObjRef := o, mMethRef := m }, s2)

/-- `LuaBoundMethRef::isNil()`. -/
def isNil (self : LuaBoundMethRef) : Bool :=
  self.mObjRef.isNil || self.mMethRef.isNil

/-- `LuaBoundMethRef::getID()`. -/
def getID (self : LuaBoundMethRef) : String :=
  self.mObjRef.getID ++ ":" ++ self.mMethRef.getID

/-- `LuaBoundMethRef::call(...)` and `operator()(...)`, declared for 0 to 9
arguments: `mMethRef(mObjRef, arg1, ..., argN)`. -/
def call (rt : Runtime) (self : LuaBoundMethRef) (args : List CallArg) (s : lua_State) :
    Except Fault (LuaTempResult × lua_State) :=
  LuaFuncRef.call rt self.mMethRef (.key (.objRef self.mObjRef) :: args) s

end LuaBoundMethRef

/-- `LuaClassObjRef::getBoundMethod(const std::string& name)`; the
`LuaTempResult` of the `return` statement is converted to the
`LuaBoundMethRef` that is returned, and destroyed at the end of that
statement. -/
def LuaClassObjRef.getBoundMethod (rt : Runtime) (self : LuaObjRef) (name : String)
    (s : lua_State) : Except Fault (LuaBoundMethRef × lua_State) := do
  deref self.mLua
  let prevStackTop := lua_gettop s
  let s1 ← self.pushObj s
  cassert (lua_checkstack s1 1)
  let s2 ← lua_getfield rt s1 (-1) name
  let (res, s3) ← LuaTempResult.ctor self.mLua prevStackTop 0 "" s2
  let (bm, s4) ← LuaBoundMethRef.ctorResult res s3
  let s5 ← res.dtor s4
  pure (bm, s5)

/-! ## Registry bookkeeping used to state the ownership properties -/

/-- The registry is consistent: live keys are pairwise distinct, released
keys are pairwise distinct and not live, and every key lies between 1 and the
highest key handed out. Every registry reached from the empty one through
`luaL_ref` and `luaL_unref` of keys that are owned is consistent. -/
def Registry.WF (rg : Registry) : Prop :=
  rg.keys.Nodup ∧ rg.free.Nodup ∧ (∀ k ∈ rg.free, k ∉ rg.keys) ∧
    (∀ k ∈ rg.free, 1 ≤ k ∧ k ≤ (rg.size : Int)) ∧
    (∀ k ∈ rg.keys, 1 ≤ k ∧ k ≤ (rg.size : Int))

instance (rg : Registry) : Decidable rg.WF := by
  unfold Registry.WF
  infer_instance

/-- Constructs `n` handles, one after the other, each with
`LuaRegRef(lua, stackPos)`. -/
def constructHandles (lua : Bool) (stackPos : Int) :
    Nat → lua_State → Except Fault (List LuaRegRef × lua_State)
  | 0, s => .ok ([], s)
  | n + 1, s => do
    let (h, s1) ← LuaRegRef.ctor lua stackPos s
    let (hs, s2) ← constructHandles lua stackPos n s1
    pure (h :: hs, s2)

/-- Destroys the handles of a list, first to last, each with `~LuaRegRef()`. -/
def destroyHandles : List LuaRegRef → lua_State → lua_State
  | [], s => s
  | h :: hs, s => destroyHandles hs (h.dtor s)

/-! ## Stack frames used to state stack balance -/

/-- The stack `st` consists of the slots `base`, unchanged, with exactly `n`
more values above them. -/
def AboveN (base : List LuaValue) (n : Nat) (st : List LuaValue) : Prop :=
  ∃ x : List LuaValue, st = base ++ x ∧ x.length = n

/-- An operation that returns leaves the stack (depth and every slot) as it
was before the call. -/
def StackKept {α : Type} (s : lua_State) (r : Except Fault (α × lua_State)) : Prop :=
  ∀ a s', r = .ok (a, s') → s'.stack = s.stack

/-- An operation that returns a pending result leaves a state in which the
destructor of that result runs without fault and restores the stack (depth
and every slot) to what it was before the call. -/
def StackKeptAfterDtor (s : lua_State) (r : Except Fault (LuaTempResult × lua_State)) :
    Prop :=
  ∀ res s1, r = .ok (res, s1) → ∃ s2, res.dtor s1 = .ok s2 ∧ s2.stack = s.stack

/-! ## The input of the protected call, used to state the call properties -/

/-- Pushing the argument `a` onto any stack of a connection with registry
`rg` and heap `hp` pushes exactly the value `v` and changes nothing else. -/
def PushesValue (rt : Runtime) (rg : Registry) (hp : Heap) (a : CallArg) (v : LuaValue) :
    Prop :=
  ∀ st, pushValToStack_arg rt true a ⟨st, rg, hp⟩ = .ok ⟨st ++ [v], rg, hp⟩

/-- What `LuaFuncRef::call` hands to `doCall()`: the parameters, with the
argument count, and the state whose stack holds the function and the pushed
arguments (`prepCall() << arg1 << ... << argN`). -/
def LuaFuncRef.pcallInput (rt : Runtime) (self : LuaObjRef) (args : List CallArg)
    (s : lua_State) : Except Fault (LuaFuncCallParams × lua_State) := do
  let (params, s1) ← LuaFuncRef.prepCall self s
  params.appendAll rt args s1

/-- What `LuaClassObjRef::callMethod` hands to `doCall()`
(`prepCall(arg1) << arg2 << ... << argN`). -/
def LuaClassObjRef.pcallInput (rt : Runtime) (self : LuaObjRef) (methName : String)
    (args : List CallArg) (s : lua_State) :
    Except Fault (LuaFuncCallParams × lua_State) := do
  let (params, s1) ← LuaClassObjRef.prepCall rt self methName s
  params.appendAll rt args s1

/-- The C string `lua_tostring` returns for a value: the text of a string up
to its first NUL character, the decimal text of a number, and no text
(`NULL`) for every other value. -/
def LuaValue.cText : LuaValue → Option String
  | .string str => some (c_str str)
  | .number n => some (toString n)
  | _ => none

/-- The handles a key mentions: the key itself when it is an object
reference. -/
def HostKey.handles : HostKey → List LuaObjRef
  | .objRef o => [o]
  | _ => []

/-- The handles a call argument mentions: those of the key, and the table of
a table field. -/
def CallArg.handles : CallArg → List LuaObjRef
  | .key k => k.handles
  | .field table k => table :: k.handles

/-- The handle is nil or holds a reference of the registry that has not been
released. -/
def LuaObjRef.Owned (rg : Registry) (o : LuaObjRef) : Prop :=
  o.mRegKey.mRegKey < 0 ∨ o.mRegKey.mRegKey ∈ rg.keys

instance (rg : Registry) (o : LuaObjRef) : Decidable (o.Owned rg) := by
  unfold LuaObjRef.Owned
  infer_instance

/-! ## Concrete states used to evaluate the definitions -/

/-- A registry in which no reference has been created yet. -/
def Registry.empty : Registry := ⟨[], [], 0⟩

/-- A heap without any table, function or opaque object. -/
def Heap.empty : Heap := ⟨[], [], [], []⟩

/-- A connection whose stack holds the given values, with an empty registry
and an empty heap. -/
def stateWithStack (st : List LuaValue) : lua_State :=
  ⟨st, Registry.empty, Heap.empty⟩

/-- A runtime in which every call returns no value and leaves the heap as it
is. -/
def idleRuntime : Runtime :=
  ⟨fun h _ _ => (CallOutcome.returned [], h)⟩

/-- A connection whose stack holds the number 5, whose registry holds under
key 1 the table at address 1, and whose heap holds that table with the field
`k = 42` and no metatable. -/
def exampleState : lua_State :=
  ⟨[.number 5], ⟨[(1, .table 1)], [], 1⟩,
    ⟨[(1, ⟨[(.string "k", .number 42)], none⟩)], [], [], []⟩⟩

/-- A handle with a live connection that owns registry key 1. -/
def exampleHandle : LuaObjRef :=
  { mLua := true, mRegKey := { mLua := true, mRegKey := 1 }, mID := "t",
    mErrCode := LUA_ERR_NONE }

/-- A connection whose stack holds the number 7 and whose registry holds that
number under key 1, the state after `LuaRegRef(L, 1)` on a fresh connection
with stack `[7]`. -/
def stateWithOneRef : lua_State :=
  ⟨[.number 7], ⟨[(1, .number 7)], [], 1⟩, Heap.empty⟩

/-- A connection like `exampleState`, in which the table at address 1 has the
table at address 2 as its metatable; that metatable has no field. -/
def stateWithMetatable : lua_State :=
  ⟨[.number 5], ⟨[(1, .table 1)], [], 1⟩,
    ⟨[(1, ⟨[(.string "k", .number 42)], some 2⟩), (2, ⟨[], none⟩)], [], [], []⟩⟩

/-- A connection like `exampleState` whose registry also holds, under key 2,
the function at address 7, whose environment is the table at address 3. -/
def stateWithFunction : lua_State :=
  ⟨[.number 5], ⟨[(2, .function 7), (1, .table 1)], [], 2⟩,
    ⟨[(1, ⟨[(.string "k", .number 42)], none⟩), (3, ⟨[], none⟩)], [(7, .table 3)], [], []⟩⟩

/-- A function handle with a live connection that owns registry key 2. -/
def exampleFunction : LuaObjRef :=
  { mLua := true, mRegKey := { mLua := true, mRegKey := 2 }, mID := "f",
    mErrCode := LUA_ERR_NONE }

/-- A connection whose registry holds under key 1 the table at address 1,
which has the single field `j = 1` and no metatable; the stack holds the
number 5. -/
def stateWithTable : lua_State :=
  ⟨[.number 5], ⟨[(1, .table 1)], [], 1⟩,
    ⟨[(1, ⟨[(.string "j", .number 1)], none⟩)], [], [], []⟩⟩

/-- A connection whose registry holds under key 1 the table at address 1,
whose field `m` is the function at address 7. -/
def stateWithMethod : lua_State :=
  ⟨[.number 5], ⟨[(1, .table 1)], [], 1⟩,
    ⟨[(1, ⟨[(.string "m", .function 7)], none⟩)], [], [], []⟩⟩

/-- A runtime in which every call returns its arguments and leaves the heap
as it is. -/
def echoRuntime : Runtime :=
  ⟨fun h _ args => (CallOutcome.returned args, h)⟩

/-- A runtime in which every call fails with a runtime error whose message
is `boom`. -/
def failingRuntime : Runtime :=
  ⟨fun h _ _ => (CallOutcome.raised CallError.run (LuaValue.string "boom"), h)⟩

/-- A runtime in which every call fails as `error()` does in a script: a
runtime error whose error value is nil. -/
def nilErrorRuntime : Runtime :=
  ⟨fun h _ _ => (CallOutcome.raised CallError.run LuaValue.nil, h)⟩

/-- A runtime in which every call fails as `error` with a new empty table as
argument does in a script: a runtime error whose error value is that
table. -/
def tableErrorRuntime : Runtime :=
  ⟨fun h _ _ => (CallOutcome.raised CallError.run (LuaValue.table h.freshTable),
    h.setTable h.freshTable ⟨[], none⟩)⟩

/-! # Properties -/

/-! ## Pending results: construction, destruction, item positions -/

theorem Except.bind_eq_ok_iff {ε α β : Type} (x : Except ε α) (f : α → Except ε β) (b : β) :
    (x >>= f) = .ok b ↔ ∃ a, x = .ok a ∧ f a = .ok b := by
  cases x <;> simp [bind, Except.bind]

theorem cassert_eq_ok_iff (b : Bool) (u : Unit) : cassert b = .ok u ↔ b = true := by
  cases b <;> simp [cassert]

theorem LuaTempResult.ctor_ok_shape (lua : Bool) (d e : Int) (p : String)
    (s0 s1 : lua_State) (r : LuaTempResult)
    (h : LuaTempResult.ctor lua d e p s0 = .ok (r, s1)) :
    r = ⟨true, e, d, lua_gettop s0 - d⟩ ∧ 0 ≤ r.mNumRetVal ∧
      (e = 0 ∨ r.mNumRetVal = 1) := by
  unfold LuaTempResult.ctor at h
  cases lua with
  | false => simp [bind, Except.bind, throw, throwThe, MonadExceptOf.throw] at h
  | true =>
    simp only [Bool.not_true, Bool.false_eq_true, if_false, Except.bind_eq_ok_iff,
      cassert_eq_ok_iff, pure, Except.pure] at h
    obtain ⟨_, -, _, -, _, h1, _, h2, h⟩ := h
    have hr : r = ⟨true, e, d, lua_gettop s0 - d⟩ := by
      split at h
      · simp only [Except.bind_eq_ok_iff] at h
        obtain ⟨x, -, h⟩ := h
        split at h
        · simp [throw, throwThe, MonadExceptOf.throw] at h
        · simp only [Except.bind_eq_ok_iff] at h
          obtain ⟨_, -, s3, -, h⟩ := h
          simp only [Except.ok.injEq, Prod.mk.injEq] at h
          exact h.1.symm
      · simp only [Except.ok.injEq, Prod.mk.injEq] at h
        exact h.1.symm
    subst hr
    refine ⟨rfl, by simpa using h1, ?_⟩
    simp only [LUA_ERR_NONE, Bool.or_eq_true, beq_iff_eq] at h2
    exact h2

theorem index2adr_top (st : List LuaValue) (v : LuaValue) (rg : Registry) (hp : Heap) :
    index2adr ⟨st ++ [v], rg, hp⟩ ((st.length : Int) + 1) = some (some v) := by
  have h : (0 : Int) < (st.length : Int) + 1 := by omega
  simp [index2adr, h]

theorem stackSlot_top (st : List LuaValue) (v w : LuaValue) (rg : Registry) (hp : Heap) :
    stackSlot ⟨st ++ [v, w], rg, hp⟩ ((st.length : Int) + 1) = .ok st.length := by
  have h : (0 : Int) < (st.length : Int) + 1 := by omega
  simp [stackSlot, h]

/-- C2 (as stated, refuted): a pending result recorded at depth 0 with one
value is destroyed after one more value has been pushed; the destructor's
assertion stops the program instead of truncating the stack to depth 0. -/
theorem LuaTempResult.dtor_asserts_on_changed_depth :
    LuaTempResult.ctor true 0 0 "" (stateWithStack [.number 1]) =
        .ok (⟨true, 0, 0, 1⟩, stateWithStack [.number 1]) ∧
      LuaTempResult.dtor ⟨true, 0, 0, 1⟩ (lua_pushnil (stateWithStack [.number 1])) =
        .error Fault.assertion := by
  constructor <;> rfl

/-- C2 (amended): destroying a pending result constructed with recorded depth
`d` and holding `n` values truncates the stack to depth exactly `d`, leaving
slots `1..d` (and the registry and heap) unchanged, when the depth at that
moment is `d + n`; at every other depth the destructor's assertion fails. -/
theorem LuaTempResult.dtor_truncates_at_construction_depth
    (d : Nat) (e : Int) (p : String) (s0 s1 s : lua_State) (r : LuaTempResult)
    (hc : LuaTempResult.ctor true d e p s0 = .ok (r, s1)) :
    (lua_gettop s = d + r.getNumItems →
      ∃ s', r.dtor s = .ok s' ∧ s'.stack = s.stack.take d ∧ lua_gettop s' = d ∧
        s'.registry = s.registry ∧ s'.heap = s.heap) ∧
    (lua_gettop s ≠ d + r.getNumItems → r.dtor s = .error Fault.assertion) := by
  obtain ⟨hr, hn, -⟩ := LuaTempResult.ctor_ok_shape true d e p s0 s1 r hc
  subst hr
  simp only [LuaTempResult.getNumItems] at hn ⊢
  constructor
  · intro hs
    have hle : d ≤ s.stack.length := by
      simp only [lua_gettop] at hs hn
      omega
    refine ⟨{ s with stack := s.stack.take d }, ?_, rfl, ?_, rfl, rfl⟩
    · simp [LuaTempResult.dtor, cassert, hs, lua_settop, bind, Except.bind, hle]
    · simp [lua_gettop, hle]
  · intro hs
    have hs' : lua_gettop s ≠ lua_gettop s0 := fun h => hs (by omega)
    simp [LuaTempResult.dtor, cassert, hs', bind, Except.bind]

/-- Witness for C2 (amended): three values above recorded depth 1. -/
theorem LuaTempResult.dtor_truncates_at_construction_depth_witness :
    ∃ s', LuaTempResult.dtor ⟨true, 0, 1, 3⟩
        (stateWithStack [.nil, .number 1, .number 2, .number 3]) = .ok s' ∧
      s'.stack = [LuaValue.nil] :=
  let s := stateWithStack [.nil, .number 1, .number 2, .number 3]
  have h := (LuaTempResult.dtor_truncates_at_construction_depth 1 0 "" s s s
    ⟨true, 0, 1, 3⟩ rfl).1 rfl
  h.elim fun s' hs => ⟨s', hs.1, hs.2.1⟩

theorem c_str_idem (str : String) : c_str (c_str str) = c_str str := by
  simp [c_str, List.takeWhile_idem]

theorem c_str_eq_self_iff (str : String) :
    c_str str = str ↔ ∀ c ∈ str.data, c.toNat ≠ 0 := by
  obtain ⟨l⟩ := str
  constructor
  · intro h
    have h' := congrArg String.data h
    simp only [c_str] at h'
    simpa [List.takeWhile_eq_self_iff] using h'
  · intro h
    have h' : List.takeWhile (fun c : Char => c.toNat != 0) l = l := by
      rw [List.takeWhile_eq_self_iff]
      simpa using h
    simp only [c_str, h']

theorem c_str_append (a b : String) (ha : c_str a = a) (hb : c_str b = b) :
    c_str (a ++ b) = a ++ b := by
  rw [c_str_eq_self_iff] at ha hb ⊢
  intro c hc
  simp only [String.data_append, List.mem_append] at hc
  rcases hc with hc | hc
  · exact ha c hc
  · exact hb c hc

theorem c_str_message (p m : String) (hp : c_str p = p) (hm : c_str m = m) :
    c_str (p ++ ": " ++ c_str m) = p ++ ": " ++ m := by
  rw [hm]
  exact c_str_append _ _ (c_str_append _ _ hp (by decide)) hm

/-- C5 (as stated, refuted): the error message `a`, a NUL character, `b`
under the prefix `p`. The slot is rewritten to `p: a`, which is also what
`getErrMsg()` returns: the message is read as a C string and ends before its
first NUL character, so the slot is not the prefix, `": "` and the message. -/
theorem LuaTempResult.ctor_error_cuts_message_at_nul :
    LuaTempResult.ctor true 0 LUA_ERR_RUN "p" (stateWithStack [.string "a\x00b"]) =
        .ok (⟨true, LUA_ERR_RUN, 0, 1⟩, stateWithStack [.string "p: a"]) ∧
      LuaTempResult.getErrMsg ⟨true, LUA_ERR_RUN, 0, 1⟩ (stateWithStack [.string "p: a"]) =
        .ok ("p: a", stateWithStack [.string "p: a"]) ∧
      "p: a" ≠ "p" ++ ": " ++ "a\x00b" :=
  ⟨rfl, rfl, by decide⟩

/-- C5 (amended): constructing a pending result with a non-zero error code
`e`, prefix `p` and exactly one value, the message `m`, above the recorded
depth rewrites that slot to the C string of `p ++ ": " ++ m'`, where `m'` is
the C string of `m` (the text before the first NUL character), leaves the
depth at `d + 1` and the slots below unchanged, and yields `ok() = false`,
`isError() = true`, `getNumItems() = 1` and `getErrMsg()` equal to the text
of the rewritten slot. When neither `p` nor `m` holds a NUL character that
text is `p ++ ": " ++ m`. -/
theorem LuaTempResult.ctor_error_normalization
    (below : List LuaValue) (m p : String) (e : Int) (he : e ≠ 0)
    (rg : Registry) (hp : Heap) :
    ∃ r s', LuaTempResult.ctor true below.length e p ⟨below ++ [.string m], rg, hp⟩
        = .ok (r, s') ∧
      s' = ⟨below ++ [.string (c_str (p ++ ": " ++ c_str m))], rg, hp⟩ ∧
      lua_gettop s' = below.length + 1 ∧
      r.ok = false ∧ r.isError = true ∧ r.getNumItems = 1 ∧
      r.getErrMsg s' = .ok (c_str (p ++ ": " ++ c_str m), s') ∧
      (c_str p = p → c_str m = m → c_str (p ++ ": " ++ c_str m) = p ++ ": " ++ m) := by
  refine ⟨⟨true, e, below.length, 1⟩,
    ⟨below ++ [.string (c_str (p ++ ": " ++ c_str m))], rg, hp⟩,
    ?_, rfl, ?_, ?_, ?_, rfl, ?_, c_str_message p m⟩
  · simp [LuaTempResult.ctor, lua_tostring, index2adr_top, cassert, lua_gettop, he,
      LUA_ERR_NONE, lua_checkstack, lua_pushstring, pushValue, lua_replace, stackSlot_top,
      bind, Except.bind, pure, Except.pure]
  · simp [lua_gettop]
  · simp [LuaTempResult.ok, LuaTempResult.isError, LUA_ERR_NONE, he]
  · simp [LuaTempResult.isError, LUA_ERR_NONE, he]
  · simp [LuaTempResult.getErrMsg, he, lua_tostring, index2adr_top, c_str_idem, bind,
      Except.bind, pure, Except.pure]

/-- Witness for C5: message "boom" with prefix "Syntax error in". -/
theorem LuaTempResult.ctor_error_normalization_witness :
    ∃ r s', LuaTempResult.ctor true 0 LUA_ERR_SYNTAX "Syntax error in"
        (stateWithStack [.string "boom"]) = .ok (r, s') ∧
      s' = stateWithStack [.string "Syntax error in: boom"] ∧
      r.ok = false ∧ r.isError = true ∧ r.getNumItems = 1 ∧
      r.getErrMsg s' = .ok ("Syntax error in: boom", s') :=
  (LuaTempResult.ctor_error_normalization [] "boom" "Syntax error in"
    LUA_ERR_SYNTAX (by decide) Registry.empty Heap.empty).elim
    fun r h => h.elim fun s' h =>
      ⟨r, s', h.1, h.2.1, h.2.2.2.1, h.2.2.2.2.1, h.2.2.2.2.2.1, h.2.2.2.2.2.2.1⟩

/-- C6 (as stated, refuted): the pending result built from the error message
"boom" is in the error state and reports one item, not zero. -/
theorem LuaTempResult.getNumItems_error_is_not_zero :
    LuaTempResult.ctor true 0 LUA_ERR_SYNTAX "Syntax error in"
        (stateWithStack [.string "boom"]) =
        .ok (⟨true, LUA_ERR_SYNTAX, 0, 1⟩,
          stateWithStack [.string "Syntax error in: boom"]) ∧
      LuaTempResult.isError ⟨true, LUA_ERR_SYNTAX, 0, 1⟩ = true ∧
      LuaTempResult.getNumItems ⟨true, LUA_ERR_SYNTAX, 0, 1⟩ ≠ 0 := by
  refine ⟨?_, rfl, by decide⟩
  rfl

/-- C6 (amended): for every pending result in the error state, `getNumItems()`
returns 1, the error message being counted as the one item. -/
theorem LuaTempResult.getNumItems_error_state
    (lua : Bool) (d e : Int) (p : String) (s0 s1 : lua_State) (r : LuaTempResult)
    (hc : LuaTempResult.ctor lua d e p s0 = .ok (r, s1))
    (herr : r.isError = true) : r.getNumItems = 1 := by
  obtain ⟨hr, -, h1⟩ := LuaTempResult.ctor_ok_shape lua d e p s0 s1 r hc
  rcases h1 with h0 | h1
  · subst hr
    simp [LuaTempResult.isError, LUA_ERR_NONE, h0] at herr
  · exact h1

/-- Witness for C6 (amended): the result built from the message "boom". -/
theorem LuaTempResult.getNumItems_error_state_witness :
    LuaTempResult.getNumItems ⟨true, LUA_ERR_SYNTAX, 0, 1⟩ = 1 :=
  LuaTempResult.getNumItems_error_state true 0 LUA_ERR_SYNTAX "Syntax error in"
    (stateWithStack [.string "boom"]) (stateWithStack [.string "Syntax error in: boom"])
    ⟨true, LUA_ERR_SYNTAX, 0, 1⟩ rfl rfl

/-- C7: for a pending result holding `n ≥ 0` values, `getStackPos(i)` is
`LUA_UNACCEPTABLE_STACK_POS` (0) for `i = 0`, for every `i > n` and for every
`i < -n`. -/
theorem LuaTempResult.getStackPos_out_of_range
    (r : LuaTempResult) (hn : 0 ≤ r.getNumItems) :
    r.getStackPos 0 = LUA_UNACCEPTABLE_STACK_POS ∧
      (∀ i : Int, i > r.getNumItems → r.getStackPos i = LUA_UNACCEPTABLE_STACK_POS) ∧
      (∀ i : Int, i < -r.getNumItems → r.getStackPos i = LUA_UNACCEPTABLE_STACK_POS) := by
  simp only [LuaTempResult.getNumItems] at hn ⊢
  refine ⟨by simp [LuaTempResult.getStackPos], ?_, ?_⟩
  · intro i hi
    have h1 : ¬ (i > 0 ∧ i ≤ r.mNumRetVal) := by omega
    have h2 : ¬ (i < 0 ∧ i ≥ -r.mNumRetVal) := by omega
    simp [LuaTempResult.getStackPos, h1, h2]
  · intro i hi
    have h1 : ¬ (i > 0 ∧ i ≤ r.mNumRetVal) := by omega
    have h2 : ¬ (i < 0 ∧ i ≥ -r.mNumRetVal) := by omega
    simp [LuaTempResult.getStackPos, h1, h2]

/-- Witness for C7: three values, indices 0, 4 and -4. -/
theorem LuaTempResult.getStackPos_out_of_range_witness :
    LuaTempResult.getStackPos ⟨true, 0, 5, 3⟩ 0 = 0 ∧
      LuaTempResult.getStackPos ⟨true, 0, 5, 3⟩ 4 = 0 ∧
      LuaTempResult.getStackPos ⟨true, 0, 5, 3⟩ (-4) = 0 :=
  have h := LuaTempResult.getStackPos_out_of_range ⟨true, 0, 5, 3⟩ (by decide)
  ⟨h.1, h.2.1 4 (by decide), h.2.2 (-4) (by decide)⟩

/-- C8 (as stated, refuted): with three values produced above depth 0 and no
error, `item(1)` is at position 1 while `item(-1)` and `item(3)` are at
position 3. -/
theorem LuaTempResult.getItem_first_differs_from_last :
    LuaTempResult.ctor true 0 0 "" (stateWithStack [.number 10, .number 20, .number 30]) =
        .ok (⟨true, 0, 0, 3⟩, stateWithStack [.number 10, .number 20, .number 30]) ∧
      LuaTempResult.getItem ⟨true, 0, 0, 3⟩ 1 = .ok ⟨true, 1, 0⟩ ∧
      LuaTempResult.getItem ⟨true, 0, 0, 3⟩ (-1) = .ok ⟨true, 3, 0⟩ ∧
      LuaTempResult.getItem ⟨true, 0, 0, 3⟩ 3 = .ok ⟨true, 3, 0⟩ ∧
      LuaTempResult.getStackPos ⟨true, 0, 0, 3⟩ 1 ≠
        LuaTempResult.getStackPos ⟨true, 0, 0, 3⟩ (-1) := by
  refine ⟨rfl, rfl, rfl, rfl, by decide⟩

/-- C8 (amended): for a pending result with 3 produced values and no error,
recorded at depth `d`, `item(-1)` and `item(3)` resolve to the same position
`d + 3`, the top of the stack (the last value pushed), and `item(1)` resolves
to position `d + 1`, that of the first value. -/
theorem LuaTempResult.getItem_three_values
    (lua : Bool) (d : Int) (p : String) (s0 s1 : lua_State) (r : LuaTempResult)
    (hc : LuaTempResult.ctor lua d 0 p s0 = .ok (r, s1))
    (h3 : r.getNumItems = 3) :
    r.getItem (-1) = .ok ⟨true, d + 3, 0⟩ ∧ r.getItem 3 = .ok ⟨true, d + 3, 0⟩ ∧
      r.getItem 1 = .ok ⟨true, d + 1, 0⟩ ∧ lua_gettop s0 = d + 3 := by
  obtain ⟨hr, -, -⟩ := LuaTempResult.ctor_ok_shape lua d 0 p s0 s1 r hc
  subst hr
  simp only [LuaTempResult.getNumItems] at h3
  refine ⟨?_, ?_, ?_, by omega⟩ <;>
    simp [LuaTempResult.getItem, LuaTempResult.getStackPos, LuaTempResult.Item.ctor, h3,
      cassert, bind, Except.bind, pure, Except.pure, LuaTempResult.FIRST_ITEM_INDEX]

/-- Witness for C8 (amended): three numbers above an empty stack. -/
theorem LuaTempResult.getItem_three_values_witness :
    LuaTempResult.getItem ⟨true, 0, 0, 3⟩ (-1) = .ok ⟨true, 0 + 3, 0⟩ ∧
      LuaTempResult.getItem ⟨true, 0, 0, 3⟩ 3 = .ok ⟨true, 0 + 3, 0⟩ ∧
      LuaTempResult.getItem ⟨true, 0, 0, 3⟩ 1 = .ok ⟨true, 0 + 1, 0⟩ ∧
      lua_gettop (stateWithStack [.number 10, .number 20, .number 30]) = 0 + 3 :=
  LuaTempResult.getItem_three_values true 0 ""
    (stateWithStack [.number 10, .number 20, .number 30])
    (stateWithStack [.number 10, .number 20, .number 30]) ⟨true, 0, 0, 3⟩ rfl rfl

/-- C9: for an error-free pending result with recorded depth `d` and `n`
values and every `i` with `1 ≤ i ≤ n`: `getStackPos(i) = d + i`,
`getStackPos(-i) = d + n + 1 - i`, `getStackPos(i) = getStackPos(i - n - 1)`,
and both positions lie in `d+1 .. d+n`. -/
theorem LuaTempResult.getStackPos_in_range
    (r : LuaTempResult) (hok : r.isError = false) (i : Int)
    (h1 : 1 ≤ i) (h2 : i ≤ r.getNumItems) :
    r.getStackPos i = r.mPrevStackTop + i ∧
      r.getStackPos (-i) = r.mPrevStackTop + r.getNumItems + 1 - i ∧
      r.getStackPos i = r.getStackPos (i - r.getNumItems - 1) ∧
      (r.mPrevStackTop + 1 ≤ r.getStackPos i ∧
        r.getStackPos i ≤ r.mPrevStackTop + r.getNumItems) ∧
      (r.mPrevStackTop + 1 ≤ r.getStackPos (-i) ∧
        r.getStackPos (-i) ≤ r.mPrevStackTop + r.getNumItems) := by
  have he : r.mErrCode = 0 := by
    simpa [LuaTempResult.isError, LUA_ERR_NONE] using hok
  simp only [LuaTempResult.getNumItems] at h2 ⊢
  have a1 : i > 0 ∧ i ≤ r.mNumRetVal := by omega
  have a2 : ¬ (-i > 0 ∧ -i ≤ r.mNumRetVal) := by omega
  have a3 : -i < 0 ∧ -i ≥ -r.mNumRetVal := by omega
  have a4 : ¬ (i - r.mNumRetVal - 1 > 0 ∧ i - r.mNumRetVal - 1 ≤ r.mNumRetVal) := by omega
  have a5 : i - r.mNumRetVal - 1 < 0 ∧ i - r.mNumRetVal - 1 ≥ -r.mNumRetVal := by omega
  have e1 : r.getStackPos i = r.mPrevStackTop + i := by
    simp [LuaTempResult.getStackPos, a1, he, LuaTempResult.FIRST_ITEM_INDEX]
  have e2 : r.getStackPos (-i) = r.mPrevStackTop + r.mNumRetVal + 1 - i := by
    simp only [LuaTempResult.getStackPos, a2, a3, he]
    simp
    omega
  have e3 : r.getStackPos (i - r.mNumRetVal - 1) = r.mPrevStackTop + i := by
    simp only [LuaTempResult.getStackPos, a4, a5, he]
    simp
  rw [e1, e2, e3]
  refine ⟨rfl, rfl, rfl, ⟨by omega, by omega⟩, ⟨by omega, by omega⟩⟩

/-- Witness for C9: second of three values above depth 5. -/
theorem LuaTempResult.getStackPos_in_range_witness :
    LuaTempResult.getStackPos ⟨true, 0, 5, 3⟩ 2 = 5 + 2 ∧
      LuaTempResult.getStackPos ⟨true, 0, 5, 3⟩ (-2) = 5 + 3 + 1 - 2 :=
  have h := LuaTempResult.getStackPos_in_range ⟨true, 0, 5, 3⟩ rfl 2 (by decide) (by decide)
  ⟨h.1, h.2.1⟩

/-- C10 (as stated, refuted): the pending result built from the error message
"boom" above depth 0 gives, for index 1, an item at position 1, the slot of
the error message, not at the nil-sentinel position 0. -/
theorem LuaTempResult.getItem_error_first_not_sentinel :
    LuaTempResult.ctor true 0 LUA_ERR_SYNTAX "Syntax error in"
        (stateWithStack [.string "boom"]) =
        .ok (⟨true, LUA_ERR_SYNTAX, 0, 1⟩,
          stateWithStack [.string "Syntax error in: boom"]) ∧
      LuaTempResult.getItem ⟨true, LUA_ERR_SYNTAX, 0, 1⟩ 1 =
        .ok ⟨true, 1, LUA_ERR_SYNTAX⟩ ∧
      (1 : Int) ≠ LUA_UNACCEPTABLE_STACK_POS := by
  refine ⟨rfl, rfl, by decide⟩

/-- C10 (amended): for every pending result in the error state, recorded at
depth `d`, and every index `i`, `item(i)` is an Item that carries the error
code (so it is invalid and read as nil); its stack position is the
nil-sentinel for every `i` other than 1 and -1, and `d + 1`, the slot of the
error message, for `i = 1` and `i = -1`. -/
theorem LuaTempResult.getItem_error_state
    (lua : Bool) (d e : Int) (p : String) (s0 s1 : lua_State) (r : LuaTempResult)
    (hc : LuaTempResult.ctor lua d e p s0 = .ok (r, s1))
    (herr : r.isError = true) (i : Int) :
    ∃ it, r.getItem i = .ok it ∧ it.mErrCode = e ∧ it.isError = true ∧
      it.isInvalid = true ∧
      (i = 1 ∨ i = -1 → it.mStackPos = d + 1) ∧
      (i ≠ 1 ∧ i ≠ -1 → it.mStackPos = LUA_UNACCEPTABLE_STACK_POS) := by
  obtain ⟨hr, -, h1⟩ := LuaTempResult.ctor_ok_shape lua d e p s0 s1 r hc
  subst hr
  have he : e ≠ 0 := by
    simpa [LuaTempResult.isError, LUA_ERR_NONE] using herr
  have hn : lua_gettop s0 - d = 1 := by
    rcases h1 with h0 | h1
    · exact absurd h0 he
    · exact h1
  refine ⟨⟨true, LuaTempResult.getStackPos ⟨true, e, d, lua_gettop s0 - d⟩ i, e⟩, ?_, rfl,
    ?_, ?_, ?_, ?_⟩
  · simp [LuaTempResult.getItem, LuaTempResult.Item.ctor, cassert, bind, Except.bind,
      pure, Except.pure]
  · simp [LuaTempResult.Item.isError, LUA_ERR_NONE, he]
  · simp [LuaTempResult.Item.isInvalid, he]
  · intro hi
    rcases hi with hi | hi <;> subst hi <;>
      simp [LuaTempResult.getStackPos, hn, he]
  · intro hi
    have a1 : ¬ (i > 0 ∧ i ≤ 1) := by omega
    have a2 : ¬ (i < 0 ∧ i ≥ -1) := by omega
    simp [LuaTempResult.getStackPos, hn, a1, a2]

/-- Witness for C10 (amended): the result built from the message "boom",
read at index 2. -/
theorem LuaTempResult.getItem_error_state_witness :
    ∃ it, LuaTempResult.getItem ⟨true, LUA_ERR_SYNTAX, 0, 1⟩ 2 = .ok it ∧
      it.mErrCode = LUA_ERR_SYNTAX ∧ it.isError = true ∧ it.isInvalid = true ∧
      ((2 : Int) = 1 ∨ (2 : Int) = -1 → it.mStackPos = 0 + 1) ∧
      ((2 : Int) ≠ 1 ∧ (2 : Int) ≠ -1 → it.mStackPos = LUA_UNACCEPTABLE_STACK_POS) :=
  LuaTempResult.getItem_error_state true 0 LUA_ERR_SYNTAX "Syntax error in"
    (stateWithStack [.string "boom"]) (stateWithStack [.string "Syntax error in: boom"])
    ⟨true, LUA_ERR_SYNTAX, 0, 1⟩ rfl rfl 2

/-! ## Registry handles: ownership -/

/-- C3 (the code at the failing input): two handles `a` and `b` are created
from position 1, `a = b` is executed and both are destroyed; the slot `a`
owned before the assignment (key 1) is never released, and one slot stays
outstanding where none was before the sequence. -/
theorem LuaRegRef.assign_leaks_owned_slot :
    LuaRegRef.ctor true 1 (stateWithStack [.number 7]) =
        .ok (⟨true, 1⟩, ⟨[.number 7], ⟨[(1, .number 7)], [], 1⟩, Heap.empty⟩) ∧
      LuaRegRef.ctor true 1 ⟨[.number 7], ⟨[(1, .number 7)], [], 1⟩, Heap.empty⟩ =
        .ok (⟨true, 2⟩,
          ⟨[.number 7], ⟨[(2, .number 7), (1, .number 7)], [], 2⟩, Heap.empty⟩) ∧
      LuaRegRef.assign ⟨true, 1⟩ ⟨true, 2⟩
          ⟨[.number 7], ⟨[(2, .number 7), (1, .number 7)], [], 2⟩, Heap.empty⟩ =
        .ok (⟨true, 3⟩,
          ⟨[.number 7], ⟨[(3, .number 7), (2, .number 7), (1, .number 7)], [], 3⟩,
            Heap.empty⟩) ∧
      LuaRegRef.dtor ⟨true, 2⟩ (LuaRegRef.dtor ⟨true, 3⟩
          ⟨[.number 7], ⟨[(3, .number 7), (2, .number 7), (1, .number 7)], [], 3⟩,
            Heap.empty⟩) =
        ⟨[.number 7], ⟨[(1, .number 7)], [2, 3], 3⟩, Heap.empty⟩ ∧
      (stateWithStack [.number 7]).registry.outstanding = 0 ∧
      Registry.outstanding ⟨[(1, .number 7)], [2, 3], 3⟩ = 1 := by
  refine ⟨rfl, rfl, rfl, rfl, rfl, rfl⟩

theorem index2adr_valid (s : lua_State) (pos : Int) (v : LuaValue)
    (h : index2adr s pos = some (some v)) :
    ¬ (pos > 0 ∧ pos > lua_gettop s) ∧ ¬ (pos < 0 ∧ -pos > lua_gettop s) ∧ pos ≠ 0 := by
  unfold index2adr at h
  simp only [lua_gettop]
  by_cases h1 : pos > 0
  · simp only [h1, if_true, Option.some.injEq] at h
    have hlt := (List.getElem?_eq_some_iff.mp h).1
    omega
  · simp only [h1, if_false] at h
    by_cases h2 : pos < 0 ∧ -pos ≤ (s.stack.length : Int)
    · omega
    · simp [h2] at h

theorem Registry.filter_fresh (slots : List (Int × LuaValue)) (k : Int)
    (hk : k ∉ slots.map Prod.fst) :
    slots.filter (fun p => decide (p.1 ≠ k)) = slots := by
  rw [List.filter_eq_self]
  intro p hp
  have : p.1 ≠ k := fun e => hk (e ▸ List.mem_map_of_mem Prod.fst hp)
  simpa using this

theorem LuaRegRef.ctor_fresh (s : lua_State) (pos : Int) (v : LuaValue)
    (hwf : s.registry.WF) (hpos : index2adr s pos = some (some v))
    (hv : v ≠ LuaValue.nil) :
    ∃ k s', LuaRegRef.ctor true pos s = .ok (⟨true, k⟩, s') ∧
      s'.registry.slots = (k, v) :: s.registry.slots ∧ k ∉ s.registry.keys ∧
      s'.registry.WF ∧ s'.stack = s.stack ∧ s'.heap = s.heap := by
  obtain ⟨c1, c2, c3⟩ := index2adr_valid s pos v hpos
  obtain ⟨w1, w2, w3, w4, w5⟩ := hwf
  have hpush : lua_pushvalue s pos = .ok (pushValue s v) := by
    simp [lua_pushvalue, hpos]
  cases hfree : s.registry.free with
  | nil =>
    have hk : ((s.registry.size : Int) + 1) ∉ s.registry.keys := by
      intro hmem
      have := (w5 _ hmem).2
      omega
    refine ⟨(s.registry.size : Int) + 1,
      { s with registry := ⟨((s.registry.size : Int) + 1, v) :: s.registry.slots, [],
          s.registry.size + 1⟩ }, ?_, rfl, hk, ?_, rfl, rfl⟩
    · simp [LuaRegRef.ctor, LuaRegRef.getRef, cassert, c1, c2, c3, lua_checkstack, hpush,
        luaL_ref, pushValue, hv, hfree, bind, Except.bind, pure, Except.pure]
      intro a b hab e
      exact hk (e ▸ List.mem_map_of_mem Prod.fst hab)
    · refine ⟨?_, List.nodup_nil, ?_, ?_, ?_⟩
      · exact List.nodup_cons.mpr ⟨hk, w1⟩
      · intro k hk'
        simp at hk'
      · intro k hk'
        simp at hk'
      · intro k hk'
        simp only [Registry.keys, List.map_cons, List.mem_cons] at hk'
        rcases hk' with hk' | hk'
        · subst hk'
          push_cast
          omega
        · have := w5 k hk'
          push_cast
          omega
  | cons r rest =>
    rw [hfree] at w2 w3 w4
    have hk : r ∉ s.registry.keys := w3 r (List.mem_cons_self _ _)
    refine ⟨r, { s with registry := ⟨(r, v) :: s.registry.slots, rest, s.registry.size⟩ },
      ?_, rfl, hk, ?_, rfl, rfl⟩
    · simp [LuaRegRef.ctor, LuaRegRef.getRef, cassert, c1, c2, c3, lua_checkstack, hpush,
        luaL_ref, pushValue, hv, hfree, bind, Except.bind, pure, Except.pure]
      intro a b hab e
      exact hk (e ▸ List.mem_map_of_mem Prod.fst hab)
    · refine ⟨?_, (List.nodup_cons.mp w2).2, ?_, ?_, ?_⟩
      · exact List.nodup_cons.mpr ⟨hk, w1⟩
      · intro k hk'
        simp only [Registry.keys, List.map_cons, List.mem_cons, not_or]
        refine ⟨?_, w3 k (List.mem_cons_of_mem _ hk')⟩
        intro e
        subst e
        exact (List.nodup_cons.mp w2).1 hk'
      · intro k hk'
        exact w4 k (List.mem_cons_of_mem _ hk')
      · intro k hk'
        simp only [Registry.keys, List.map_cons, List.mem_cons] at hk'
        rcases hk' with hk' | hk'
        · subst hk'
          exact w4 _ (List.mem_cons_self _ _)
        · exact w5 k hk'

theorem index2adr_congr (s s' : lua_State) (pos : Int) (h : s'.stack = s.stack) :
    index2adr s' pos = index2adr s pos := by
  simp [index2adr, h]

theorem constructHandles_spec (v : LuaValue) (pos : Int) (hv : v ≠ LuaValue.nil) :
    ∀ (N : Nat) (s : lua_State), s.registry.WF → index2adr s pos = some (some v) →
      ∃ hs s1, constructHandles true pos N s = .ok (hs, s1) ∧ hs.length = N ∧
        (∀ h ∈ hs, h.mLua = true) ∧
        s1.registry.slots =
          (hs.reverse.map fun h => (h.mRegKey, v)) ++ s.registry.slots ∧
        (hs.map LuaRegRef.mRegKey).Nodup ∧
        (∀ h ∈ hs, h.mRegKey ∉ s.registry.keys) ∧
        s1.registry.WF ∧ s1.stack = s.stack ∧ s1.heap = s.heap := by
  intro N
  induction N with
  | zero =>
    intro s hwf _
    exact ⟨[], s, rfl, rfl, by simp, by simp, by simp, by simp, hwf, rfl, rfl⟩
  | succ n ih =>
    intro s hwf hpos
    obtain ⟨k, s', hc, hslots, hk, hwf', hst, hhp⟩ := LuaRegRef.ctor_fresh s pos v hwf hpos hv
    have hpos' : index2adr s' pos = some (some v) := by
      rw [index2adr_congr s s' pos hst]
      exact hpos
    obtain ⟨hs, s1, hcs, hlen, hlua, hsl, hnd, hfr, hwf1, hst1, hhp1⟩ := ih s' hwf' hpos'
    have hkeys' : s'.registry.keys = k :: s.registry.keys := by
      simp [Registry.keys, hslots]
    refine ⟨⟨true, k⟩ :: hs, s1, ?_, by simp [hlen], ?_, ?_, ?_, ?_, hwf1,
      hst1.trans hst, hhp1.trans hhp⟩
    · simp [constructHandles, hc, hcs, bind, Except.bind, pure, Except.pure]
    · intro h hh
      rcases List.mem_cons.mp hh with e | e
      · subst e
        rfl
      · exact hlua h e
    · rw [hsl, hslots]
      simp
    · simp only [List.map_cons, List.nodup_cons]
      refine ⟨?_, hnd⟩
      intro hmem
      obtain ⟨h, hh, e⟩ := List.mem_map.mp hmem
      have := hfr h hh
      rw [hkeys', e] at this
      exact this (List.mem_cons_self _ _)
    · intro h hh
      rcases List.mem_cons.mp hh with e | e
      · subst e
        exact hk
      · have := hfr h e
        rw [hkeys'] at this
        exact fun hm => this (List.mem_cons_of_mem _ hm)

theorem destroyHandles_spec :
    ∀ (hs : List LuaRegRef) (s : lua_State),
      (∀ h ∈ hs, h.mLua = true ∧ 0 ≤ h.mRegKey) →
      (destroyHandles hs s).registry.slots =
          s.registry.slots.filter (fun p => decide (p.1 ∉ hs.map LuaRegRef.mRegKey)) ∧
        (destroyHandles hs s).registry.free =
          (hs.map LuaRegRef.mRegKey).reverse ++ s.registry.free ∧
        (destroyHandles hs s).registry.size = s.registry.size ∧
        (destroyHandles hs s).stack = s.stack ∧
        (destroyHandles hs s).heap = s.heap := by
  intro hs
  induction hs with
  | nil =>
    intro s _
    simp [destroyHandles]
  | cons h hs ih =>
    intro s hall
    have hh := hall h (List.mem_cons_self _ _)
    have hd : h.dtor s = { s with registry :=
        { slots := s.registry.slots.filter (fun p => decide (p.1 ≠ h.mRegKey))
          free := h.mRegKey :: s.registry.free
          size := s.registry.size } } := by
      simp [LuaRegRef.dtor, luaL_unref, hh.1, hh.2]
    obtain ⟨i1, i2, i3, i4, i5⟩ := ih (h.dtor s) (fun x hx => hall x (List.mem_cons_of_mem _ hx))
    simp only [destroyHandles]
    rw [i1, i2, i3, i4, i5, hd]
    refine ⟨?_, by simp, rfl, rfl, rfl⟩
    simp only [List.filter_filter, List.map_cons, List.mem_cons, not_or]
    congr 1
    funext p
    simp only [Bool.decide_and, Bool.and_comm]

theorem Registry.lookup_new_entry (hs : List LuaRegRef) (v : LuaValue)
    (old : List (Int × LuaValue)) (sz : Nat) (fr : List Int) (h : LuaRegRef) (hh : h ∈ hs) :
    Registry.lookup ⟨(hs.reverse.map fun x => (x.mRegKey, v)) ++ old, fr, sz⟩ h.mRegKey = v := by
  have hex : ∃ p ∈ (hs.reverse.map fun x : LuaRegRef => (x.mRegKey, v)),
      (fun p : Int × LuaValue => p.1 == h.mRegKey) p = true :=
    ⟨(h.mRegKey, v), List.mem_map.mpr ⟨h, List.mem_reverse.mpr hh, rfl⟩, by simp⟩
  have hsome := List.find?_isSome.mpr hex
  obtain ⟨q, hq⟩ := Option.isSome_iff_exists.mp hsome
  have hmem := List.mem_of_find?_eq_some hq
  obtain ⟨x, -, hx⟩ := List.mem_map.mp hmem
  simp only [Registry.lookup, List.find?_append, hq, Option.or_some]
  rw [← hx]

/-- C4: for every `N` and every stack position holding a non-nil value `v`,
constructing `N` handles from that position (over a consistent registry)
allocates `N` pairwise distinct keys, none of them in use before, each
referring to `v`, and raises the count of outstanding slots by `N`;
destroying the `N` handles, in any order, releases exactly those slots: the
live references and their count are as before the construction, no key is
released twice (the registry stays consistent), and the stack is unchanged
throughout. -/
theorem LuaRegRef.single_ownership (N : Nat) (s : lua_State) (pos : Int) (v : LuaValue)
    (hwf : s.registry.WF) (hpos : index2adr s pos = some (some v))
    (hv : v ≠ LuaValue.nil) :
    ∃ hs s1, constructHandles true pos N s = .ok (hs, s1) ∧ hs.length = N ∧
      (hs.map LuaRegRef.getRegKey).Nodup ∧
      (∀ h ∈ hs, h.getRegKey ∉ s.registry.keys ∧ h.getRegKey ∈ s1.registry.keys ∧
        s1.registry.lookup h.getRegKey = v) ∧
      s1.registry.outstanding = s.registry.outstanding + N ∧ s1.stack = s.stack ∧
      ∀ order : List LuaRegRef, order.Perm hs →
        (destroyHandles order s1).registry.slots = s.registry.slots ∧
        (destroyHandles order s1).registry.outstanding = s.registry.outstanding ∧
        (destroyHandles order s1).registry.WF ∧
        (destroyHandles order s1).stack = s.stack := by
  obtain ⟨hs, s1, hc, hlen, hlua, hsl, hnd, hfr, hwf1, hst, -⟩ :=
    constructHandles_spec v pos hv N s hwf hpos
  have hin : ∀ h ∈ hs, h.mRegKey ∈ s1.registry.keys := by
    intro h hh
    simp only [Registry.keys, hsl, List.map_append, List.mem_append]
    left
    exact List.mem_map.mpr ⟨(h.mRegKey, v),
      List.mem_map.mpr ⟨h, List.mem_reverse.mpr hh, rfl⟩, rfl⟩
  refine ⟨hs, s1, hc, hlen, hnd, ?_, ?_, hst, ?_⟩
  · intro h hh
    refine ⟨hfr h hh, hin h hh, ?_⟩
    have := Registry.lookup_new_entry hs v s.registry.slots s1.registry.size
      s1.registry.free h hh
    rw [← hsl] at this
    exact this
  · simp [Registry.outstanding, hsl, hlen, Nat.add_comm]
  · intro order hperm
    have hall : ∀ h ∈ order, h.mLua = true ∧ 0 ≤ h.mRegKey := by
      intro h hh
      have hh' := hperm.mem_iff.mp hh
      have := (hwf1.2.2.2.2 _ (hin h hh')).1
      exact ⟨hlua h hh', by omega⟩
    obtain ⟨d1, d2, d3, d4, -⟩ := destroyHandles_spec order s1 hall
    have hkeys : ∀ k, k ∈ order.map LuaRegRef.mRegKey ↔ k ∈ hs.map LuaRegRef.mRegKey :=
      fun k => (hperm.map LuaRegRef.mRegKey).mem_iff
    have hslots : (destroyHandles order s1).registry.slots = s.registry.slots := by
      rw [d1, hsl, List.filter_append]
      have e1 : (hs.reverse.map fun h => (h.mRegKey, v)).filter
          (fun p => decide (p.1 ∉ order.map LuaRegRef.mRegKey)) = [] := by
        rw [List.filter_eq_nil_iff]
        intro p hp
        obtain ⟨x, hx, e⟩ := List.mem_map.mp hp
        subst e
        have : x.mRegKey ∈ order.map LuaRegRef.mRegKey :=
          (hkeys _).mpr (List.mem_map_of_mem _ (List.mem_reverse.mp hx))
        simpa using this
      have e2 : s.registry.slots.filter
          (fun p => decide (p.1 ∉ order.map LuaRegRef.mRegKey)) = s.registry.slots := by
        rw [List.filter_eq_self]
        intro p hp
        have : p.1 ∉ order.map LuaRegRef.mRegKey := by
          intro hm
          obtain ⟨x, hx, e⟩ := List.mem_map.mp ((hkeys _).mp hm)
          exact hfr x hx (e ▸ List.mem_map_of_mem Prod.fst hp)
        simpa using this
      rw [e1, e2, List.nil_append]
    refine ⟨hslots, by simp [Registry.outstanding, hslots], ?_, d4.trans hst⟩
    obtain ⟨w1, w2, w3, w4, w5⟩ := hwf1
    have hsub : ∀ k ∈ s.registry.keys, k ∈ s1.registry.keys := by
      intro k hk
      simp only [Registry.keys, hsl, List.map_append, List.mem_append]
      exact Or.inr hk
    have hord : (order.map LuaRegRef.mRegKey).Nodup :=
      (hperm.map LuaRegRef.mRegKey).nodup_iff.mpr hnd
    refine ⟨?_, ?_, ?_, ?_, ?_⟩
    · simp only [Registry.keys, hslots]
      exact hwf.1
    · rw [d2, List.nodup_append]
      refine ⟨List.nodup_reverse.mpr hord, w2, ?_⟩
      intro k hk1 hk2
      obtain ⟨x, hx, e⟩ := List.mem_map.mp ((hkeys k).mp (List.mem_reverse.mp hk1))
      exact w3 k hk2 (e ▸ hin x hx)
    · intro k hk
      rw [d2, List.mem_append] at hk
      simp only [Registry.keys, hslots]
      rcases hk with hk | hk
      · obtain ⟨x, hx, e⟩ := List.mem_map.mp ((hkeys k).mp (List.mem_reverse.mp hk))
        exact e ▸ hfr x hx
      · exact fun hm => w3 k hk (hsub k hm)
    · intro k hk
      rw [d2, List.mem_append] at hk
      rw [d3]
      rcases hk with hk | hk
      · obtain ⟨x, hx, e⟩ := List.mem_map.mp ((hkeys k).mp (List.mem_reverse.mp hk))
        exact e ▸ w5 _ (hin x hx)
      · exact w4 k hk
    · intro k hk
      simp only [Registry.keys, hslots] at hk
      rw [d3]
      exact w5 k (hsub k hk)

/-- Witness for C4: three handles on the number at position 1 of a fresh
connection get the keys 1, 2 and 3, and destroying them in the order of
construction leaves no slot outstanding. -/
theorem LuaRegRef.single_ownership_witness :
    constructHandles true 1 3 (stateWithStack [.number 7]) =
        .ok ([⟨true, 1⟩, ⟨true, 2⟩, ⟨true, 3⟩],
          ⟨[.number 7], ⟨[(3, .number 7), (2, .number 7), (1, .number 7)], [], 3⟩,
            Heap.empty⟩) ∧
      (destroyHandles [⟨true, 1⟩, ⟨true, 2⟩, ⟨true, 3⟩]
          ⟨[.number 7], ⟨[(3, .number 7), (2, .number 7), (1, .number 7)], [], 3⟩,
            Heap.empty⟩).registry.outstanding = 0 := by
  obtain ⟨hs, s1, hc, -, -, -, -, -, hd⟩ :=
    LuaRegRef.single_ownership 3 (stateWithStack [.number 7]) 1 (.number 7)
      (by decide) rfl (by decide)
  have hc' : constructHandles true 1 3 (stateWithStack [.number 7]) =
      .ok ([⟨true, 1⟩, ⟨true, 2⟩, ⟨true, 3⟩],
        ⟨[.number 7], ⟨[(3, .number 7), (2, .number 7), (1, .number 7)], [], 3⟩,
          Heap.empty⟩) := rfl
  rw [hc'] at hc
  simp only [Except.ok.injEq, Prod.mk.injEq] at hc
  obtain ⟨e1, e2⟩ := hc
  subst e1 e2
  exact ⟨hc', (hd _ (List.Perm.refl _)).2.1⟩

/-! ## Stack balance -/

theorem AboveN.zero (st : List LuaValue) : AboveN st 0 st :=
  ⟨[], by simp, rfl⟩

theorem AboveN.push {base st : List LuaValue} {n : Nat} (v : LuaValue)
    (h : AboveN base n st) : AboveN base (n + 1) (st ++ [v]) := by
  obtain ⟨x, rfl, hx⟩ := h
  exact ⟨x ++ [v], by simp, by simp [hx]⟩

theorem AboveN.pop {base st : List LuaValue} {n : Nat}
    (h : AboveN base (n + 1) st) : AboveN base n st.dropLast := by
  obtain ⟨x, rfl, hx⟩ := h
  have hne : x ≠ [] := by
    intro e
    simp [e] at hx
  refine ⟨x.dropLast, ?_, by simp [hx]⟩
  rw [List.dropLast_append_of_ne_nil _ hne]

theorem AboveN.length {base st : List LuaValue} {n : Nat} (h : AboveN base n st) :
    st.length = base.length + n := by
  obtain ⟨x, rfl, hx⟩ := h
  simp [hx]

theorem AboveN.settop {base st : List LuaValue} {n : Nat} (h : AboveN base n st)
    (s : lua_State) (hs : s.stack = st) :
    lua_settop s (base.length : Int) = .ok { s with stack := base } := by
  obtain ⟨x, rfl, -⟩ := h
  simp [lua_settop, hs]

theorem LuaStackCleaner.ctor_ok {L : Bool} {s : lua_State} {sc : LuaStackCleaner}
    (h : LuaStackCleaner.ctor L s = .ok sc) : sc.mStackTop = (s.stack.length : Int) := by
  cases L with
  | false => simp [LuaStackCleaner.ctor, bind, Except.bind, throw, throwThe,
      MonadExceptOf.throw] at h
  | true =>
    simp [LuaStackCleaner.ctor, cassert, bind, Except.bind, pure, Except.pure,
      lua_gettop] at h
    rw [← h]

theorem LuaStackCleaner.cleaner_dtor_restores {base : List LuaValue} {n : Nat} {s : lua_State}
    {sc : LuaStackCleaner} (hsc : sc.mStackTop = (base.length : Int))
    (h : AboveN base n s.stack) :
    ∃ s', sc.dtor s = .ok s' ∧ s'.stack = base := by
  refine ⟨{ s with stack := base }, ?_, rfl⟩
  rw [LuaStackCleaner.dtor, hsc]
  exact h.settop s rfl

theorem AboveN.of_push {base : List LuaValue} {n : Nat} {s s' : lua_State}
    (h : AboveN base n s.stack) (hp : ∃ v, s'.stack = s.stack ++ [v]) :
    AboveN base (n + 1) s'.stack := by
  obtain ⟨v, hv⟩ := hp
  rw [hv]
  exact h.push v

theorem AboveN.of_pop {base : List LuaValue} {n : Nat} {s s' : lua_State}
    (h : AboveN base (n + 1) s.stack) (hp : s'.stack = s.stack.dropLast) :
    AboveN base n s'.stack := by
  rw [hp]
  exact h.pop

theorem AboveN.two {base st : List LuaValue} {n : Nat} (h : AboveN base (n + 2) st) :
    ∃ y a b, st = (base ++ y) ++ [a, b] ∧ y.length = n := by
  obtain ⟨x, rfl, hx⟩ := h
  have h1 : x ≠ [] := by
    intro e
    simp [e] at hx
  have h2 : x.dropLast ≠ [] := by
    intro e
    have := congrArg List.length e
    simp [hx] at this
  refine ⟨x.dropLast.dropLast, x.dropLast.getLast h2, x.getLast h1, ?_, by simp [hx]⟩
  have e1 : x = x.dropLast ++ [x.getLast h1] := (List.dropLast_append_getLast h1).symm
  have e2 : x.dropLast = x.dropLast.dropLast ++ [x.dropLast.getLast h2] :=
    (List.dropLast_append_getLast h2).symm
  calc base ++ x = base ++ (x.dropLast ++ [x.getLast h1]) := by rw [← e1]
    _ = base ++ ((x.dropLast.dropLast ++ [x.dropLast.getLast h2]) ++ [x.getLast h1]) := by
        rw [← e2]
    _ = _ := by simp

theorem stackSlot_neg2 (pre : List LuaValue) (a b : LuaValue) (rg : Registry) (hp : Heap) :
    stackSlot ⟨pre ++ [a, b], rg, hp⟩ (-2) = .ok pre.length := by
  have h1 : ¬ ((-2 : Int) > 0 ∧ (-2 : Int) ≤ ((pre ++ [a, b]).length : Int)) := by omega
  have hlen : ((pre ++ [a, b]).length : Int) = (pre.length : Int) + 2 := by
    simp
  have h2 : (-2 : Int) < 0 ∧ -(-2 : Int) ≤ ((pre ++ [a, b]).length : Int) := by
    rw [hlen]
    omega
  simp only [stackSlot, h1, h2, if_false, if_true]
  simp

theorem List.eraseIdx_length_append_two (pre : List LuaValue) (a b : LuaValue) :
    (pre ++ [a, b]).eraseIdx pre.length = pre ++ [b] := by
  induction pre with
  | nil => rfl
  | cons x xs ih => simp [ih]

theorem List.insertIdx_length_append_one (pre : List LuaValue) (a b : LuaValue) :
    (pre ++ [a]).insertIdx pre.length b = pre ++ [b, a] := by
  induction pre with
  | nil => rfl
  | cons x xs ih =>
    simp only [List.cons_append, List.length_cons, List.insertIdx_succ_cons, ih]

theorem lua_remove_above {base : List LuaValue} {n : Nat} {s s' : lua_State}
    (h : lua_remove s (-2) = .ok s') (ha : AboveN base (n + 2) s.stack) :
    AboveN base (n + 1) s'.stack := by
  obtain ⟨y, a, b, hst, hy⟩ := ha.two
  obtain ⟨st, rg, hp⟩ := s
  simp only at hst
  subst hst
  simp only [lua_remove, stackSlot_neg2, bind, Except.bind, pure, Except.pure,
    Except.ok.injEq] at h
  subst h
  simp only [List.eraseIdx_length_append_two]
  exact ⟨y ++ [b], by simp, by simp [hy]⟩

theorem lua_insert_above {base : List LuaValue} {n : Nat} {s s' : lua_State}
    (h : lua_insert s (-2) = .ok s') (ha : AboveN base (n + 2) s.stack) :
    AboveN base (n + 2) s'.stack := by
  obtain ⟨y, a, b, hst, hy⟩ := ha.two
  obtain ⟨st, rg, hp⟩ := s
  simp only at hst
  subst hst
  have hl : (base ++ y ++ [a, b]).getLast? = some b := by simp
  have hd : (base ++ y ++ [a, b]).dropLast = (base ++ y) ++ [a] := by
    have : base ++ y ++ [a, b] = ((base ++ y) ++ [a]) ++ [b] := by simp
    rw [this, List.dropLast_concat]
  simp only [lua_insert, stackSlot_neg2, bind, Except.bind, pure, Except.pure, hl, hd,
    Except.ok.injEq] at h
  subst h
  simp only [List.insertIdx_length_append_one]
  exact ⟨y ++ [b, a], by simp, by simp [hy]⟩

theorem Except.throw_ne_ok {α : Type} (e : Fault) (a : α) :
    (throw e : Except Fault α) ≠ .ok a := by
  simp [throw, throwThe, MonadExceptOf.throw]

theorem Except.pure_eq_ok_iff {α : Type} (a b : α) :
    (pure a : Except Fault α) = .ok b ↔ a = b := by
  simp [pure, Except.pure]

theorem lua_rawgeti_stack {s s' : lua_State} {idx n : Int}
    (h : lua_rawgeti s idx n = .ok s') : ∃ v, s'.stack = s.stack ++ [v] := by
  unfold lua_rawgeti at h
  split at h
  · simp only [Except.ok.injEq] at h
    exact ⟨_, by rw [← h]; rfl⟩
  · simp only [Except.bind_eq_ok_iff] at h
    obtain ⟨t, -, h⟩ := h
    split at h
    · split at h
      · simp only [Except.pure_eq_ok_iff] at h
        exact ⟨_, by rw [← h]; rfl⟩
      · exact absurd h (Except.throw_ne_ok _ _)
    · exact absurd h (Except.throw_ne_ok _ _)

theorem LuaRegRef.regRef_pushObj_stack {self : LuaRegRef} {s s' : lua_State}
    (h : self.pushObj s = .ok s') : ∃ v, s'.stack = s.stack ++ [v] := by
  simp only [LuaRegRef.pushObj, Except.bind_eq_ok_iff] at h
  obtain ⟨_, -, h⟩ := h
  exact lua_rawgeti_stack h

theorem LuaObjRef.objRef_pushObj_stack {self : LuaObjRef} {s s' : lua_State}
    (h : self.pushObj s = .ok s') : ∃ v, s'.stack = s.stack ++ [v] := by
  unfold LuaObjRef.pushObj at h
  split at h
  · simp only [Except.bind_eq_ok_iff, Except.pure_eq_ok_iff] at h
    obtain ⟨_, -, _, -, h⟩ := h
    exact ⟨_, by rw [← h]; rfl⟩
  · exact LuaRegRef.regRef_pushObj_stack h

theorem lua_pushvalue_stack {s s' : lua_State} {idx : Int}
    (h : lua_pushvalue s idx = .ok s') : ∃ v, s'.stack = s.stack ++ [v] := by
  unfold lua_pushvalue at h
  split at h
  · simp only [Except.ok.injEq] at h
    exact ⟨_, by rw [← h]; rfl⟩
  · simp at h

theorem lua_getmetatable_stack {s s' : lua_State} {idx r : Int}
    (h : lua_getmetatable s idx = .ok (r, s')) :
    (r = 0 ∧ s' = s) ∨ (r ≠ 0 ∧ ∃ v, s'.stack = s.stack ++ [v]) := by
  simp only [lua_getmetatable, Except.bind_eq_ok_iff] at h
  obtain ⟨obj, -, h⟩ := h
  split at h
  · rename_i m _
    simp only [Except.pure_eq_ok_iff, Prod.mk.injEq] at h
    right
    refine ⟨by omega, LuaValue.table m, ?_⟩
    rw [← h.2]
    rfl
  · simp only [Except.pure_eq_ok_iff, Prod.mk.injEq] at h
    exact Or.inl ⟨h.1.symm, h.2.symm⟩

theorem lua_setfield_stack {rt : Runtime} {s s' : lua_State} {idx : Int} {k : String}
    (h : lua_setfield rt s idx k = .ok s') : s'.stack = s.stack.dropLast := by
  simp only [lua_setfield, Except.bind_eq_ok_iff] at h
  obtain ⟨t, -, h⟩ := h
  split at h
  · simp only [Except.bind_eq_ok_iff, Except.pure_eq_ok_iff] at h
    obtain ⟨_, -, h⟩ := h
    rw [← h]
  · exact absurd h (Except.throw_ne_ok _ _)

theorem lua_settable_stack {rt : Runtime} {s s' : lua_State} {idx : Int}
    (h : lua_settable rt s idx = .ok s') : s'.stack = s.stack.dropLast.dropLast := by
  simp only [lua_settable, Except.bind_eq_ok_iff] at h
  obtain ⟨t, -, h⟩ := h
  split at h
  · simp only [Except.bind_eq_ok_iff, Except.pure_eq_ok_iff] at h
    obtain ⟨_, -, h⟩ := h
    rw [← h]
  · exact absurd h (Except.throw_ne_ok _ _)

theorem lua_gettable_stack {rt : Runtime} {s s' : lua_State} {idx : Int}
    (h : lua_gettable rt s idx = .ok s') : ∃ v, s'.stack = s.stack.dropLast ++ [v] := by
  simp only [lua_gettable, Except.bind_eq_ok_iff] at h
  obtain ⟨t, -, h⟩ := h
  split at h
  · exact absurd h (Except.throw_ne_ok _ _)
  · simp only [Except.bind_eq_ok_iff, Except.pure_eq_ok_iff] at h
    obtain ⟨p, -, h⟩ := h
    exact ⟨p.1, by rw [← h]⟩

theorem lua_getfield_stack {rt : Runtime} {s s' : lua_State} {idx : Int} {k : String}
    (h : lua_getfield rt s idx k = .ok s') : ∃ v, s'.stack = s.stack ++ [v] := by
  simp only [lua_getfield, Except.bind_eq_ok_iff, Except.pure_eq_ok_iff] at h
  obtain ⟨t, -, p, -, h⟩ := h
  exact ⟨p.1, by rw [← h]⟩

theorem lua_setmetatable_stack {s s' : lua_State} {idx r : Int}
    (h : lua_setmetatable s idx = .ok (r, s')) : s'.stack = s.stack.dropLast := by
  simp only [lua_setmetatable, Except.bind_eq_ok_iff, Except.pure_eq_ok_iff,
    Prod.mk.injEq] at h
  obtain ⟨obj, -, mt, -, hp, -, -, h⟩ := h
  rw [← h]

theorem lua_setfenv_stack {s s' : lua_State} {idx r : Int}
    (h : lua_setfenv s idx = .ok (r, s')) : s'.stack = s.stack.dropLast := by
  simp only [lua_setfenv, Except.bind_eq_ok_iff] at h
  obtain ⟨o, -, h⟩ := h
  split at h
  · split at h <;>
      · simp only [Except.pure_eq_ok_iff, Prod.mk.injEq] at h
        rw [← h.2]
  · exact absurd h (Except.throw_ne_ok _ _)

theorem lua_getfenv_stack {s s' : lua_State} {idx : Int}
    (h : lua_getfenv s idx = .ok s') : ∃ v, s'.stack = s.stack ++ [v] := by
  simp only [lua_getfenv, Except.bind_eq_ok_iff] at h
  obtain ⟨o, -, h⟩ := h
  split at h <;>
    · simp only [Except.pure_eq_ok_iff] at h
      exact ⟨_, by rw [← h]; rfl⟩

theorem lua_pop_one_stack {s s' : lua_State} (h : lua_pop s 1 = .ok s') :
    s'.stack = s.stack.dropLast := by
  unfold lua_pop lua_settop at h
  have h1 : ¬ ((-1 : Int) - 1 ≥ 0) := by omega
  simp only [h1, if_false] at h
  split at h
  · simp only [Except.ok.injEq] at h
    rw [← h, List.dropLast_eq_take]
    congr 1
  · simp at h

theorem lua_remove_neg2_stack {s s' : lua_State} {pre : List LuaValue} {a b : LuaValue}
    (h : lua_remove s (-2) = .ok s') (hst : s.stack = pre ++ [a, b]) :
    s'.stack = pre ++ [b] := by
  obtain ⟨st, rg, hp⟩ := s
  simp only at hst
  subst hst
  simp only [lua_remove, stackSlot_neg2, bind, Except.bind, pure, Except.pure,
    Except.ok.injEq] at h
  subst h
  simp only [List.eraseIdx_length_append_two]

theorem List.set_length_append_one (pre : List LuaValue) (a b : LuaValue) :
    (pre ++ [a]).set pre.length b = pre ++ [b] := by
  induction pre with
  | nil => rfl
  | cons x xs ih => simp [ih]

theorem stackSlot_neg1 (pre : List LuaValue) (a : LuaValue) (rg : Registry) (hp : Heap) :
    stackSlot ⟨pre ++ [a], rg, hp⟩ (-1) = .ok pre.length := by
  have h1 : ¬ ((-1 : Int) > 0 ∧ (-1 : Int) ≤ ((pre ++ [a]).length : Int)) := by omega
  have hlen : ((pre ++ [a]).length : Int) = (pre.length : Int) + 1 := by
    simp
  have h2 : (-1 : Int) < 0 ∧ -(-1 : Int) ≤ ((pre ++ [a]).length : Int) := by
    rw [hlen]
    omega
  simp only [stackSlot, h1, h2, if_false, if_true]
  simp

theorem AboveN.one {base st : List LuaValue} {n : Nat} (h : AboveN base (n + 1) st) :
    ∃ y a, st = (base ++ y) ++ [a] ∧ y.length = n := by
  obtain ⟨x, rfl, hx⟩ := h
  have h1 : x ≠ [] := by
    intro e
    simp [e] at hx
  refine ⟨x.dropLast, x.getLast h1, ?_, by simp [hx]⟩
  rw [List.append_assoc, List.dropLast_append_getLast h1]

theorem lua_tostring_top_above {base : List LuaValue} {n : Nat} {s s' : lua_State}
    {r : Option String} (h : lua_tostring s (-1) = .ok (r, s'))
    (ha : AboveN base (n + 1) s.stack) : AboveN base (n + 1) s'.stack := by
  obtain ⟨y, a, hst, hy⟩ := ha.one
  obtain ⟨st, rg, hp⟩ := s
  simp only at hst
  subst hst
  have hfin : ∀ b, AboveN base (n + 1) (base ++ y ++ [b]) :=
    fun b => ⟨y ++ [b], by simp, by simp [hy]⟩
  unfold lua_tostring at h
  split at h
  · simp only [Except.ok.injEq, Prod.mk.injEq] at h
    rw [← h.2]
    exact hfin a
  · simp only [stackSlot_neg1, bind, Except.bind, pure, Except.pure, Except.ok.injEq,
      Prod.mk.injEq] at h
    rw [← h.2]
    simp only [List.set_length_append_one]
    exact hfin _
  · simp only [Except.ok.injEq, Prod.mk.injEq] at h
    rw [← h.2]
    exact hfin a
  · simp at h

theorem getObjFromStack_string_top_above {base : List LuaValue} {n : Nat}
    {s s' : lua_State} {lua : Bool} {r : String}
    (h : getObjFromStack_string lua (-1) s = .ok (r, s'))
    (ha : AboveN base (n + 1) s.stack) : AboveN base (n + 1) s'.stack := by
  simp only [getObjFromStack_string, Except.bind_eq_ok_iff] at h
  obtain ⟨_, -, h⟩ := h
  split at h
  · simp only [Except.pure_eq_ok_iff, Prod.mk.injEq] at h
    rw [← h.2]
    exact ha
  · simp only [Except.bind_eq_ok_iff, Except.pure_eq_ok_iff, Prod.mk.injEq] at h
    obtain ⟨⟨str, s1⟩, h1, h⟩ := h
    simp only at h
    rw [← h.2]
    exact lua_tostring_top_above h1 ha

theorem pushValToStack_key_stack {L : Bool} {k : HostKey} {s s' : lua_State}
    (h : pushValToStack_key L k s = .ok s') : ∃ v, s'.stack = s.stack ++ [v] := by
  unfold pushValToStack_key at h
  split at h
  · simp only [Except.bind_eq_ok_iff, Except.pure_eq_ok_iff] at h
    obtain ⟨_, -, _, -, h⟩ := h
    exact ⟨_, by rw [← h]; rfl⟩
  · simp only [Except.bind_eq_ok_iff, Except.pure_eq_ok_iff] at h
    obtain ⟨_, -, _, -, h⟩ := h
    exact ⟨_, by rw [← h]; rfl⟩
  · simp only [Except.bind_eq_ok_iff, Except.pure_eq_ok_iff] at h
    obtain ⟨_, -, _, -, h⟩ := h
    exact ⟨_, by rw [← h]; rfl⟩
  · exact LuaObjRef.objRef_pushObj_stack h

theorem LuaTableRef.pushFieldValue_stack {rt : Runtime} {self : LuaObjRef} {key : HostKey}
    {s s' : lua_State} (h : LuaTableRef.pushFieldValue rt self key s = .ok s') :
    ∃ v, s'.stack = s.stack ++ [v] := by
  unfold LuaTableRef.pushFieldValue at h
  split at h
  · simp only [Except.bind_eq_ok_iff] at h
    obtain ⟨_, -, _, -, h⟩ := h
    exact lua_rawgeti_stack h
  · simp only [Except.bind_eq_ok_iff] at h
    obtain ⟨_, -, _, -, h⟩ := h
    exact lua_getfield_stack h
  · simp only [Except.bind_eq_ok_iff] at h
    obtain ⟨s1, h1, h⟩ := h
    obtain ⟨k, hk⟩ := pushValToStack_key_stack h1
    obtain ⟨v, hv⟩ := lua_gettable_stack h
    exact ⟨v, by rw [hv, hk, List.dropLast_concat]⟩

theorem LuaTableRef.Field.field_pushObj_stack {rt : Runtime} {mTable : LuaObjRef} {mKey : HostKey}
    {s s' : lua_State} (h : LuaTableRef.Field.pushObj rt mTable mKey s = .ok s') :
    ∃ v, s'.stack = s.stack ++ [v] := by
  simp only [LuaTableRef.Field.pushObj, Except.bind_eq_ok_iff] at h
  obtain ⟨s1, h1, s2, h2, _, -, h⟩ := h
  obtain ⟨t, ht⟩ := LuaObjRef.objRef_pushObj_stack h1
  obtain ⟨v, hv⟩ := LuaTableRef.pushFieldValue_stack h2
  have hst : s2.stack = s.stack ++ [t, v] := by
    rw [hv, ht]
    simp
  exact ⟨v, lua_remove_neg2_stack h hst⟩

theorem pushValToStack_arg_stack {rt : Runtime} {L : Bool} {a : CallArg} {s s' : lua_State}
    (h : pushValToStack_arg rt L a s = .ok s') : ∃ v, s'.stack = s.stack ++ [v] := by
  unfold pushValToStack_arg at h
  split at h
  · exact pushValToStack_key_stack h
  · exact LuaTableRef.Field.field_pushObj_stack h

theorem LuaTempResult.Item.item_push_stack {self : LuaTempResult.Item} {s s' : lua_State}
    (h : self.push s = .ok s') : ∃ v, s'.stack = s.stack ++ [v] := by
  simp only [LuaTempResult.Item.push, Except.bind_eq_ok_iff] at h
  obtain ⟨_, -, _, -, h⟩ := h
  split at h
  · simp only [Except.pure_eq_ok_iff] at h
    exact ⟨_, by rw [← h]; rfl⟩
  · exact lua_pushvalue_stack h

theorem LuaTempResult.result_push_stack {self : LuaTempResult} {index : Int} {s s' : lua_State}
    (h : self.push index s = .ok s') : ∃ v, s'.stack = s.stack ++ [v] := by
  simp only [LuaTempResult.push, Except.bind_eq_ok_iff] at h
  obtain ⟨_, -, h⟩ := h
  split at h
  · simp only [Except.pure_eq_ok_iff] at h
    exact ⟨_, by rw [← h]; rfl⟩
  · simp only [Except.bind_eq_ok_iff] at h
    obtain ⟨_, -, h⟩ := h
    split at h
    · exact lua_pushvalue_stack h
    · simp only [Except.pure_eq_ok_iff] at h
      exact ⟨_, by rw [← h]; rfl⟩

theorem pushValToStack_stack {rt : Runtime} {L : Bool} {v : HostValue} {s s' : lua_State}
    (h : pushValToStack rt L v s = .ok s') : ∃ w, s'.stack = s.stack ++ [w] := by
  unfold pushValToStack at h
  split at h
  · exact pushValToStack_arg_stack h
  · simp only [Except.bind_eq_ok_iff] at h
    obtain ⟨_, -, h⟩ := h
    split at h
    · simp only [Except.bind_eq_ok_iff, Except.pure_eq_ok_iff] at h
      obtain ⟨_, -, _, -, h⟩ := h
      exact ⟨_, by rw [← h]; rfl⟩
    · exact LuaTempResult.Item.item_push_stack h
  · exact LuaTempResult.result_push_stack h

theorem lua_replace_top (base : List LuaValue) (b w : LuaValue) (rg : Registry) (hp : Heap) :
    lua_replace ⟨base ++ [b, w], rg, hp⟩ ((base.length : Int) + 1) =
      .ok ⟨base ++ [w], rg, hp⟩ := by
  simp [lua_replace, stackSlot_top, bind, Except.bind, pure, Except.pure]

theorem LuaTempResult.ctor_above {base : List LuaValue} {n : Nat} {lua : Bool} {e : Int}
    {p : String} {s s' : lua_State} {r : LuaTempResult}
    (h : LuaTempResult.ctor lua (base.length : Int) e p s = .ok (r, s'))
    (ha : AboveN base n s.stack) :
    AboveN base n s'.stack ∧ r.mPrevStackTop = (base.length : Int) ∧
      r.mNumRetVal = (n : Int) := by
  obtain ⟨hr, -, he⟩ := LuaTempResult.ctor_ok_shape lua _ e p s s' r h
  have hlen := ha.length
  have hnum : lua_gettop s - (base.length : Int) = (n : Int) := by
    simp only [lua_gettop, hlen]
    push_cast
    omega
  refine ⟨?_, by rw [hr], by rw [hr]; exact hnum⟩
  cases lua with
  | false =>
    simp [LuaTempResult.ctor, bind, Except.bind, throw, throwThe, MonadExceptOf.throw] at h
  | true =>
    simp only [LuaTempResult.ctor, Bool.not_true, Bool.false_eq_true, if_false,
      Except.bind_eq_ok_iff, cassert_eq_ok_iff, pure, Except.pure] at h
    obtain ⟨_, -, _, -, _, -, _, -, h⟩ := h
    split at h
    · rename_i hne
      have he0 : e ≠ 0 := by simpa using hne
      have hn1 : n = 1 := by
        rcases he with he | he
        · exact absurd he he0
        · rw [hr] at he
          simp only at he
          omega
      subst hn1
      obtain ⟨y, a, hst, hy⟩ := ha.one
      have hy0 : y = [] := List.length_eq_zero.mp hy
      subst hy0
      obtain ⟨st, rg, hp⟩ := s
      simp only [List.append_nil] at hst
      subst hst
      simp only [Except.bind_eq_ok_iff] at h
      obtain ⟨⟨str, s1⟩, h1, h⟩ := h
      have hs1 : ∃ b, s1 = ⟨base ++ [b], rg, hp⟩ := by
        unfold lua_tostring at h1
        simp only [index2adr_top] at h1
        split at h1
        · simp only [Except.ok.injEq, Prod.mk.injEq] at h1
          exact ⟨a, h1.2.symm⟩
        · have hslot : stackSlot ⟨base ++ [a], rg, hp⟩ ((base.length : Int) + 1) =
              .ok base.length := by
            have h0 : (0 : Int) < (base.length : Int) + 1 := by omega
            simp [stackSlot, h0]
          simp only [hslot, bind, Except.bind, pure, Except.pure, Except.ok.injEq,
            Prod.mk.injEq, List.set_length_append_one] at h1
          exact ⟨_, h1.2.symm⟩
        · simp only [Except.ok.injEq, Prod.mk.injEq] at h1
          exact ⟨a, h1.2.symm⟩
        · simp at h1
      obtain ⟨b, hb⟩ := hs1
      subst hb
      split at h
      · exact absurd h (Except.throw_ne_ok _ _)
      · rename_i msg _
        simp only [Except.bind_eq_ok_iff] at h
        obtain ⟨_, -, s3, h3, h⟩ := h
        simp only [Except.ok.injEq, Prod.mk.injEq] at h
        rw [← h.2]
        have hpush : lua_pushstring ⟨base ++ [b], rg, hp⟩ (p ++ ": " ++ msg) =
            ⟨base ++ [b, LuaValue.string (c_str (p ++ ": " ++ msg))], rg, hp⟩ := by
          simp [lua_pushstring, pushValue]
        rw [hpush, lua_replace_top] at h3
        simp only [Except.ok.injEq] at h3
        rw [← h3]
        exact ⟨[LuaValue.string (c_str (p ++ ": " ++ msg))], rfl, rfl⟩
    · simp only [Except.ok.injEq, Prod.mk.injEq] at h
      rw [← h.2]
      exact ha

theorem LuaTempResult.result_dtor_restores {base : List LuaValue} {n : Nat} {r : LuaTempResult}
    {s : lua_State} (hp : r.mPrevStackTop = (base.length : Int))
    (hn : r.mNumRetVal = (n : Int)) (ha : AboveN base n s.stack) :
    ∃ s2, r.dtor s = .ok s2 ∧ s2.stack = base := by
  refine ⟨{ s with stack := base }, ?_, rfl⟩
  have hlen := ha.length
  have htop : lua_gettop s = r.mPrevStackTop + r.mNumRetVal := by
    rw [hp, hn, lua_gettop, hlen]
    push_cast
    rfl
  simp only [LuaTempResult.dtor, cassert, htop, beq_self_eq_true, if_true, bind,
    Except.bind]
  rw [hp]
  exact ha.settop s rfl

theorem lua_pcall_above {base : List LuaValue} {m : Nat} {rt : Runtime} {s s' : lua_State}
    {nargs nres ef code : Int} (h : lua_pcall rt s nargs nres ef = .ok (code, s'))
    (ha : AboveN base m s.stack) (hm : nargs + 1 = (m : Int)) :
    ∃ k, AboveN base k s'.stack := by
  obtain ⟨x, hst, hx⟩ := ha
  unfold lua_pcall at h
  split at h
  · simp at h
  · have hbase : s.stack.length - (nargs.toNat + 1) = base.length := by
      rw [hst, List.length_append, hx]
      omega
    simp only [hbase] at h
    have htake : s.stack.take base.length = base := by
      rw [hst]
      simp
    split at h
    · simp at h
    · split at h
      · simp only [Except.ok.injEq, Prod.mk.injEq] at h
        rw [← h.2]
        simp only [htake]
        exact ⟨_, ⟨_, rfl, rfl⟩⟩
      · simp only [Except.ok.injEq, Prod.mk.injEq] at h
        rw [← h.2]
        simp only [htake]
        exact ⟨_, ⟨_, rfl, rfl⟩⟩

theorem LuaFuncCallParams.appendAll_spec {rt : Runtime} {base : List LuaValue} :
    ∀ (args : List CallArg) (p p' : LuaFuncCallParams) (s s' : lua_State) (n : Nat),
      p.appendAll rt args s = .ok (p', s') → AboveN base n s.stack →
      AboveN base (n + args.length) s'.stack ∧
        p'.argsOnStack = p.argsOnStack + (args.length : Int) ∧
        p'.preStackTop = p.preStackTop ∧ p'.mLua = p.mLua := by
  intro args
  induction args with
  | nil =>
    intro p p' s s' n h ha
    simp only [LuaFuncCallParams.appendAll, Except.pure_eq_ok_iff, Prod.mk.injEq] at h
    obtain ⟨rfl, rfl⟩ := h
    exact ⟨ha, by simp, rfl, rfl⟩
  | cons a rest ih =>
    intro p p' s s' n h ha
    simp only [LuaFuncCallParams.appendAll, Except.bind_eq_ok_iff] at h
    obtain ⟨⟨p1, s1⟩, h1, h⟩ := h
    simp only [LuaFuncCallParams.append, Except.bind_eq_ok_iff, Except.pure_eq_ok_iff,
      Prod.mk.injEq] at h1
    obtain ⟨s1', hpush, hp1, hs1⟩ := h1
    subst hs1
    have a1 := ha.of_push (pushValToStack_arg_stack hpush)
    obtain ⟨i1, i2, i3, i4⟩ := ih p1 p' s1' s' (n + 1) h a1
    subst hp1
    refine ⟨?_, ?_, i3, i4⟩
    · have e : n + (a :: rest).length = n + 1 + rest.length := by
        simp only [List.length_cons]
        omega
      rw [e]
      exact i1
    · rw [i2]
      simp only [List.length_cons]
      push_cast
      omega

theorem LuaObjRef.getAs_int_kept (self : LuaObjRef) (s : lua_State) :
    StackKept s (self.getAs_int s) := by
  intro a s' h
  unfold LuaObjRef.getAs_int at h
  split at h
  · simp only [Except.pure_eq_ok_iff, Prod.mk.injEq] at h
    rw [← h.2]
  · simp only [Except.bind_eq_ok_iff, Except.pure_eq_ok_iff, Prod.mk.injEq] at h
    obtain ⟨sc, hsc, s1, h1, v, -, s2, h2, -, rfl⟩ := h
    have a1 := (AboveN.zero s.stack).of_push (LuaRegRef.regRef_pushObj_stack h1)
    obtain ⟨s3, h3, h4⟩ := LuaStackCleaner.cleaner_dtor_restores (LuaStackCleaner.ctor_ok hsc) a1
    rw [h3] at h2
    cases h2
    exact h4

theorem LuaObjRef.getAs_bool_kept (self : LuaObjRef) (s : lua_State) :
    StackKept s (self.getAs_bool s) := by
  intro a s' h
  unfold LuaObjRef.getAs_bool at h
  split at h
  · simp only [Except.pure_eq_ok_iff, Prod.mk.injEq] at h
    rw [← h.2]
  · simp only [Except.bind_eq_ok_iff, Except.pure_eq_ok_iff, Prod.mk.injEq] at h
    obtain ⟨sc, hsc, s1, h1, v, -, s2, h2, -, rfl⟩ := h
    have a1 := (AboveN.zero s.stack).of_push (LuaRegRef.regRef_pushObj_stack h1)
    obtain ⟨s3, h3, h4⟩ := LuaStackCleaner.cleaner_dtor_restores (LuaStackCleaner.ctor_ok hsc) a1
    rw [h3] at h2
    cases h2
    exact h4

theorem LuaObjRef.getAs_string_kept (self : LuaObjRef) (s : lua_State) :
    StackKept s (self.getAs_string s) := by
  intro a s' h
  unfold LuaObjRef.getAs_string at h
  split at h
  · simp only [Except.pure_eq_ok_iff, Prod.mk.injEq] at h
    rw [← h.2]
  · simp only [Except.bind_eq_ok_iff, Except.pure_eq_ok_iff, Prod.mk.injEq] at h
    obtain ⟨sc, hsc, s1, h1, ⟨v, s2⟩, h2, s3, h3, -, rfl⟩ := h
    have a1 := (AboveN.zero s.stack).of_push (LuaRegRef.regRef_pushObj_stack h1)
    have a2 := getObjFromStack_string_top_above h2 a1
    obtain ⟨s4, h4, h5⟩ := LuaStackCleaner.cleaner_dtor_restores (LuaStackCleaner.ctor_ok hsc) a2
    simp only at h3
    rw [h4] at h3
    cases h3
    exact h5

theorem LuaObjRef.getErrMsg_kept (self : LuaObjRef) (s : lua_State) :
    StackKept s (self.getErrMsg s) := by
  intro a s' h
  unfold LuaObjRef.getErrMsg at h
  split at h
  · simp only [Except.pure_eq_ok_iff, Prod.mk.injEq] at h
    rw [← h.2]
  · split at h
    · simp only [Except.pure_eq_ok_iff, Prod.mk.injEq] at h
      rw [← h.2]
    · simp only [Except.bind_eq_ok_iff, Except.pure_eq_ok_iff, Prod.mk.injEq] at h
      obtain ⟨sc, hsc, s1, h1, ⟨v, s2⟩, h2, s3, h3, -, rfl⟩ := h
      have a1 := (AboveN.zero s.stack).of_push (LuaRegRef.regRef_pushObj_stack h1)
      have a2 := getObjFromStack_string_top_above h2 a1
      obtain ⟨s4, h4, h5⟩ := LuaStackCleaner.cleaner_dtor_restores (LuaStackCleaner.ctor_ok hsc) a2
      simp only at h3
      rw [h4] at h3
      cases h3
      exact h5

theorem LuaObjRef.getTypeID_kept (self : LuaObjRef) (s : lua_State) :
    StackKept s (self.getTypeID s) := by
  intro a s' h
  unfold LuaObjRef.getTypeID at h
  split at h
  · simp only [Except.pure_eq_ok_iff, Prod.mk.injEq] at h
    rw [← h.2]
  · simp only [LuaRegRef.getTypeID, Except.bind_eq_ok_iff] at h
    obtain ⟨_, -, h⟩ := h
    split at h
    · simp only [Except.pure_eq_ok_iff, Prod.mk.injEq] at h
      rw [← h.2]
    · simp only [Except.bind_eq_ok_iff, Except.pure_eq_ok_iff, Prod.mk.injEq] at h
      obtain ⟨s1, h1, t, -, s2, h2, -, rfl⟩ := h
      obtain ⟨v, hv⟩ := LuaRegRef.regRef_pushObj_stack h1
      rw [lua_pop_one_stack h2, hv, List.dropLast_concat]

theorem LuaObjRef.hasMetaTable_kept (self : LuaObjRef) (s : lua_State) :
    StackKept s (self.hasMetaTable s) := by
  intro a s' h
  simp only [LuaObjRef.hasMetaTable, Except.bind_eq_ok_iff, Except.pure_eq_ok_iff,
    Prod.mk.injEq] at h
  obtain ⟨_, -, sc, hsc, s1, h1, ⟨has, s2⟩, h2, s3, h3, -, rfl⟩ := h
  have a1 := (AboveN.zero s.stack).of_push (LuaObjRef.objRef_pushObj_stack h1)
  simp only at h3
  rcases lua_getmetatable_stack h2 with ⟨-, rfl⟩ | ⟨-, hv⟩
  · obtain ⟨s4, h4, h5⟩ := LuaStackCleaner.cleaner_dtor_restores (LuaStackCleaner.ctor_ok hsc) a1
    rw [h4] at h3
    cases h3
    exact h5
  · obtain ⟨s4, h4, h5⟩ :=
      LuaStackCleaner.cleaner_dtor_restores (LuaStackCleaner.ctor_ok hsc) (a1.of_push hv)
    rw [h4] at h3
    cases h3
    exact h5

theorem LuaStackCleaner.dtor_kept {L : Bool} {s0 s s' : lua_State} {sc : LuaStackCleaner}
    {n : Nat} (hsc : LuaStackCleaner.ctor L s0 = .ok sc) (ha : AboveN s0.stack n s.stack)
    (h : sc.dtor s = .ok s') : s'.stack = s0.stack := by
  obtain ⟨s4, h4, h5⟩ := LuaStackCleaner.cleaner_dtor_restores (LuaStackCleaner.ctor_ok hsc) ha
  rw [h4] at h
  cases h
  exact h5

theorem LuaObjRef.setMetaProtected_kept (rt : Runtime) (self : LuaObjRef) (val : Bool)
    (s : lua_State) : StackKept s (self.setMetaProtected rt val s) := by
  intro a s' h
  simp only [LuaObjRef.setMetaProtected, Except.bind_eq_ok_iff] at h
  obtain ⟨_, -, sc, hsc, s1, h1, _, -, ⟨has, s2⟩, h2, h⟩ := h
  have a1 := (AboveN.zero s.stack).of_push (LuaObjRef.objRef_pushObj_stack h1)
  simp only at h
  split at h
  · simp only [Except.bind_eq_ok_iff, Except.pure_eq_ok_iff, Prod.mk.injEq] at h
    obtain ⟨_, -, s3, h3, -, rfl⟩ := h
    rcases lua_getmetatable_stack h2 with ⟨-, rfl⟩ | ⟨-, hv⟩
    · exact LuaStackCleaner.dtor_kept hsc a1 h3
    · exact LuaStackCleaner.dtor_kept hsc (a1.of_push hv) h3
  · rename_i hhas
    simp only [Except.bind_eq_ok_iff, Except.pure_eq_ok_iff, Prod.mk.injEq] at h
    obtain ⟨s4, h4, _, -, s5, h5, -, rfl⟩ := h
    rcases lua_getmetatable_stack h2 with ⟨h0, -⟩ | ⟨-, hv⟩
    · exact absurd (by simp [h0]) hhas
    · have a2 := a1.of_push hv
      have a3 : AboveN s.stack 3
          (if val = true then lua_pushstring s2 "protected!" else lua_pushnil s2).stack := by
        split
        · exact a2.of_push ⟨_, rfl⟩
        · exact a2.of_push ⟨_, rfl⟩
      have a4 := a3.of_pop (lua_setfield_stack h4)
      exact LuaStackCleaner.dtor_kept hsc a4 h5

theorem LuaObjRef.setMetaTable_kept (self metatable : LuaObjRef) (s : lua_State) :
    StackKept s (self.setMetaTable metatable s) := by
  intro a s' h
  simp only [LuaObjRef.setMetaTable, Except.bind_eq_ok_iff, Except.pure_eq_ok_iff,
    Prod.mk.injEq] at h
  obtain ⟨_, -, sc, hsc, s1, h1, s2, h2, ⟨r, s3⟩, h3, _, -, s4, h4, -, rfl⟩ := h
  have a1 := (AboveN.zero s.stack).of_push (LuaObjRef.objRef_pushObj_stack h1)
  have a2 := a1.of_push (LuaObjRef.objRef_pushObj_stack h2)
  have a3 := a2.of_pop (lua_setmetatable_stack h3)
  exact LuaStackCleaner.dtor_kept hsc a3 h4

theorem LuaObjRef.setMetaMethod_kept (rt : Runtime) (self : LuaObjRef) (id : MetaMethod)
    (func : LuaObjRef) (s : lua_State) : StackKept s (self.setMetaMethod rt id func s) := by
  intro a s' h
  simp only [LuaObjRef.setMetaMethod, Except.bind_eq_ok_iff, Except.pure_eq_ok_iff,
    Prod.mk.injEq] at h
  obtain ⟨_, -, sc, hsc, s1, h1, ⟨has, s2⟩, h2, s4, h4, s5, h5, _, -, s6, h6, -, rfl⟩ := h
  have a1 := (AboveN.zero s.stack).of_push (LuaObjRef.objRef_pushObj_stack h1)
  simp only at h4
  have a3 : AboveN s.stack 2 (if (has == 0) = true then lua_newtable s2 else s2).stack := by
    rcases lua_getmetatable_stack h2 with ⟨h0, rfl⟩ | ⟨hne, hv⟩
    · simp only [h0, beq_self_eq_true, if_true]
      exact a1.of_push ⟨_, rfl⟩
    · have : (has == 0) = false := by simpa using hne
      simp only [this, Bool.false_eq_true, if_false]
      exact a1.of_push hv
  have a4 := a3.of_push (LuaObjRef.objRef_pushObj_stack h4)
  have a5 := a4.of_pop (lua_setfield_stack h5)
  exact LuaStackCleaner.dtor_kept hsc a5 h6

theorem LuaObjRef.setMetaBase_kept (rt : Runtime) (self baseTable : LuaObjRef)
    (s : lua_State) : StackKept s (self.setMetaBase rt baseTable s) := by
  intro a s' h
  simp only [LuaObjRef.setMetaBase, Except.bind_eq_ok_iff, Except.pure_eq_ok_iff,
    Prod.mk.injEq] at h
  obtain ⟨_, -, sc, hsc, s1, h1, ⟨has, s2⟩, h2, s3, h3, s4, h4, s5, h5, _, -, s6, h6,
    -, rfl⟩ := h
  have a1 := (AboveN.zero s.stack).of_push (LuaObjRef.objRef_pushObj_stack h1)
  simp only at h3
  have a3 : AboveN s.stack 2 s3.stack := by
    split at h3
    · rename_i hhas
      simp only [Except.bind_eq_ok_iff, Except.pure_eq_ok_iff] at h3
      obtain ⟨_, -, s2b, hb, ⟨r, s2c⟩, hc, rfl⟩ := h3
      rcases lua_getmetatable_stack h2 with ⟨-, e⟩ | ⟨hne, -⟩
      · have a1' : AboveN s.stack 1 s2.stack := by
          rw [e]
          exact a1
        have b1 : AboveN s.stack 2 (lua_newtable s2).stack := a1'.of_push ⟨_, rfl⟩
        have b2 := b1.of_push (lua_pushvalue_stack hb)
        exact b2.of_pop (lua_setmetatable_stack hc)
      · exact absurd (by simpa using hhas) hne
    · rename_i hhas
      simp only [Except.pure_eq_ok_iff] at h3
      subst h3
      rcases lua_getmetatable_stack h2 with ⟨h0, -⟩ | ⟨-, hv⟩
      · exact absurd (by simp [h0]) hhas
      · exact a1.of_push hv
  have a4 := a3.of_push (LuaObjRef.objRef_pushObj_stack h4)
  have a5 := a4.of_pop (lua_setfield_stack h5)
  exact LuaStackCleaner.dtor_kept hsc a5 h6

theorem LuaTableRef.hasField_kept (rt : Runtime) (self : LuaObjRef) (key : HostKey)
    (s : lua_State) : StackKept s (LuaTableRef.hasField rt self key s) := by
  intro a s' h
  simp only [LuaTableRef.hasField, Except.bind_eq_ok_iff, Except.pure_eq_ok_iff,
    Prod.mk.injEq] at h
  obtain ⟨sc, hsc, s1, h1, s2, h2, _, -, _, -, s3, h3, -, rfl⟩ := h
  have a1 := (AboveN.zero s.stack).of_push (LuaObjRef.objRef_pushObj_stack h1)
  have a2 := a1.of_push (LuaTableRef.pushFieldValue_stack h2)
  exact LuaStackCleaner.dtor_kept hsc a2 h3

theorem LuaTableRef.setField_kept (rt : Runtime) (self : LuaObjRef) (key : HostKey)
    (obj : HostValue) (s : lua_State) :
    StackKept s (LuaTableRef.setField rt self key obj s) := by
  intro a s' h
  unfold LuaTableRef.setField at h
  split at h
  · simp only [Except.bind_eq_ok_iff, Except.pure_eq_ok_iff, Prod.mk.injEq] at h
    obtain ⟨sc, hsc, s1, h1, s2, h2, s3, h3, _, -, s4, h4, -, rfl⟩ := h
    have a1 := (AboveN.zero s.stack).of_push (LuaObjRef.objRef_pushObj_stack h1)
    have a2 := a1.of_push (pushValToStack_stack h2)
    have a3 := a2.of_pop (lua_setfield_stack h3)
    exact LuaStackCleaner.dtor_kept hsc a3 h4
  · simp only [Except.bind_eq_ok_iff, Except.pure_eq_ok_iff, Prod.mk.injEq] at h
    obtain ⟨sc, hsc, s1, h1, s2, h2, s3, h3, s4, h4, _, -, s5, h5, -, rfl⟩ := h
    have a1 := (AboveN.zero s.stack).of_push (LuaObjRef.objRef_pushObj_stack h1)
    have a2 := a1.of_push (pushValToStack_key_stack h2)
    have a3 := a2.of_push (pushValToStack_stack h3)
    have a4 : AboveN s.stack 1 s4.stack := by
      rw [lua_settable_stack h4]
      exact (a3.pop).pop
    exact LuaStackCleaner.dtor_kept hsc a4 h5

theorem LuaTableRef.delField_kept (rt : Runtime) (self : LuaObjRef) (key : HostKey)
    (s : lua_State) : StackKept s (LuaTableRef.delField rt self key s) := by
  intro a s' h
  unfold LuaTableRef.delField at h
  split at h
  · simp only [Except.bind_eq_ok_iff, Except.pure_eq_ok_iff, Prod.mk.injEq] at h
    obtain ⟨sc, hsc, s1, h1, _, -, s3, h3, _, -, s4, h4, -, rfl⟩ := h
    have a1 := (AboveN.zero s.stack).of_push (LuaObjRef.objRef_pushObj_stack h1)
    have a2 : AboveN s.stack 2 (lua_pushnil s1).stack := a1.of_push ⟨_, rfl⟩
    have a3 := a2.of_pop (lua_setfield_stack h3)
    exact LuaStackCleaner.dtor_kept hsc a3 h4
  · simp only [Except.bind_eq_ok_iff, Except.pure_eq_ok_iff, Prod.mk.injEq] at h
    obtain ⟨sc, hsc, s1, h1, s2, h2, _, -, s4, h4, _, -, s5, h5, -, rfl⟩ := h
    have a1 := (AboveN.zero s.stack).of_push (LuaObjRef.objRef_pushObj_stack h1)
    have a2 := a1.of_push (pushValToStack_key_stack h2)
    have a3 : AboveN s.stack 3 (lua_pushnil s2).stack := a2.of_push ⟨_, rfl⟩
    have a4 : AboveN s.stack 1 s4.stack := by
      rw [lua_settable_stack h4]
      exact (a3.pop).pop
    exact LuaStackCleaner.dtor_kept hsc a4 h5

theorem LuaFuncRef.setEnv_kept (self envTable : LuaObjRef) (s : lua_State) :
    StackKept s (LuaFuncRef.setEnv self envTable s) := by
  intro a s' h
  simp only [LuaFuncRef.setEnv, Except.bind_eq_ok_iff, Except.pure_eq_ok_iff,
    Prod.mk.injEq] at h
  obtain ⟨sc, hsc, s1, h1, s2, h2, ⟨r, s3⟩, h3, _, -, s4, h4, -, rfl⟩ := h
  have a1 := (AboveN.zero s.stack).of_push (LuaObjRef.objRef_pushObj_stack h1)
  have a2 := a1.of_push (LuaObjRef.objRef_pushObj_stack h2)
  have a3 := a2.of_pop (lua_setfenv_stack h3)
  exact LuaStackCleaner.dtor_kept hsc a3 h4

theorem StackKeptAfterDtor.of_ctor {s s3 : lua_State} {n : Nat} {lua : Bool} {e : Int}
    {p : String} (ha : AboveN s.stack n s3.stack) :
    StackKeptAfterDtor s (LuaTempResult.ctor lua (lua_gettop s) e p s3) := by
  intro res s4 h
  obtain ⟨c1, c2, c3⟩ := LuaTempResult.ctor_above h ha
  exact LuaTempResult.result_dtor_restores c2 c3 c1

theorem LuaTableRef.getField_kept (rt : Runtime) (self : LuaObjRef) (key : HostKey)
    (s : lua_State) : StackKeptAfterDtor s (LuaTableRef.getField rt self key s) := by
  intro res s4 h
  simp only [LuaTableRef.getField, Except.bind_eq_ok_iff] at h
  obtain ⟨_, -, s1, h1, s2, h2, s3, h3, h⟩ := h
  have a1 := (AboveN.zero s.stack).of_push (LuaObjRef.objRef_pushObj_stack h1)
  have a2 := a1.of_push (LuaTableRef.pushFieldValue_stack h2)
  have a3 := lua_remove_above h3 a2
  exact StackKeptAfterDtor.of_ctor a3 res s4 h

theorem LuaObjRef.getMetaTable_kept (self : LuaObjRef) (s : lua_State) :
    StackKeptAfterDtor s (self.getMetaTable s) := by
  intro res s4 h
  simp only [LuaObjRef.getMetaTable, Except.bind_eq_ok_iff] at h
  obtain ⟨_, -, s1, h1, ⟨has, s2⟩, h2, s3, h3, _, -, h⟩ := h
  have a1 := (AboveN.zero s.stack).of_push (LuaObjRef.objRef_pushObj_stack h1)
  simp only at h3
  have a3 : AboveN s.stack 1 s3.stack := by
    split at h3
    · rename_i hhas
      rcases lua_getmetatable_stack h2 with ⟨h0, -⟩ | ⟨-, hv⟩
      · exact absurd h0 (by simpa using hhas)
      · exact lua_remove_above h3 (a1.of_push hv)
    · rename_i hhas
      simp only [Except.bind_eq_ok_iff, Except.pure_eq_ok_iff] at h3
      obtain ⟨s2a, ha, rfl⟩ := h3
      rcases lua_getmetatable_stack h2 with ⟨-, e⟩ | ⟨hne, -⟩
      · have a1' : AboveN s.stack 1 s2.stack := by
          rw [e]
          exact a1
        have a2 := a1'.of_pop (lua_pop_one_stack ha)
        exact a2.of_push ⟨_, rfl⟩
      · exact absurd (by simpa using hne) hhas
  exact StackKeptAfterDtor.of_ctor a3 res s4 h

theorem LuaFuncRef.getEnv_kept (self : LuaObjRef) (s : lua_State) :
    StackKeptAfterDtor s (LuaFuncRef.getEnv self s) := by
  intro res s4 h
  simp only [LuaFuncRef.getEnv, Except.bind_eq_ok_iff] at h
  obtain ⟨_, -, s1, h1, _, -, s2, h2, h⟩ := h
  have a1 := (AboveN.zero s.stack).of_push (LuaObjRef.objRef_pushObj_stack h1)
  have a2 := a1.of_push (lua_getfenv_stack h2)
  exact StackKeptAfterDtor.of_ctor a2 res s4 h

theorem LuaFuncCallParams.doCall_kept {rt : Runtime} {p : LuaFuncCallParams}
    {s0 s : lua_State} {m : Nat} (hpre : p.preStackTop = lua_gettop s0)
    (ha : AboveN s0.stack m s.stack) (hm : p.argsOnStack + 1 = (m : Int)) :
    StackKeptAfterDtor s0 (p.doCall rt s) := by
  intro res s4 h
  simp only [LuaFuncCallParams.doCall, Except.bind_eq_ok_iff] at h
  obtain ⟨_, -, ⟨code, s1⟩, h1, h⟩ := h
  obtain ⟨k, ak⟩ := lua_pcall_above h1 ha hm
  simp only at h
  rw [hpre] at h
  exact StackKeptAfterDtor.of_ctor ak res s4 h

theorem LuaFuncRef.call_kept (rt : Runtime) (self : LuaObjRef) (args : List CallArg)
    (s : lua_State) (hlive : self.mLua = true) :
    StackKeptAfterDtor s (LuaFuncRef.call rt self args s) := by
  intro res s4 h
  simp only [LuaFuncRef.call, Except.bind_eq_ok_iff] at h
  obtain ⟨⟨p, s1⟩, h1, ⟨p1, s2⟩, h2, h⟩ := h
  simp only [LuaFuncRef.prepCall, hlive, if_true, Except.bind_eq_ok_iff,
    Except.pure_eq_ok_iff, Prod.mk.injEq] at h1
  obtain ⟨s1', hpush, hp, rfl⟩ := h1
  have a1 := (AboveN.zero s.stack).of_push (LuaObjRef.objRef_pushObj_stack hpush)
  obtain ⟨a2, n2, t2, -⟩ := LuaFuncCallParams.appendAll_spec args p p1 s1' s2 1 h2 a1
  have hpre : p1.preStackTop = lua_gettop s := by
    rw [t2, ← hp]
    rfl
  have hm : p1.argsOnStack + 1 = ((1 + args.length : Nat) : Int) := by
    rw [n2, ← hp]
    simp only [LuaFuncCallParams.ctor]
    push_cast
    omega
  exact LuaFuncCallParams.doCall_kept hpre a2 hm res s4 h

theorem LuaClassObjRef.callMethod_kept (rt : Runtime) (self : LuaObjRef) (methName : String)
    (args : List CallArg) (s : lua_State) (hlive : self.mLua = true) :
    StackKeptAfterDtor s (LuaClassObjRef.callMethod rt self methName args s) := by
  intro res s4 h
  simp only [LuaClassObjRef.callMethod, Except.bind_eq_ok_iff] at h
  obtain ⟨⟨p, s1⟩, h1, ⟨p1, s2⟩, h2, h⟩ := h
  simp only [LuaClassObjRef.prepCall, hlive, if_true, Except.bind_eq_ok_iff,
    Except.pure_eq_ok_iff, Prod.mk.injEq] at h1
  obtain ⟨sa, hpush, _, -, sb, hget, sc, hins, _, -, hp, rfl⟩ := h1
  have a1 := (AboveN.zero s.stack).of_push (LuaObjRef.objRef_pushObj_stack hpush)
  have a2 := a1.of_push (lua_getfield_stack hget)
  have a3 := lua_insert_above hins a2
  obtain ⟨a4, n4, t4, -⟩ := LuaFuncCallParams.appendAll_spec args p p1 sc s2 2 h2 a3
  have hpre : p1.preStackTop = lua_gettop s := by
    rw [t4, ← hp]
    rfl
  have hm : p1.argsOnStack + 1 = ((2 + args.length : Nat) : Int) := by
    rw [n4, ← hp]
    simp only [LuaFuncCallParams.ctor]
    push_cast
    omega
  exact LuaFuncCallParams.doCall_kept hpre a4 hm res s4 h

theorem index2adr_neg1 (st : List LuaValue) (v : LuaValue) (rg : Registry) (hp : Heap) :
    index2adr ⟨st ++ [v], rg, hp⟩ (-1) = some (some v) := by
  have h1 : ¬ ((-1 : Int) > 0) := by omega
  have hlen : ((st ++ [v]).length : Int) = (st.length : Int) + 1 := by
    simp
  have h2 : (-1 : Int) < 0 ∧ -(-1 : Int) ≤ ((st ++ [v]).length : Int) := by
    rw [hlen]
    omega
  simp only [index2adr, h1, h2, if_false, if_true]
  simp

theorem lua_settop_restore (st x : List LuaValue) (rg : Registry) (hp : Heap) :
    lua_settop ⟨st ++ x, rg, hp⟩ (st.length : Int) = .ok ⟨st, rg, hp⟩ := by
  simp [lua_settop]

theorem LuaObjRef.getAs_int_returns (self : LuaObjRef) (s : lua_State)
    (h1 : self.mLua = true) (h2 : self.mRegKey.mLua = true) :
    ∃ v, self.getAs_int s = .ok (v, s) := by
  obtain ⟨st, rg, hp⟩ := s
  unfold LuaObjRef.getAs_int
  split
  · exact ⟨0, rfl⟩
  · have hv : ∃ n, lua_tointeger ⟨st ++ [rg.lookup self.mRegKey.mRegKey], rg, hp⟩ (-1) =
        .ok n := by
      unfold lua_tointeger
      rw [index2adr_neg1]
      cases rg.lookup self.mRegKey.mRegKey <;> exact ⟨_, rfl⟩
    obtain ⟨n, hn⟩ := hv
    refine ⟨toInt32 n, ?_⟩
    simp [LuaStackCleaner.ctor, LuaRegRef.pushObj, lua_rawgeti, pushValue,
      getObjFromStack_int, LuaStackCleaner.dtor, cassert, h1, h2, hn, lua_gettop,
      LUA_UNACCEPTABLE_STACK_POS, bind, Except.bind, pure, Except.pure, lua_settop_restore]

theorem LuaObjRef.getAs_string_returns (self : LuaObjRef) (s : lua_State)
    (h1 : self.mLua = true) (h2 : self.mRegKey.mLua = true) :
    ∃ v, self.getAs_string s = .ok (v, s) := by
  obtain ⟨st, rg, hp⟩ := s
  unfold LuaObjRef.getAs_string
  split
  · exact ⟨"", rfl⟩
  · have hv : ∃ r w, lua_tostring ⟨st ++ [rg.lookup self.mRegKey.mRegKey], rg, hp⟩ (-1) =
        .ok (r, ⟨st ++ [w], rg, hp⟩) := by
      unfold lua_tostring
      rw [index2adr_neg1]
      cases rg.lookup self.mRegKey.mRegKey with
      | number n =>
        refine ⟨some (toString n), LuaValue.string (toString n), ?_⟩
        simp [stackSlot_neg1, bind, Except.bind, pure, Except.pure,
          List.set_length_append_one]
      | _ => exact ⟨_, _, rfl⟩
    obtain ⟨r, w, hn⟩ := hv
    refine ⟨r.getD "", ?_⟩
    simp [LuaStackCleaner.ctor, LuaRegRef.pushObj, lua_rawgeti, pushValue,
      getObjFromStack_string, LuaStackCleaner.dtor, cassert, h1, h2, hn, lua_gettop,
      LUA_UNACCEPTABLE_STACK_POS, bind, Except.bind, pure, Except.pure, lua_settop_restore]

theorem lua_pop_one_top (st : List LuaValue) (v : LuaValue) (rg : Registry) (hp : Heap) :
    lua_pop ⟨st ++ [v], rg, hp⟩ 1 = .ok ⟨st, rg, hp⟩ := by
  have h1 : ¬ ((-1 : Int) - 1 ≥ 0) := by omega
  have hlen : ((st ++ [v]).length : Int) = (st.length : Int) + 1 := by
    simp
  have h2 : -((-1 : Int) - 1) ≤ ((st ++ [v]).length : Int) + 1 := by
    rw [hlen]
    omega
  simp only [lua_pop, lua_settop, h1, h2, if_false, if_true]
  simp

theorem LuaObjRef.pushObj_returns (self : LuaObjRef) (st : List LuaValue) (rg : Registry)
    (hp : Heap) (h1 : self.mLua = true) (h2 : self.mRegKey.mLua = true) :
    ∃ v, self.pushObj ⟨st, rg, hp⟩ = .ok ⟨st ++ [v], rg, hp⟩ := by
  unfold LuaObjRef.pushObj
  split
  · exact ⟨LuaValue.nil, by simp [deref, cassert, h1, lua_checkstack, lua_pushnil, pushValue,
      bind, Except.bind, pure, Except.pure]⟩
  · exact ⟨rg.lookup self.mRegKey.mRegKey, by simp [LuaRegRef.pushObj, cassert, h2,
      lua_rawgeti, pushValue, bind, Except.bind]⟩

theorem LuaObjRef.getTypeID_returns (self : LuaObjRef) (s : lua_State)
    (_h1 : self.mLua = true) (h2 : self.mRegKey.mLua = true) :
    ∃ t, self.getTypeID s = .ok (t, s) := by
  obtain ⟨st, rg, hp⟩ := s
  unfold LuaObjRef.getTypeID
  split
  · exact ⟨_, rfl⟩
  · unfold LuaRegRef.getTypeID
    by_cases hnil : self.mRegKey.isNil = true
    · exact ⟨LUA_TNIL, by simp [cassert, h2, hnil, bind, Except.bind, pure, Except.pure]⟩
    · refine ⟨(rg.lookup self.mRegKey.mRegKey).typeTag, ?_⟩
      simp [cassert, h2, hnil, LuaRegRef.pushObj, lua_rawgeti, pushValue, lua_type,
        index2adr_neg1, lua_pop_one_top, bind, Except.bind, pure, Except.pure]

theorem LuaObjRef.getErrMsg_returns (self : LuaObjRef) (s : lua_State)
    (h1 : self.mLua = true) (h2 : self.mRegKey.mLua = true) :
    ∃ v, self.getErrMsg s = .ok (v, s) := by
  obtain ⟨st, rg, hp⟩ := s
  unfold LuaObjRef.getErrMsg
  split
  · exact ⟨"", rfl⟩
  · split
    · exact ⟨_, rfl⟩
    · have hv : ∃ r w, lua_tostring ⟨st ++ [rg.lookup self.mRegKey.mRegKey], rg, hp⟩ (-1) =
          .ok (r, ⟨st ++ [w], rg, hp⟩) := by
        unfold lua_tostring
        rw [index2adr_neg1]
        cases rg.lookup self.mRegKey.mRegKey with
        | number n =>
          refine ⟨some (toString n), LuaValue.string (toString n), ?_⟩
          simp [stackSlot_neg1, bind, Except.bind, pure, Except.pure,
            List.set_length_append_one]
        | _ => exact ⟨_, _, rfl⟩
      obtain ⟨r, w, hn⟩ := hv
      refine ⟨r.getD "", ?_⟩
      simp [LuaStackCleaner.ctor, LuaRegRef.pushObj, lua_rawgeti, pushValue,
        getObjFromStack_string, LuaStackCleaner.dtor, cassert, h1, h2, hn, lua_gettop,
        LUA_UNACCEPTABLE_STACK_POS, bind, Except.bind, pure, Except.pure,
        lua_settop_restore]

theorem LuaObjRef.hasMetaTable_returns (self : LuaObjRef) (s : lua_State)
    (h1 : self.mLua = true) (h2 : self.mRegKey.mLua = true) :
    ∃ b, self.hasMetaTable s = .ok (b, s) := by
  obtain ⟨st, rg, hp⟩ := s
  obtain ⟨v, hv⟩ := LuaObjRef.pushObj_returns self st rg hp h1 h2
  have hval : stackValue ⟨st ++ [v], rg, hp⟩ (-1) = .ok v := by
    simp [stackValue, index2adr_neg1]
  cases hm : hp.metatableOf v with
  | none =>
    refine ⟨false, ?_⟩
    simp [LuaObjRef.hasMetaTable, LuaStackCleaner.ctor, cassert, h1, hv, lua_getmetatable,
      hval, hm, LuaStackCleaner.dtor, lua_gettop, bind, Except.bind, pure, Except.pure,
      lua_settop_restore]
  | some m =>
    refine ⟨true, ?_⟩
    have e : st ++ [v] ++ [LuaValue.table m] = st ++ [v, LuaValue.table m] := by simp
    simp [LuaObjRef.hasMetaTable, LuaStackCleaner.ctor, cassert, h1, hv, lua_getmetatable,
      hval, hm, LuaStackCleaner.dtor, lua_gettop, bind, Except.bind, pure, Except.pure,
      pushValue, lua_settop_restore]

theorem LuaObjRef.getMetaTable_returns (self : LuaObjRef) (s : lua_State)
    (h1 : self.mLua = true) (h2 : self.mRegKey.mLua = true) :
    ∃ res s1, self.getMetaTable s = .ok (res, s1) := by
  obtain ⟨st, rg, hp⟩ := s
  obtain ⟨v, hv⟩ := LuaObjRef.pushObj_returns self st rg hp h1 h2
  have hval : stackValue ⟨st ++ [v], rg, hp⟩ (-1) = .ok v := by
    simp [stackValue, index2adr_neg1]
  cases hm : hp.metatableOf v with
  | none =>
    refine ⟨⟨true, 0, st.length, 1⟩, ⟨st ++ [LuaValue.nil], rg, hp⟩, ?_⟩
    simp [LuaObjRef.getMetaTable, cassert, h1, hv, lua_getmetatable, hval, hm,
      lua_pop_one_top, lua_pushnil, pushValue, lua_gettop, LuaTempResult.ctor,
      LUA_ERR_NONE, bind, Except.bind, pure, Except.pure]
  | some m =>
    refine ⟨⟨true, 0, st.length, 1⟩, ⟨st ++ [LuaValue.table m], rg, hp⟩, ?_⟩
    have hrem : lua_remove ⟨st ++ [v, LuaValue.table m], rg, hp⟩ (-2) =
        .ok ⟨st ++ [LuaValue.table m], rg, hp⟩ := by
      simp [lua_remove, stackSlot_neg2, List.eraseIdx_length_append_two, bind, Except.bind,
        pure, Except.pure]
    simp [LuaObjRef.getMetaTable, cassert, h1, hv, lua_getmetatable, hval, hm,
      pushValue, hrem, lua_gettop, LuaTempResult.ctor,
      LUA_ERR_NONE, bind, Except.bind, pure, Except.pure]

/-- C1: stack balance. For every handle with a live connection, every prior
stack (and registry and heap) and every behaviour of the runtime: each public
operation that hands back no pending result (`getAs`, `getTypeID`,
`getErrMsg`, `hasMetaTable`, `setMetaTable`, `setMetaBase`, `setMetaMethod`,
`setMetaProtected`, table `hasField`, `setField`, `delField`, function
`setEnv`) leaves, on every path on which it returns, a stack equal to the one
before the call, depth and slots; each operation that returns a pending
result (`getField`, `getMetaTable`, `getEnv`, `call`, `callMethod`) leaves a
state in which destroying that result succeeds and gives back the stack of
before the call, for successful and failed calls alike. The plain reads and
`getMetaTable` do return whenever the registry half of the handle is
connected too. -/
theorem LuaObjRef.stack_balance (rt : Runtime) (self : LuaObjRef) (s : lua_State)
    (hlive : self.mLua = true) :
    (StackKept s (self.getAs_int s) ∧ StackKept s (self.getAs_bool s) ∧
      StackKept s (self.getAs_string s) ∧ StackKept s (self.getTypeID s) ∧
      StackKept s (self.getErrMsg s) ∧ StackKept s (self.hasMetaTable s)) ∧
    ((∀ metatable, StackKept s (self.setMetaTable metatable s)) ∧
      (∀ baseTable, StackKept s (self.setMetaBase rt baseTable s)) ∧
      (∀ id func, StackKept s (self.setMetaMethod rt id func s)) ∧
      (∀ val, StackKept s (self.setMetaProtected rt val s))) ∧
    ((∀ key, StackKept s (LuaTableRef.hasField rt self key s)) ∧
      (∀ key obj, StackKept s (LuaTableRef.setField rt self key obj s)) ∧
      (∀ key, StackKept s (LuaTableRef.delField rt self key s)) ∧
      (∀ envTable, StackKept s (LuaFuncRef.setEnv self envTable s))) ∧
    ((∀ key, StackKeptAfterDtor s (LuaTableRef.getField rt self key s)) ∧
      StackKeptAfterDtor s (self.getMetaTable s) ∧
      StackKeptAfterDtor s (LuaFuncRef.getEnv self s) ∧
      (∀ args, StackKeptAfterDtor s (LuaFuncRef.call rt self args s)) ∧
      (∀ methName args,
        StackKeptAfterDtor s (LuaClassObjRef.callMethod rt self methName args s))) ∧
    (self.mRegKey.mLua = true →
      (∃ v, self.getAs_int s = .ok (v, s)) ∧ (∃ v, self.getAs_string s = .ok (v, s)) ∧
      (∃ t, self.getTypeID s = .ok (t, s)) ∧ (∃ m, self.getErrMsg s = .ok (m, s)) ∧
      (∃ b, self.hasMetaTable s = .ok (b, s)) ∧
      (∃ res s1, self.getMetaTable s = .ok (res, s1))) :=
  ⟨⟨LuaObjRef.getAs_int_kept self s, LuaObjRef.getAs_bool_kept self s,
      LuaObjRef.getAs_string_kept self s, LuaObjRef.getTypeID_kept self s,
      LuaObjRef.getErrMsg_kept self s, LuaObjRef.hasMetaTable_kept self s⟩,
    ⟨fun metatable => LuaObjRef.setMetaTable_kept self metatable s,
      fun baseTable => LuaObjRef.setMetaBase_kept rt self baseTable s,
      fun id func => LuaObjRef.setMetaMethod_kept rt self id func s,
      fun val => LuaObjRef.setMetaProtected_kept rt self val s⟩,
    ⟨fun key => LuaTableRef.hasField_kept rt self key s,
      fun key obj => LuaTableRef.setField_kept rt self key obj s,
      fun key => LuaTableRef.delField_kept rt self key s,
      fun envTable => LuaFuncRef.setEnv_kept self envTable s⟩,
    ⟨fun key => LuaTableRef.getField_kept rt self key s,
      LuaObjRef.getMetaTable_kept self s, LuaFuncRef.getEnv_kept self s,
      fun args => LuaFuncRef.call_kept rt self args s hlive,
      fun methName args => LuaClassObjRef.callMethod_kept rt self methName args s hlive⟩,
    fun h2 =>
      ⟨LuaObjRef.getAs_int_returns self s hlive h2,
        LuaObjRef.getAs_string_returns self s hlive h2,
        LuaObjRef.getTypeID_returns self s hlive h2,
        LuaObjRef.getErrMsg_returns self s hlive h2,
        LuaObjRef.hasMetaTable_returns self s hlive h2,
        LuaObjRef.getMetaTable_returns self s hlive h2⟩⟩

/-- Witness for C1: on the example connection (stack `[5]`, a table with
field `k = 42` under registry key 1) `setField("j", 1)` returns with the
stack `[5]`, `getField("k")` returns a pending result over the stack
`[5, 42]` whose destruction gives back the stack `[5]`, and a call of the
handle returns a pending result whose destruction gives back `[5]`. -/
theorem LuaObjRef.stack_balance_witness :
    (∃ s', LuaTableRef.setField idleRuntime exampleHandle (.text "j")
        (.arg (.key (.integer 1))) exampleState = .ok ((), s') ∧
      s'.stack = [.number 5]) ∧
    (∃ s1 s2, LuaTableRef.getField idleRuntime exampleHandle (.text "k") exampleState =
        .ok (⟨true, 0, 1, 1⟩, s1) ∧ s1.stack = [.number 5, .number 42] ∧
      LuaTempResult.dtor ⟨true, 0, 1, 1⟩ s1 = .ok s2 ∧ s2.stack = [.number 5]) ∧
    (∃ s1 s2, LuaFuncRef.call idleRuntime exampleHandle [.key (.integer 1)] exampleState =
        .ok (⟨true, 0, 1, 0⟩, s1) ∧
      LuaTempResult.dtor ⟨true, 0, 1, 0⟩ s1 = .ok s2 ∧ s2.stack = [.number 5]) := by
  have h := LuaObjRef.stack_balance idleRuntime exampleHandle exampleState rfl
  obtain ⟨-, -, ⟨-, hset, -, -⟩, ⟨hget, -, -, hcall, -⟩, -⟩ := h
  have e1 : LuaTableRef.setField idleRuntime exampleHandle (.text "j")
      (.arg (.key (.integer 1))) exampleState =
      .ok ((), ⟨[.number 5], ⟨[(1, .table 1)], [], 1⟩,
        ⟨[(1, ⟨[(.string "j", .number 1), (.string "k", .number 42)], none⟩)],
          [], [], []⟩⟩) := rfl
  have e2 : LuaTableRef.getField idleRuntime exampleHandle (.text "k") exampleState =
      .ok (⟨true, 0, 1, 1⟩, ⟨[.number 5, .number 42], exampleState.registry,
        exampleState.heap⟩) := rfl
  have e3 : LuaFuncRef.call idleRuntime exampleHandle [.key (.integer 1)] exampleState =
      .ok (⟨true, 0, 1, 0⟩, exampleState) := rfl
  refine ⟨⟨_, e1, hset _ _ () _ e1⟩, ?_, ?_⟩
  · obtain ⟨s2, hd, hs⟩ := hget (.text "k") ⟨true, 0, 1, 1⟩ _ e2
    exact ⟨_, s2, e2, rfl, hd, hs⟩
  · obtain ⟨s2, hd, hs⟩ := hcall [.key (.integer 1)] ⟨true, 0, 1, 0⟩ _ e3
    exact ⟨_, s2, e3, hd, hs⟩

/-! ## Pending results: reading and re-pushing items -/

/-- C11 (the code at the failing input): for the pending result built from
the error message "boom", `getAs<std::string>(1)` returns the prefixed error
message, while `item(1).getAs<std::string>()` returns the empty string;
`getAs<int>(1)` and `item(1).getAs<int>()` both return 0. -/
theorem LuaTempResult.getAs_string_error_reads_message :
    LuaTempResult.ctor true 0 LUA_ERR_SYNTAX "Syntax error in"
        (stateWithStack [.string "boom"]) =
        .ok (⟨true, LUA_ERR_SYNTAX, 0, 1⟩,
          stateWithStack [.string "Syntax error in: boom"]) ∧
      LuaTempResult.getAs_string ⟨true, LUA_ERR_SYNTAX, 0, 1⟩ 1
          (stateWithStack [.string "Syntax error in: boom"]) =
        .ok ("Syntax error in: boom", stateWithStack [.string "Syntax error in: boom"]) ∧
      LuaTempResult.getItem ⟨true, LUA_ERR_SYNTAX, 0, 1⟩ 1 =
        .ok ⟨true, 1, LUA_ERR_SYNTAX⟩ ∧
      LuaTempResult.Item.getAs_string ⟨true, 1, LUA_ERR_SYNTAX⟩
          (stateWithStack [.string "Syntax error in: boom"]) =
        .ok ("", stateWithStack [.string "Syntax error in: boom"]) ∧
      LuaTempResult.getAs_int ⟨true, LUA_ERR_SYNTAX, 0, 1⟩ 1
          (stateWithStack [.string "Syntax error in: boom"]) = .ok 0 ∧
      LuaTempResult.Item.getAs_int ⟨true, 1, LUA_ERR_SYNTAX⟩
          (stateWithStack [.string "Syntax error in: boom"]) = .ok 0 := by
  refine ⟨rfl, rfl, rfl, rfl, rfl, rfl⟩

theorem stackValue_eq_ok_iff (s : lua_State) (idx : Int) (v : LuaValue) :
    stackValue s idx = .ok v ↔ index2adr s idx = some (some v) := by
  unfold stackValue
  split
  · rename_i w hw
    rw [hw]
    simp
  · rename_i hne
    constructor
    · intro h
      simp at h
    · intro h
      exact absurd h (hne v)

theorem isStackPosAcceptable_of_value (s : lua_State) (pos : Int) (v : LuaValue)
    (hpos : 0 < pos) (h : index2adr s pos = some (some v)) :
    isStackPosAcceptable s pos = true := by
  obtain ⟨c1, -, c3⟩ := index2adr_valid s pos v h
  have hle : pos ≤ lua_gettop s := by omega
  have habs : |pos| = pos := abs_of_pos hpos
  simp [isStackPosAcceptable, c3, habs, hle]

/-- C12: `push(i)` of a pending result grows the stack by exactly one value
and changes no existing slot (nor the registry or the heap): the new top is
nil when the result is in the error state or `i` is out of range (`i = 0`,
`i > n`, `i < -n`), and it is the value held at position `getStackPos(i)`
when the result is error-free and `i` is in range. -/
theorem LuaTempResult.push_grows_by_one
    (d : Nat) (e : Int) (p : String) (s0 s1 : lua_State) (r : LuaTempResult)
    (hc : LuaTempResult.ctor true d e p s0 = .ok (r, s1)) (s : lua_State) (i : Int) :
    (r.isError = true ∨ i = 0 ∨ i > r.getNumItems ∨ i < -r.getNumItems →
      r.push i s = .ok { s with stack := s.stack ++ [LuaValue.nil] }) ∧
    (r.isError = false →
      (1 ≤ i ∧ i ≤ r.getNumItems) ∨ (-r.getNumItems ≤ i ∧ i ≤ -1) →
      ∀ v, stackValue s (r.getStackPos i) = .ok v →
        r.push i s = .ok { s with stack := s.stack ++ [v] }) := by
  obtain ⟨hr, hn, -⟩ := LuaTempResult.ctor_ok_shape true d e p s0 s1 r hc
  subst hr
  simp only [LuaTempResult.getNumItems, LuaTempResult.isError, LUA_ERR_NONE] at hn ⊢
  constructor
  · intro h
    by_cases he : e = 0
    · have hout : i = 0 ∨ i > lua_gettop s0 - (d : Int) ∨ i < -(lua_gettop s0 - (d : Int)) := by
        rcases h with h | h
        · simp [he] at h
        · exact h
      have a1 : ¬ (i > 0 ∧ i ≤ lua_gettop s0 - (d : Int)) := by omega
      have a2 : ¬ (i < 0 ∧ i ≥ -(lua_gettop s0 - (d : Int))) := by omega
      have hgp : LuaTempResult.getStackPos ⟨true, e, d, lua_gettop s0 - (d : Int)⟩ i = 0 := by
        simp only [LuaTempResult.getStackPos, a1, a2, if_false, LUA_UNACCEPTABLE_STACK_POS]
      have hacc : isStackPosAcceptable s 0 = false := by
        simp [isStackPosAcceptable]
      simp only [LuaTempResult.push, hgp, hacc]
      simp [deref, he, cassert, lua_checkstack, lua_pushnil, pushValue, bind, Except.bind,
        pure, Except.pure]
    · simp [LuaTempResult.push, deref, he, lua_pushnil, pushValue, bind, Except.bind, pure,
        Except.pure]
  · intro he hin v hv
    have he0 : e = 0 := by simpa using he
    have hval := (stackValue_eq_ok_iff _ _ _).mp hv
    have hpos : 0 < LuaTempResult.getStackPos
        ⟨true, e, d, lua_gettop s0 - (d : Int)⟩ i := by
      rcases hin with hin | hin
      · have a1 : i > 0 ∧ i ≤ lua_gettop s0 - (d : Int) := by omega
        simp only [LuaTempResult.getStackPos, a1, he0, LuaTempResult.FIRST_ITEM_INDEX]
        simp
        omega
      · have a1 : ¬ (i > 0 ∧ i ≤ lua_gettop s0 - (d : Int)) := by omega
        have a2 : i < 0 ∧ i ≥ -(lua_gettop s0 - (d : Int)) := by omega
        simp only [LuaTempResult.getStackPos, a1, a2, he0]
        simp
        omega
    have hacc := isStackPosAcceptable_of_value s _ v hpos hval
    simp only [LuaTempResult.push]
    generalize LuaTempResult.getStackPos ⟨true, e, d, lua_gettop s0 - (d : Int)⟩ i = pos
      at hval hacc
    simp [deref, he0, cassert, lua_checkstack, hacc, lua_pushvalue, hval,
      pushValue, bind, Except.bind, pure, Except.pure]

/-- Witness for C12: three values above an empty stack, `push(2)` re-pushes
the second value. -/
theorem LuaTempResult.push_grows_by_one_witness :
    LuaTempResult.push ⟨true, 0, 0, 3⟩ 2
        (stateWithStack [.number 10, .number 20, .number 30]) =
      .ok (stateWithStack [.number 10, .number 20, .number 30, .number 20]) :=
  (LuaTempResult.push_grows_by_one 0 0 ""
    (stateWithStack [.number 10, .number 20, .number 30])
    (stateWithStack [.number 10, .number 20, .number 30]) ⟨true, 0, 0, 3⟩ rfl
    (stateWithStack [.number 10, .number 20, .number 30]) 2).2 rfl
    (Or.inl ⟨by decide, by decide⟩) (.number 20) rfl

/-! ## Stack marks -/

/-- C13: for a mark taken at depth `d` (the depth of `s0`), `willPop(n)` is
true if and only if the current depth minus `d` equals `n` (it is a read of
the depth only, no state is returned by it); destroying the mark when the
current depth is at least `d` sets the depth to exactly `d` and leaves slots
`1..d`, the registry and the heap unchanged. -/
theorem LuaStackCleaner.mark_verifies_and_restores
    (L : Bool) (s0 : lua_State) (sc : LuaStackCleaner)
    (hsc : LuaStackCleaner.ctor L s0 = .ok sc) :
    (∀ (s : lua_State) (n : Int),
      sc.willPop s n = true ↔ lua_gettop s - lua_gettop s0 = n) ∧
    (∀ s : lua_State, lua_gettop s ≥ lua_gettop s0 →
      ∃ s', sc.dtor s = .ok s' ∧ lua_gettop s' = lua_gettop s0 ∧
        s'.stack = s.stack.take s0.stack.length ∧
        s'.registry = s.registry ∧ s'.heap = s.heap) := by
  have htop := LuaStackCleaner.ctor_ok hsc
  constructor
  · intro s n
    simp only [LuaStackCleaner.willPop, htop, lua_gettop, beq_iff_eq]
    constructor <;> intro h <;> omega
  · intro s hge
    simp only [lua_gettop] at hge
    have hle : s0.stack.length ≤ s.stack.length := by omega
    refine ⟨{ s with stack := s.stack.take s0.stack.length }, ?_, ?_, rfl, rfl, rfl⟩
    · simp [LuaStackCleaner.dtor, htop, lua_settop, hle]
    · simp [lua_gettop, hle]

/-- Witness for C13: a mark taken at depth 1, two values pushed since. -/
theorem LuaStackCleaner.mark_verifies_and_restores_witness :
    LuaStackCleaner.willPop ⟨true, 1⟩ (stateWithStack [.number 5, .nil, .nil]) 2 = true ∧
      ∃ s', LuaStackCleaner.dtor ⟨true, 1⟩ (stateWithStack [.number 5, .nil, .nil]) = .ok s' ∧
        s'.stack = [.number 5] :=
  have h := LuaStackCleaner.mark_verifies_and_restores true (stateWithStack [.number 5])
    ⟨true, 1⟩ rfl
  ⟨(h.1 (stateWithStack [.number 5, .nil, .nil]) 2).mpr (by decide),
    (h.2 (stateWithStack [.number 5, .nil, .nil]) (by decide)).elim
      fun s' hs => ⟨s', hs.1, hs.2.2.1⟩⟩

/-! ## Registry handles: creation, duplication, release -/

theorem index2adr_in_range (s : lua_State) (pos : Int)
    (h : ¬ (pos = 0 ∨ (pos > 0 ∧ pos > lua_gettop s) ∨ (pos < 0 ∧ -pos > lua_gettop s))) :
    ∃ v, index2adr s pos = some (some v) := by
  simp only [lua_gettop] at h
  unfold index2adr
  by_cases h1 : pos > 0
  · have hlt : (pos - 1).toNat < s.stack.length := by omega
    refine ⟨s.stack[(pos - 1).toNat], ?_⟩
    simp [h1, List.getElem?_eq_getElem hlt]
  · have h2 : pos < 0 ∧ -pos ≤ (s.stack.length : Int) := by omega
    have hlt : (-pos - 1).toNat < s.stack.reverse.length := by
      rw [List.length_reverse]
      omega
    refine ⟨s.stack.reverse[(-pos - 1).toNat], ?_⟩
    simp only [h1, h2, if_false, and_self, if_true, List.getElem?_eq_getElem hlt]

theorem luaL_ref_push_nil (s : lua_State) :
    luaL_ref (pushValue s LuaValue.nil) LUA_REGISTRYINDEX = .ok (LUA_REFNIL, s) := by
  obtain ⟨st, rg, hp⟩ := s
  simp [luaL_ref, pushValue]

theorem luaL_ref_push_fresh (s : lua_State) (v : LuaValue) (hwf : s.registry.WF)
    (hv : v ≠ LuaValue.nil) :
    ∃ k s', luaL_ref (pushValue s v) LUA_REGISTRYINDEX = .ok (k, s') ∧
      s'.registry.slots = (k, v) :: s.registry.slots ∧ k ∉ s.registry.keys ∧
      s'.registry.WF ∧ s'.stack = s.stack ∧ s'.heap = s.heap := by
  obtain ⟨w1, w2, w3, w4, w5⟩ := hwf
  obtain ⟨st, rg, hp⟩ := s
  simp only at w1 w2 w3 w4 w5
  cases hfree : rg.free with
  | nil =>
    have hk : ((rg.size : Int) + 1) ∉ rg.keys := by
      intro hmem
      have := (w5 _ hmem).2
      omega
    refine ⟨(rg.size : Int) + 1,
      ⟨st, ⟨((rg.size : Int) + 1, v) :: rg.slots, [], rg.size + 1⟩, hp⟩, ?_, rfl, hk, ?_,
      rfl, rfl⟩
    · have hl : (st ++ [v]).getLast? = some v := by simp
      simp only [luaL_ref, pushValue, ne_eq, not_true_eq_false, if_false, hl, hv, hfree,
        List.dropLast_concat, Registry.filter_fresh _ _ hk]
    · refine ⟨List.nodup_cons.mpr ⟨hk, w1⟩, List.nodup_nil, ?_, ?_, ?_⟩
      · intro k hk'
        simp at hk'
      · intro k hk'
        simp at hk'
      · intro k hk'
        simp only [Registry.keys, List.map_cons, List.mem_cons] at hk'
        rcases hk' with hk' | hk'
        · subst hk'
          push_cast
          omega
        · have := w5 k hk'
          push_cast
          omega
  | cons r rest =>
    rw [hfree] at w2 w3 w4
    have hk : r ∉ rg.keys := w3 r (List.mem_cons_self _ _)
    refine ⟨r, ⟨st, ⟨(r, v) :: rg.slots, rest, rg.size⟩, hp⟩, ?_, rfl, hk, ?_, rfl, rfl⟩
    · have hl : (st ++ [v]).getLast? = some v := by simp
      simp only [luaL_ref, pushValue, ne_eq, not_true_eq_false, if_false, hl, hv, hfree,
        List.dropLast_concat, Registry.filter_fresh _ _ hk]
    · refine ⟨List.nodup_cons.mpr ⟨hk, w1⟩, (List.nodup_cons.mp w2).2, ?_, ?_, ?_⟩
      · intro k hk'
        simp only [Registry.keys, List.map_cons, List.mem_cons, not_or]
        refine ⟨?_, w3 k (List.mem_cons_of_mem _ hk')⟩
        intro e
        subst e
        exact (List.nodup_cons.mp w2).1 hk'
      · intro k hk'
        exact w4 k (List.mem_cons_of_mem _ hk')
      · intro k hk'
        simp only [Registry.keys, List.map_cons, List.mem_cons] at hk'
        rcases hk' with hk' | hk'
        · subst hk'
          exact w4 _ (List.mem_cons_self _ _)
        · exact w5 k hk'

theorem luaL_ref_push_returns (s : lua_State) (v : LuaValue) :
    ∃ k s', luaL_ref (pushValue s v) LUA_REGISTRYINDEX = .ok (k, s') ∧
      s'.stack = s.stack ∧ s'.heap = s.heap := by
  obtain ⟨st, rg, hp⟩ := s
  have hl : (st ++ [v]).getLast? = some v := by simp
  simp only [luaL_ref, pushValue, ne_eq, not_true_eq_false, if_false, hl,
    List.dropLast_concat]
  split
  · exact ⟨_, _, rfl, rfl, rfl⟩
  · split
    · exact ⟨_, _, rfl, rfl, rfl⟩
    · exact ⟨_, _, rfl, rfl, rfl⟩

theorem LuaRegRef.getRef_out_of_range (s : lua_State) (pos : Int)
    (h : pos = 0 ∨ (pos > 0 ∧ pos > lua_gettop s) ∨ (pos < 0 ∧ -pos > lua_gettop s)) :
    LuaRegRef.getRef true pos s = .ok (LUA_NOREF, s) := by
  simp only [LuaRegRef.getRef, cassert, if_true, bind, Except.bind, pure, Except.pure]
  by_cases h1 : pos > 0 ∧ pos > lua_gettop s
  · simp only [h1, and_self, if_true]
  · by_cases h2 : pos < 0 ∧ -pos > lua_gettop s
    · simp only [h1, h2, and_self, if_true, if_false]
    · have h0 : pos = 0 := by
        rcases h with h | h | h
        · exact h
        · exact absurd h h1
        · exact absurd h h2
      simp [h0]

theorem LuaRegRef.getRef_in_range (s : lua_State) (pos : Int) (v : LuaValue)
    (h : index2adr s pos = some (some v)) :
    LuaRegRef.getRef true pos s = luaL_ref (pushValue s v) LUA_REGISTRYINDEX := by
  obtain ⟨c1, c2, c3⟩ := index2adr_valid s pos v h
  simp [LuaRegRef.getRef, cassert, c1, c2, c3, lua_checkstack, lua_pushvalue, h, bind,
    Except.bind, pure, Except.pure]

theorem LuaRegRef.getRef_returns (s : lua_State) (pos : Int) :
    ∃ k s', LuaRegRef.getRef true pos s = .ok (k, s') ∧ s'.stack = s.stack ∧
      s'.heap = s.heap := by
  by_cases h : pos = 0 ∨ (pos > 0 ∧ pos > lua_gettop s) ∨ (pos < 0 ∧ -pos > lua_gettop s)
  · exact ⟨_, _, LuaRegRef.getRef_out_of_range s pos h, rfl, rfl⟩
  · obtain ⟨v, hv⟩ := index2adr_in_range s pos h
    rw [LuaRegRef.getRef_in_range s pos v hv]
    exact luaL_ref_push_returns s v

theorem LuaRegRef.getRef_stack {lua : Bool} {s s' : lua_State} {pos k : Int}
    (h : LuaRegRef.getRef lua pos s = .ok (k, s')) :
    s'.stack = s.stack ∧ s'.heap = s.heap := by
  cases lua with
  | false => simp [LuaRegRef.getRef, cassert, bind, Except.bind] at h
  | true =>
    obtain ⟨k', s'', h', hs, hh⟩ := LuaRegRef.getRef_returns s pos
    rw [h'] at h
    simp only [Except.ok.injEq, Prod.mk.injEq] at h
    rw [← h.2]
    exact ⟨hs, hh⟩

theorem LuaRegRef.ctor_eq (lua : Bool) (pos : Int) (s : lua_State) :
    LuaRegRef.ctor lua pos s =
      (LuaRegRef.getRef lua pos s).map fun r => (⟨lua, r.1⟩, r.2) := by
  unfold LuaRegRef.ctor
  cases LuaRegRef.getRef lua pos s <;> rfl

/-- C14 (as stated, refuted): position 1 is in range and holds nil; the
handle created from it gets the key `LUA_REFNIL` and no registry entry is
created. -/
theorem LuaRegRef.create_from_nil_allocates_nothing :
    LuaRegRef.ctor true 1 (stateWithStack [.nil]) =
        .ok (⟨true, LUA_REFNIL⟩, stateWithStack [.nil]) ∧
      (stateWithStack [.nil]).registry.outstanding = 0 := by
  constructor <;> rfl

/-- C14 (amended): `LuaRegRef(lua, position)` on a live connection. If the
position is 0, or positive and greater than the stack depth, or negative
with absolute value greater than the depth, the handle has key `LUA_NOREF`
and nothing changes. Otherwise the position holds a value: if that value is
nil the handle has key `LUA_REFNIL` and nothing changes; if it is not nil
exactly one registry entry is created for it, under a key not in use before
(the registry being consistent). In every case the stack (depth and every
slot) is the same after the call as before. -/
theorem LuaRegRef.create_from_position (s : lua_State) (pos : Int)
    (hwf : s.registry.WF) :
    (pos = 0 ∨ (pos > 0 ∧ pos > lua_gettop s) ∨ (pos < 0 ∧ -pos > lua_gettop s) →
      LuaRegRef.ctor true pos s = .ok (⟨true, LUA_NOREF⟩, s)) ∧
    (¬ (pos = 0 ∨ (pos > 0 ∧ pos > lua_gettop s) ∨ (pos < 0 ∧ -pos > lua_gettop s)) →
      ∃ v, stackValue s pos = .ok v) ∧
    (stackValue s pos = .ok LuaValue.nil →
      LuaRegRef.ctor true pos s = .ok (⟨true, LUA_REFNIL⟩, s)) ∧
    (∀ v, stackValue s pos = .ok v → v ≠ LuaValue.nil →
      ∃ k s', LuaRegRef.ctor true pos s = .ok (⟨true, k⟩, s') ∧
        k ∉ s.registry.keys ∧ s'.registry.slots = (k, v) :: s.registry.slots ∧
        s'.registry.outstanding = s.registry.outstanding + 1 ∧
        s'.stack = s.stack ∧ s'.heap = s.heap) ∧
    (∀ h s', LuaRegRef.ctor true pos s = .ok (h, s') → s'.stack = s.stack) := by
  refine ⟨?_, ?_, ?_, ?_, ?_⟩
  · intro h
    rw [LuaRegRef.ctor_eq, LuaRegRef.getRef_out_of_range s pos h]
    rfl
  · intro h
    obtain ⟨v, hv⟩ := index2adr_in_range s pos h
    exact ⟨v, (stackValue_eq_ok_iff _ _ _).mpr hv⟩
  · intro h
    rw [LuaRegRef.ctor_eq,
      LuaRegRef.getRef_in_range s pos _ ((stackValue_eq_ok_iff _ _ _).mp h),
      luaL_ref_push_nil]
    rfl
  · intro v h hv
    obtain ⟨k, s', hc, hsl, hk, -, hst, hhp⟩ :=
      LuaRegRef.ctor_fresh s pos v hwf ((stackValue_eq_ok_iff _ _ _).mp h) hv
    exact ⟨k, s', hc, hk, hsl, by simp [Registry.outstanding, hsl], hst, hhp⟩
  · intro h s' hc
    rw [LuaRegRef.ctor_eq] at hc
    cases hg : LuaRegRef.getRef true pos s with
    | error e =>
      rw [hg] at hc
      simp [Except.map] at hc
    | ok r =>
      rw [hg] at hc
      simp only [Except.map, Except.ok.injEq, Prod.mk.injEq] at hc
      rw [← hc.2]
      exact (LuaRegRef.getRef_stack hg).1

/-- Witness for C14 (amended): the number at position 1 of a fresh
connection gets one registry entry, under key 1. -/
theorem LuaRegRef.create_from_position_witness :
    ∃ k s', LuaRegRef.ctor true 1 (stateWithStack [.number 7]) = .ok (⟨true, k⟩, s') ∧
      k ∉ (stateWithStack [.number 7]).registry.keys ∧
      s'.registry.slots = (k, .number 7) :: (stateWithStack [.number 7]).registry.slots ∧
      s'.registry.outstanding = (stateWithStack [.number 7]).registry.outstanding + 1 ∧
      s'.stack = (stateWithStack [.number 7]).stack ∧
      s'.heap = (stateWithStack [.number 7]).heap :=
  (LuaRegRef.create_from_position (stateWithStack [.number 7]) 1 (by decide)).2.2.2.1
    (.number 7) rfl (by decide)

theorem Registry.lookup_not_key (rg : Registry) (k : Int) (hk : k ∉ rg.keys) :
    rg.lookup k = LuaValue.nil := by
  have hnone : rg.slots.find? (fun p => p.1 == k) = none := by
    rw [List.find?_eq_none]
    intro p hp hpk
    have e : p.1 = k := by simpa using hpk
    exact hk (e ▸ List.mem_map_of_mem Prod.fst hp)
  simp [Registry.lookup, hnone]

theorem Registry.find_of_mem (slots : List (Int × LuaValue)) (k : Int) (v : LuaValue)
    (hnd : (slots.map Prod.fst).Nodup) (hmem : (k, v) ∈ slots) :
    slots.find? (fun p => p.1 == k) = some (k, v) := by
  induction slots with
  | nil => simp at hmem
  | cons q rest ih =>
    simp only [List.map_cons, List.nodup_cons] at hnd
    rcases List.mem_cons.mp hmem with e | e
    · subst e
      simp
    · have hne : q.1 ≠ k := by
        intro e'
        exact hnd.1 (e' ▸ List.mem_map_of_mem Prod.fst e)
      have hb : (q.1 == k) = false := by simpa using hne
      simp only [List.find?_cons, hb]
      exact ih hnd.2 e

theorem Registry.lookup_of_mem (rg : Registry) (k : Int) (v : LuaValue)
    (hnd : rg.keys.Nodup) (hmem : (k, v) ∈ rg.slots) : rg.lookup k = v := by
  simp [Registry.lookup, Registry.find_of_mem rg.slots k v hnd hmem]

theorem LuaRegRef.pushObj_eq (h : LuaRegRef) (s : lua_State) (hlive : h.mLua = true) :
    h.pushObj s = .ok (pushValue s (s.registry.lookup h.mRegKey)) := by
  simp [LuaRegRef.pushObj, cassert, hlive, lua_rawgeti, bind, Except.bind]

/-- C15: round trip. For every in-range stack position `p` holding a value
`v` of any type (nil included), over a consistent registry, creating a
handle from `p` leaves the stack as it was and `pushObj()` on it then grows
the stack by exactly one value, the new top being `v`. -/
theorem LuaRegRef.create_then_push_round_trip (s : lua_State) (pos : Int) (v : LuaValue)
    (hwf : s.registry.WF) (hv : stackValue s pos = .ok v) :
    ∃ h s1, LuaRegRef.ctor true pos s = .ok (h, s1) ∧ s1.stack = s.stack ∧
      h.pushObj s1 = .ok { s1 with stack := s.stack ++ [v] } := by
  have hval := (stackValue_eq_ok_iff _ _ _).mp hv
  by_cases hnil : v = LuaValue.nil
  · subst hnil
    have hc : LuaRegRef.ctor true pos s = .ok (⟨true, LUA_REFNIL⟩, s) := by
      rw [LuaRegRef.ctor_eq, LuaRegRef.getRef_in_range s pos _ hval, luaL_ref_push_nil]
      rfl
    refine ⟨_, _, hc, rfl, ?_⟩
    have hk : LUA_REFNIL ∉ s.registry.keys := by
      intro hm
      have := (hwf.2.2.2.2 _ hm).1
      simp [LUA_REFNIL] at this
    rw [LuaRegRef.pushObj_eq _ _ rfl, Registry.lookup_not_key _ _ hk]
    rfl
  · obtain ⟨k, s', hc, hsl, -, hwf', hst, -⟩ := LuaRegRef.ctor_fresh s pos v hwf hval hnil
    refine ⟨_, _, hc, hst, ?_⟩
    have hl : s'.registry.lookup k = v :=
      Registry.lookup_of_mem _ k v hwf'.1 (by rw [hsl]; exact List.mem_cons_self _ _)
    rw [LuaRegRef.pushObj_eq _ _ rfl]
    simp only [pushValue, hl, hst]

/-- Witness for C15: the string at position -1 of a two-slot stack. -/
theorem LuaRegRef.create_then_push_round_trip_witness :
    ∃ h s1, LuaRegRef.ctor true (-1) (stateWithStack [.number 7, .string "x"]) =
        .ok (h, s1) ∧
      s1.stack = (stateWithStack [.number 7, .string "x"]).stack ∧
      h.pushObj s1 = .ok { s1 with
        stack := (stateWithStack [.number 7, .string "x"]).stack ++ [.string "x"] } :=
  LuaRegRef.create_then_push_round_trip (stateWithStack [.number 7, .string "x"]) (-1)
    (.string "x") (by decide) rfl

theorem luaL_unref_eq (s : lua_State) (k : Int) (hk : 0 ≤ k) :
    luaL_unref s LUA_REGISTRYINDEX k =
      { s with registry :=
          { slots := s.registry.slots.filter (fun p => decide (p.1 ≠ k))
            free := k :: s.registry.free
            size := s.registry.size } } := by
  simp [luaL_unref, hk]

theorem luaL_unref_negative (s : lua_State) (k : Int) (hk : k < 0) :
    luaL_unref s LUA_REGISTRYINDEX k = s := by
  have : ¬ (k ≥ 0) := by omega
  simp [luaL_unref, this]

theorem Registry.lookup_after_release (slots : List (Int × LuaValue)) (fr : List Int)
    (sz : Nat) (k k0 : Int) (v : LuaValue) (hnd : (slots.map Prod.fst).Nodup)
    (hmem : (k, v) ∈ slots) (hne : k ≠ k0) :
    Registry.lookup ⟨slots.filter (fun p => decide (p.1 ≠ k0)), fr, sz⟩ k = v := by
  apply Registry.lookup_of_mem
  · exact hnd.sublist ((List.filter_sublist slots).map Prod.fst)
  · exact List.mem_filter.mpr ⟨hmem, by simpa using hne⟩

/-- C16: duplicating a handle, over a consistent registry. Copy-constructing
from a nil handle gives a nil handle (key `LUA_NOREF`) and changes nothing.
Copy-constructing from a handle `h` with a live connection that owns a slot
holding `v` allocates one new registry key, not in use before and different
from the key of `h` (so `operator==` reports them unequal), leaves the stack
as it was, `pushObj()` on `h` and on the copy both push `v`, and after
destroying either of the two, `pushObj()` on the other still pushes `v`. -/
theorem LuaRegRef.copy_is_independent_owner (s : lua_State) (h : LuaRegRef)
    (hwf : s.registry.WF) :
    (h.isNil = true →
      h.copyCtor s = .ok (⟨h.mLua, LUA_NOREF⟩, s) ∧
        LuaRegRef.isNil ⟨h.mLua, LUA_NOREF⟩ = true) ∧
    (h.mLua = true → ∀ v, (h.mRegKey, v) ∈ s.registry.slots → v ≠ LuaValue.nil →
      ∃ c s1, h.copyCtor s = .ok (c, s1) ∧ c.mLua = true ∧ c.isNil = false ∧
        c.mRegKey ≠ h.mRegKey ∧ c.mRegKey ∉ s.registry.keys ∧ h.eq c = false ∧
        s1.registry.outstanding = s.registry.outstanding + 1 ∧ s1.stack = s.stack ∧
        h.pushObj s1 = .ok (pushValue s1 v) ∧ c.pushObj s1 = .ok (pushValue s1 v) ∧
        c.pushObj (h.dtor s1) = .ok (pushValue (h.dtor s1) v) ∧
        h.pushObj (c.dtor s1) = .ok (pushValue (c.dtor s1) v)) := by
  constructor
  · intro hnil
    refine ⟨?_, by simp [LuaRegRef.isNil]⟩
    simp [LuaRegRef.copyCtor, LuaRegRef.copyRef, hnil, bind, Except.bind, pure, Except.pure]
  · intro hlive v hmem hv
    obtain ⟨hm, k⟩ := h
    simp only at hlive hmem
    subst hlive
    have hkey : k ∈ s.registry.keys := List.mem_map_of_mem Prod.fst hmem
    have hk1 := (hwf.2.2.2.2 k hkey).1
    have hnotnil : LuaRegRef.isNil ⟨true, k⟩ = false := by
      have a : k ≠ LUA_NOREF := by
        simp only [LUA_NOREF]
        omega
      have b : k ≠ LUA_REFNIL := by
        simp only [LUA_REFNIL]
        omega
      simp [LuaRegRef.isNil, a, b]
    have hlook : s.registry.lookup k = v := Registry.lookup_of_mem _ k v hwf.1 hmem
    obtain ⟨k', s1, href, hsl, hfresh, hwf1, hst, -⟩ := luaL_ref_push_fresh s v hwf hv
    have hne : k' ≠ k := fun e => hfresh (e ▸ hkey)
    have hk'1 : 1 ≤ k' :=
      (hwf1.2.2.2.2 k' (by simp [Registry.keys, hsl])).1
    have hmem1 : (k, v) ∈ s1.registry.slots := by
      rw [hsl]
      exact List.mem_cons_of_mem _ hmem
    have hmem1' : (k', v) ∈ s1.registry.slots := by
      rw [hsl]
      exact List.mem_cons_self _ _
    refine ⟨⟨true, k'⟩, s1, ?_, rfl, ?_, hne, hfresh, ?_, ?_, hst, ?_, ?_, ?_, ?_⟩
    · simp [LuaRegRef.copyCtor, LuaRegRef.copyRef, hnotnil, cassert,
        LuaRegRef.pushObj_eq, hlook, href, bind, Except.bind, pure, Except.pure]
    · have a : k' ≠ LUA_NOREF := by
        simp only [LUA_NOREF]
        omega
      have b : k' ≠ LUA_REFNIL := by
        simp only [LUA_REFNIL]
        omega
      simp [LuaRegRef.isNil, a, b]
    · simpa [LuaRegRef.eq] using hne.symm
    · simp [Registry.outstanding, hsl]
    · rw [LuaRegRef.pushObj_eq _ _ rfl, Registry.lookup_of_mem _ k v hwf1.1 hmem1]
    · rw [LuaRegRef.pushObj_eq _ _ rfl, Registry.lookup_of_mem _ k' v hwf1.1 hmem1']
    · rw [LuaRegRef.pushObj_eq _ _ rfl]
      simp only [LuaRegRef.dtor, if_true, luaL_unref_eq s1 k (by omega)]
      rw [Registry.lookup_after_release _ _ _ k' k v hwf1.1 hmem1' hne]
    · rw [LuaRegRef.pushObj_eq _ _ rfl]
      simp only [LuaRegRef.dtor, if_true, luaL_unref_eq s1 k' (by omega)]
      rw [Registry.lookup_after_release _ _ _ k k' v hwf1.1 hmem1 hne.symm]

/-- Witness for C16: the handle with key 1 on the number 7 is copied; the
copy gets key 2. -/
theorem LuaRegRef.copy_is_independent_owner_witness :
    LuaRegRef.copyCtor ⟨true, 1⟩ stateWithOneRef =
        .ok (⟨true, 2⟩,
          ⟨[.number 7], ⟨[(2, .number 7), (1, .number 7)], [], 2⟩, Heap.empty⟩) ∧
      ∃ c s1, LuaRegRef.copyCtor ⟨true, 1⟩ stateWithOneRef = .ok (c, s1) ∧ c.mLua = true ∧
        c.isNil = false ∧ c.mRegKey ≠ 1 ∧ c.mRegKey ∉ stateWithOneRef.registry.keys ∧
        LuaRegRef.eq ⟨true, 1⟩ c = false ∧
        s1.registry.outstanding = stateWithOneRef.registry.outstanding + 1 ∧
        s1.stack = stateWithOneRef.stack ∧
        LuaRegRef.pushObj ⟨true, 1⟩ s1 = .ok (pushValue s1 (.number 7)) ∧
        c.pushObj s1 = .ok (pushValue s1 (.number 7)) ∧
        c.pushObj (LuaRegRef.dtor ⟨true, 1⟩ s1) =
          .ok (pushValue (LuaRegRef.dtor ⟨true, 1⟩ s1) (.number 7)) ∧
        LuaRegRef.pushObj ⟨true, 1⟩ (c.dtor s1) = .ok (pushValue (c.dtor s1) (.number 7)) :=
  ⟨rfl, (LuaRegRef.copy_is_independent_owner stateWithOneRef ⟨true, 1⟩ (by decide)).2 rfl
    (.number 7) (by decide) (by decide)⟩

theorem Registry.mem_keys_filter (slots : List (Int × LuaValue)) (k x : Int) :
    x ∈ (slots.filter (fun p => decide (p.1 ≠ k))).map Prod.fst ↔
      x ∈ slots.map Prod.fst ∧ x ≠ k := by
  simp only [List.mem_map, List.mem_filter, decide_eq_true_eq]
  constructor
  · rintro ⟨p, ⟨hp, hne⟩, rfl⟩
    exact ⟨⟨p, hp, rfl⟩, hne⟩
  · rintro ⟨⟨p, hp, rfl⟩, hne⟩
    exact ⟨p, ⟨hp, hne⟩, rfl⟩

theorem Registry.length_filter_key (slots : List (Int × LuaValue)) (k : Int)
    (hnd : (slots.map Prod.fst).Nodup) (hk : k ∈ slots.map Prod.fst) :
    (slots.filter (fun p => decide (p.1 ≠ k))).length + 1 = slots.length := by
  induction slots with
  | nil => simp at hk
  | cons q rest ih =>
    simp only [List.map_cons, List.nodup_cons] at hnd
    by_cases e : q.1 = k
    · have hrest : k ∉ rest.map Prod.fst := e ▸ hnd.1
      have hf : rest.filter (fun p => decide (p.1 ≠ k)) = rest :=
        Registry.filter_fresh rest k hrest
      rw [List.filter_cons_of_neg (by simpa using e), hf]
      rfl
    · have hk' : k ∈ rest.map Prod.fst := by
        simp only [List.map_cons, List.mem_cons] at hk
        rcases hk with hk | hk
        · exact absurd hk.symm e
        · exact hk
      have := ih hnd.2 hk'
      rw [List.filter_cons_of_pos (by simpa using e), List.length_cons, List.length_cons,
        this]

theorem Registry.WF_release (rg : Registry) (k : Int) (hwf : rg.WF) (hk : k ∈ rg.keys) :
    Registry.WF ⟨rg.slots.filter (fun p => decide (p.1 ≠ k)), k :: rg.free, rg.size⟩ := by
  obtain ⟨w1, w2, w3, w4, w5⟩ := hwf
  have hkfree : k ∉ rg.free := fun hm => w3 k hm hk
  refine ⟨?_, List.nodup_cons.mpr ⟨hkfree, w2⟩, ?_, ?_, ?_⟩
  · exact w1.sublist ((List.filter_sublist rg.slots).map Prod.fst)
  · intro x hx hm
    have hm' := (Registry.mem_keys_filter rg.slots k x).mp hm
    rcases List.mem_cons.mp hx with e | e
    · exact hm'.2 e
    · exact w3 x e hm'.1
  · intro x hx
    rcases List.mem_cons.mp hx with e | e
    · subst e
      exact w5 x hk
    · exact w4 x e
  · intro x hm
    exact w5 x ((Registry.mem_keys_filter rg.slots k x).mp hm).1

/-- C17: `setNil()` on a handle `h` with a live connection returns, makes
`isNil()` true and leaves the stack as it was. It allocates nothing (the
live references afterwards are those of before without the key of `h`); a
non-negative key is released once (it is put first in the list of released
keys), a negative key (`LUA_NOREF`, `LUA_REFNIL`) leaves the state
unchanged; when `h` owns a slot of a consistent registry the count of
outstanding slots drops by exactly one and the registry stays consistent. A
later destruction of the handle changes nothing, and a later `reset` is the
plain creation of a handle from the new position: neither releases the slot
a second time. -/
theorem LuaRegRef.setNil_releases_once (h : LuaRegRef) (s : lua_State)
    (hlive : h.mLua = true) :
    ∃ h' s1, h.setNil s = .ok (h', s1) ∧ h'.isNil = true ∧ s1.stack = s.stack ∧
      s1.registry.size = s.registry.size ∧
      (0 ≤ h.mRegKey →
        s1.registry.slots = s.registry.slots.filter (fun p => decide (p.1 ≠ h.mRegKey)) ∧
        s1.registry.free = h.mRegKey :: s.registry.free) ∧
      (h.mRegKey < 0 → s1 = s) ∧
      (s.registry.WF → h.mRegKey ∈ s.registry.keys →
        s1.registry.outstanding + 1 = s.registry.outstanding ∧
        h.mRegKey ∉ s1.registry.keys ∧ s1.registry.WF) ∧
      h'.dtor s1 = s1 ∧
      (∀ lua pos, h'.reset lua pos s1 = LuaRegRef.ctor true pos s1) := by
  obtain ⟨hm, k⟩ := h
  simp only at hlive
  subst hlive
  refine ⟨⟨true, LUA_REFNIL⟩, luaL_unref s LUA_REGISTRYINDEX k, ?_, ?_, ?_, ?_, ?_, ?_, ?_,
    ?_, ?_⟩
  · simp [LuaRegRef.setNil, cassert, bind, Except.bind, pure, Except.pure]
  · simp [LuaRegRef.isNil]
  · simp only [luaL_unref]
    split <;> rfl
  · simp only [luaL_unref]
    split <;> rfl
  · intro hk
    rw [luaL_unref_eq s k hk]
    exact ⟨rfl, rfl⟩
  · intro hk
    exact luaL_unref_negative s k hk
  · intro hwf hk
    have hk0 : 0 ≤ k := by
      have := (hwf.2.2.2.2 k hk).1
      omega
    rw [luaL_unref_eq s k hk0]
    refine ⟨?_, ?_, Registry.WF_release s.registry k hwf hk⟩
    · exact Registry.length_filter_key s.registry.slots k hwf.1 hk
    · intro hm
      exact ((Registry.mem_keys_filter s.registry.slots k k).mp hm).2 rfl
  · simp [LuaRegRef.dtor, luaL_unref, LUA_REFNIL]
  · intro lua pos
    simp only [LuaRegRef.reset, if_true, luaL_unref_negative _ LUA_REFNIL (by decide),
      LuaRegRef.ctor, cassert, bind, Except.bind, pure, Except.pure]

/-- Witness for C17: the handle with key 1 on the number 7 is set to nil;
no slot is outstanding afterwards and key 1 is released once. -/
theorem LuaRegRef.setNil_releases_once_witness :
    LuaRegRef.setNil ⟨true, 1⟩ stateWithOneRef =
        .ok (⟨true, LUA_REFNIL⟩, ⟨[.number 7], ⟨[], [1], 1⟩, Heap.empty⟩) ∧
      ∃ h' s1, LuaRegRef.setNil ⟨true, 1⟩ stateWithOneRef = .ok (h', s1) ∧
        h'.isNil = true ∧ h'.dtor s1 = s1 :=
  ⟨rfl, (LuaRegRef.setNil_releases_once ⟨true, 1⟩ stateWithOneRef rfl).elim
    fun h' hh => hh.elim fun s1 hs => ⟨h', s1, hs.1, hs.2.1, hs.2.2.2.2.2.2.2.1⟩⟩

/-- C18: `reset(lua, position)`. On a handle with a live connection it
releases the key the handle holds, once (`luaL_unref`: a non-negative key is
removed from the live references and put first in the list of released
keys, a negative key owns nothing and nothing is released), and is then
exactly the creation of a handle from `position` on the resulting state. On
a handle without a connection it releases nothing and is exactly the creation
of a handle from `position` on the given connection. In both cases the stack
is unchanged, and the call returns whenever a connection is at hand. -/
theorem LuaRegRef.reset_releases_then_creates (self : LuaRegRef) (lua : Bool) (pos : Int)
    (s : lua_State) :
    (self.mLua = true →
      self.reset lua pos s =
        LuaRegRef.ctor true pos (luaL_unref s LUA_REGISTRYINDEX self.mRegKey)) ∧
    (0 ≤ self.mRegKey →
      (luaL_unref s LUA_REGISTRYINDEX self.mRegKey).registry.slots =
          s.registry.slots.filter (fun p => decide (p.1 ≠ self.mRegKey)) ∧
        (luaL_unref s LUA_REGISTRYINDEX self.mRegKey).registry.free =
          self.mRegKey :: s.registry.free) ∧
    (self.mRegKey < 0 → luaL_unref s LUA_REGISTRYINDEX self.mRegKey = s) ∧
    (self.mLua = false → self.reset lua pos s = LuaRegRef.ctor lua pos s) ∧
    (∀ h' s', self.reset lua pos s = .ok (h', s') → s'.stack = s.stack) ∧
    (self.mLua = true ∨ lua = true →
      ∃ h' s', self.reset lua pos s = .ok (h', s') ∧ h'.mLua = true) := by
  obtain ⟨hm, k⟩ := self
  have hlive : LuaRegRef.reset ⟨true, k⟩ lua pos s =
      LuaRegRef.ctor true pos (luaL_unref s LUA_REGISTRYINDEX k) := by
    simp only [LuaRegRef.reset, if_true, LuaRegRef.ctor, cassert, bind, Except.bind, pure,
      Except.pure]
  have hdead : LuaRegRef.reset ⟨false, k⟩ lua pos s = LuaRegRef.ctor lua pos s := by
    cases lua with
    | false =>
      simp [LuaRegRef.reset, LuaRegRef.ctor, LuaRegRef.getRef, cassert, bind, Except.bind]
    | true =>
      simp only [LuaRegRef.reset, Bool.false_eq_true, if_false, if_true, LuaRegRef.ctor,
        cassert, bind, Except.bind, pure, Except.pure]
  have hunref : (luaL_unref s LUA_REGISTRYINDEX k).stack = s.stack := by
    simp only [luaL_unref]
    split <;> rfl
  have hctor : ∀ (t : lua_State), ∃ h' s', LuaRegRef.ctor true pos t = .ok (h', s') ∧
      h'.mLua = true ∧ s'.stack = t.stack := by
    intro t
    obtain ⟨k', s', hg, hs, -⟩ := LuaRegRef.getRef_returns t pos
    refine ⟨⟨true, k'⟩, s', ?_, rfl, hs⟩
    rw [LuaRegRef.ctor_eq, hg]
    rfl
  have hstack : ∀ (l : Bool) (t : lua_State) (h' : LuaRegRef) (s' : lua_State),
      LuaRegRef.ctor l pos t = .ok (h', s') → s'.stack = t.stack := by
    intro l t h' s' hc
    rw [LuaRegRef.ctor_eq] at hc
    cases hg : LuaRegRef.getRef l pos t with
    | error e =>
      rw [hg] at hc
      simp [Except.map] at hc
    | ok r =>
      rw [hg] at hc
      simp only [Except.map, Except.ok.injEq, Prod.mk.injEq] at hc
      rw [← hc.2]
      exact (LuaRegRef.getRef_stack hg).1
  refine ⟨?_, ?_, ?_, ?_, ?_, ?_⟩
  · intro h
    simp only at h
    subst h
    exact hlive
  · intro hk
    simp only at hk
    simp only [luaL_unref_eq s k hk, and_self]
  · intro hk
    exact luaL_unref_negative s k hk
  · intro h
    simp only at h
    subst h
    exact hdead
  · intro h' s' hr
    cases hm with
    | true =>
      rw [hlive] at hr
      rw [hstack _ _ _ _ hr, hunref]
    | false =>
      rw [hdead] at hr
      exact hstack _ _ _ _ hr
  · intro h
    cases hm with
    | true =>
      rw [hlive]
      obtain ⟨h', s', hc, hl, -⟩ := hctor (luaL_unref s LUA_REGISTRYINDEX k)
      exact ⟨h', s', hc, hl⟩
    | false =>
      have hl : lua = true := by
        rcases h with h | h
        · simp at h
        · exact h
      subst hl
      rw [hdead]
      obtain ⟨h', s', hc, hl, -⟩ := hctor s
      exact ⟨h', s', hc, hl⟩

/-- Witness for C18: the handle with key 1 on the number 7 is reset to
position 1: key 1 is released and handed out again, one slot is outstanding
as before; a handle without a connection adopts the connection and gets the
new key 2. -/
theorem LuaRegRef.reset_releases_then_creates_witness :
    LuaRegRef.reset ⟨true, 1⟩ true 1 stateWithOneRef = .ok (⟨true, 1⟩, stateWithOneRef) ∧
      LuaRegRef.reset ⟨false, LUA_NOREF⟩ true 1 stateWithOneRef =
        .ok (⟨true, 2⟩,
          ⟨[.number 7], ⟨[(2, .number 7), (1, .number 7)], [], 2⟩, Heap.empty⟩) ∧
      (∀ h' s', LuaRegRef.reset ⟨true, 1⟩ true 1 stateWithOneRef = .ok (h', s') →
        s'.stack = stateWithOneRef.stack) :=
  ⟨rfl, rfl,
    (LuaRegRef.reset_releases_then_creates ⟨true, 1⟩ true 1 stateWithOneRef).2.2.2.2.1⟩

/-! ## Object handles: nil propagation and promotion -/

/-- C19: nil propagation. For every object handle whose error code is set
(also the default-constructed one, which has no connection) and every state
of the runtime, whatever the registry holds: `isNil()` is true, `getTypeID()`
is the nil type tag, `getAs<int>()` is 0, `getAs<std::string>()` is the empty
string and `getAs<bool>()` is false, and the state (stack, registry, heap) is
returned as it was. -/
theorem LuaObjRef.error_handle_reads_as_nil (self : LuaObjRef) (s : lua_State)
    (herr : self.isError = true) :
    self.isNil = true ∧ self.getTypeID s = .ok (LUA_TNIL, s) ∧
      self.getAs_int s = .ok (0, s) ∧ self.getAs_string s = .ok ("", s) ∧
      self.getAs_bool s = .ok (false, s) := by
  have he : (self.mErrCode != 0) = true := by
    simpa [LuaObjRef.isError, LUA_ERR_NONE] using herr
  refine ⟨?_, ?_, ?_, ?_, ?_⟩
  · simp only [LuaObjRef.isNil, he, if_true]
  · simp only [LuaObjRef.getTypeID, he, if_true]
    rfl
  · simp only [LuaObjRef.getAs_int, he, if_true]
    rfl
  · simp only [LuaObjRef.getAs_string, he, if_true]
    rfl
  · simp only [LuaObjRef.getAs_bool, he, if_true]
    rfl

/-- Witness for C19: the default-constructed handle, and a handle in the
error state whose registry slot holds the number 7. -/
theorem LuaObjRef.error_handle_reads_as_nil_witness :
    LuaObjRef.ctorNil "nil" = .ok ⟨false, ⟨false, LUA_NOREF⟩, "nil", LUA_NO_LUA⟩ ∧
      LuaObjRef.getAs_int ⟨false, ⟨false, LUA_NOREF⟩, "nil", LUA_NO_LUA⟩ stateWithOneRef =
        .ok (0, stateWithOneRef) ∧
      LuaObjRef.getAs_int ⟨true, ⟨true, 1⟩, "", LUA_ERR_RUN⟩ stateWithOneRef =
        .ok (0, stateWithOneRef) ∧
      LuaObjRef.getTypeID ⟨true, ⟨true, 1⟩, "", LUA_ERR_RUN⟩ stateWithOneRef =
        .ok (LUA_TNIL, stateWithOneRef) :=
  ⟨rfl,
    (LuaObjRef.error_handle_reads_as_nil ⟨false, ⟨false, LUA_NOREF⟩, "nil", LUA_NO_LUA⟩
      stateWithOneRef rfl).2.2.1,
    (LuaObjRef.error_handle_reads_as_nil ⟨true, ⟨true, 1⟩, "", LUA_ERR_RUN⟩
      stateWithOneRef rfl).2.2.1,
    (LuaObjRef.error_handle_reads_as_nil ⟨true, ⟨true, 1⟩, "", LUA_ERR_RUN⟩
      stateWithOneRef rfl).2.1⟩

theorem LuaRegRef.ctor_lookup (s : lua_State) (pos : Int) (v : LuaValue)
    (hwf : s.registry.WF) (hval : index2adr s pos = some (some v)) :
    ∃ k s', LuaRegRef.ctor true pos s = .ok (⟨true, k⟩, s') ∧ s'.stack = s.stack ∧
      s'.heap = s.heap ∧ s'.registry.lookup k = v := by
  by_cases hnil : v = LuaValue.nil
  · subst hnil
    have hc : LuaRegRef.ctor true pos s = .ok (⟨true, LUA_REFNIL⟩, s) := by
      rw [LuaRegRef.ctor_eq, LuaRegRef.getRef_in_range s pos _ hval, luaL_ref_push_nil]
      rfl
    have hk : LUA_REFNIL ∉ s.registry.keys := by
      intro hm
      have := (hwf.2.2.2.2 _ hm).1
      simp [LUA_REFNIL] at this
    exact ⟨_, _, hc, rfl, rfl, Registry.lookup_not_key _ _ hk⟩
  · obtain ⟨k, s', hc, hsl, -, hwf', hst, hhp⟩ := LuaRegRef.ctor_fresh s pos v hwf hval hnil
    exact ⟨k, s', hc, hst, hhp,
      Registry.lookup_of_mem _ k v hwf'.1 (by rw [hsl]; exact List.mem_cons_self _ _)⟩

theorem LuaTempResult.ctor_ok_state (lua : Bool) (d : Int) (p : String)
    (s0 s1 : lua_State) (r : LuaTempResult)
    (h : LuaTempResult.ctor lua d 0 p s0 = .ok (r, s1)) : s1 = s0 := by
  cases lua with
  | false =>
    simp [LuaTempResult.ctor, bind, Except.bind, throw, throwThe, MonadExceptOf.throw] at h
  | true =>
    simp only [LuaTempResult.ctor, Bool.not_true, Bool.false_eq_true, if_false,
      Except.bind_eq_ok_iff, cassert_eq_ok_iff, pure, Except.pure] at h
    obtain ⟨_, -, _, -, _, -, _, -, h⟩ := h
    simp only [bne_self_eq_false, Bool.false_eq_true, if_false, Except.ok.injEq,
      Prod.mk.injEq] at h
    exact h.2.symm

theorem getObjFromStack_int_top_returns (s : lua_State) (v : LuaValue) :
    ∃ n, getObjFromStack_int true (-1) (pushValue s v) = .ok n := by
  obtain ⟨st, rg, hp⟩ := s
  simp only [getObjFromStack_int, cassert, lua_tointeger, pushValue, index2adr_neg1]
  cases v <;> exact ⟨_, rfl⟩

theorem LuaObjRef.getAs_int_value (self : LuaObjRef) (s : lua_State)
    (h1 : self.mLua = true) (h2 : self.mRegKey.mLua = true) (h3 : self.mErrCode = 0)
    (n : Int)
    (hn : getObjFromStack_int true (-1)
      (pushValue s (s.registry.lookup self.mRegKey.mRegKey)) = .ok n) :
    self.getAs_int s = .ok (n, s) := by
  obtain ⟨st, rg, hp⟩ := s
  simp only [pushValue] at hn
  simp [LuaObjRef.getAs_int, h3, LuaStackCleaner.ctor, LuaRegRef.pushObj, lua_rawgeti,
    pushValue, LuaStackCleaner.dtor, cassert, h1, h2, hn, lua_gettop, bind, Except.bind,
    pure, Except.pure, lua_settop_restore]

theorem getObjFromStack_int_congr (s s' : lua_State) (pos pos' : Int) (v : LuaValue)
    (h : index2adr s pos = some (some v)) (h' : index2adr s' pos' = some (some v)) :
    getObjFromStack_int true pos s = getObjFromStack_int true pos' s' := by
  have hz : ∀ (t : lua_State) (q : Int), index2adr t q = some (some v) →
      (q == LUA_UNACCEPTABLE_STACK_POS) = false := by
    intro t q hq
    by_contra hc
    have hq0 : q = 0 := by simpa [LUA_UNACCEPTABLE_STACK_POS] using hc
    subst hq0
    simp [index2adr] at hq
  simp only [getObjFromStack_int, hz s pos h, hz s' pos' h', lua_tointeger, h, h']

theorem getObjFromStack_int_number (s : lua_State) (pos m : Int)
    (h : index2adr s pos = some (some (.number m))) :
    getObjFromStack_int true pos s = .ok (toInt32 m) := by
  have hz : (pos == LUA_UNACCEPTABLE_STACK_POS) = false := by
    by_contra hc
    have hq0 : pos = 0 := by simpa [LUA_UNACCEPTABLE_STACK_POS] using hc
    subst hq0
    simp [index2adr] at h
  simp [getObjFromStack_int, hz, lua_tointeger, h, cassert, bind, Except.bind, pure,
    Except.pure]

theorem toInt32_of_range (m : Int) (h1 : -2 ^ 31 ≤ m) (h2 : m < 2 ^ 31) : toInt32 m = m := by
  unfold toInt32
  have : (m + 2 ^ 31) % 2 ^ 32 = m + 2 ^ 31 := Int.emod_eq_of_lt (by omega) (by omega)
  omega

/-- C20: promotion decouples lifetime. Let `r` be an error-free pending
result recorded at depth `d` over a consistent registry, and `i` an index
whose position `getStackPos(i)` holds the value `v` (the index is then in
range). The handle constructed from `r.item(i)` is error-free, and
constructing it leaves the stack as it was; after `r` has been destroyed and
the stack truncated to depth `d`, `pushObj()` on the handle pushes `v`, and
`getAs<int>()` on the handle returns, leaving the truncated stack as it is,
the very number that `getAs<int>()` on the item returned while `r` was
alive: what the adapter `getObjFromStack<int>` reads from `v`, which for a
number is that number converted to `int`, the number itself when it lies in
the range of a 32-bit `int`. -/
theorem LuaObjRef.promoted_item_outlives_result
    (d : Nat) (e : Int) (p : String) (s0 s1 : lua_State) (r : LuaTempResult)
    (hc : LuaTempResult.ctor true d e p s0 = .ok (r, s1)) (hok : r.isError = false)
    (hwf : s0.registry.WF) (i : Int) (v : LuaValue)
    (hv : stackValue s1 (r.getStackPos i) = .ok v) :
    ∃ item h s2 s3, r.getItem i = .ok item ∧ LuaObjRef.ctorItem item s1 = .ok (h, s2) ∧
      h.isError = false ∧ s2.stack = s1.stack ∧
      r.dtor s2 = .ok s3 ∧ s3.stack = s1.stack.take d ∧ lua_gettop s3 = d ∧
      h.pushObj s3 = .ok (pushValue s3 v) ∧
      ∃ n, item.getAs_int s1 = .ok n ∧ h.getAs_int s3 = .ok (n, s3) ∧
        getObjFromStack_int true (-1) (pushValue s3 v) = .ok n ∧
        ∀ m : Int, v = .number m →
          n = toInt32 m ∧ (-2 ^ 31 ≤ m → m < 2 ^ 31 → n = m) := by
  obtain ⟨hr, hn, -⟩ := LuaTempResult.ctor_ok_shape true d e p s0 s1 r hc
  have he : e = 0 := by
    subst hr
    simpa [LuaTempResult.isError, LUA_ERR_NONE] using hok
  subst he
  have hs1 := LuaTempResult.ctor_ok_state true d p s0 s1 r hc
  subst hs1
  subst hr
  simp only at hn
  generalize hpos : LuaTempResult.getStackPos ⟨true, 0, d, lua_gettop s1 - (d : Int)⟩ i = pos
    at hv
  have hval := (stackValue_eq_ok_iff _ _ _).mp hv
  obtain ⟨k, s2, hctor, hst, -, hlook⟩ := LuaRegRef.ctor_lookup s1 pos v hwf hval
  have hle : d ≤ s1.stack.length := by
    simp only [lua_gettop] at hn
    omega
  have htop : lua_gettop s2 = (d : Int) + (lua_gettop s1 - (d : Int)) := by
    simp only [lua_gettop, hst]
    omega
  obtain ⟨n, hn'⟩ := getObjFromStack_int_top_returns
    { s2 with stack := s1.stack.take d } v
  have htopv : index2adr (pushValue { s2 with stack := s1.stack.take d } v) (-1) =
      some (some v) := index2adr_neg1 _ v _ _
  have hitem : getObjFromStack_int true pos s1 = .ok n :=
    (getObjFromStack_int_congr _ _ _ _ v hval htopv).trans hn'
  refine ⟨⟨true, pos, 0⟩, ⟨true, ⟨true, k⟩, "", 0⟩, s2,
    { s2 with stack := s1.stack.take d }, ?_, ?_, rfl, hst, ?_, rfl, ?_, ?_, n, ?_, ?_, hn',
    ?_⟩
  · simp [LuaTempResult.getItem, LuaTempResult.Item.ctor, hpos, cassert, bind, Except.bind,
      pure, Except.pure]
  · simp [LuaObjRef.ctorItem, hctor, bind, Except.bind, pure, Except.pure]
  · simp [LuaTempResult.dtor, cassert, htop, lua_settop, hst, hle, bind, Except.bind]
  · simp [lua_gettop, hle]
  · have : LuaObjRef.pushObj ⟨true, ⟨true, k⟩, "", 0⟩ { s2 with stack := s1.stack.take d } =
        LuaRegRef.pushObj ⟨true, k⟩ { s2 with stack := s1.stack.take d } := by
      simp [LuaObjRef.pushObj]
    rw [this, LuaRegRef.pushObj_eq _ _ rfl]
    simp only [hlook]
  · simpa [LuaTempResult.Item.getAs_int] using hitem
  · apply LuaObjRef.getAs_int_value _ _ rfl rfl rfl
    simp only [hlook]
    exact hn'
  · intro m hm
    subst hm
    have h2 := getObjFromStack_int_number _ _ m hval
    rw [hitem] at h2
    have hnm : n = toInt32 m := by
      simpa using h2
    exact ⟨hnm, fun a b => hnm.trans (toInt32_of_range m a b)⟩

/-- Witness for C20: two values, 10 and 20, produced above depth 1; the
handle promoted from item 2 has registry key 1 and still reads 20 once the
result is destroyed and the stack is back to `[5]`; a stored `2^31` is read
as `-2^31`. -/
theorem LuaObjRef.promoted_item_outlives_result_witness :
    LuaObjRef.ctorItem ⟨true, 3, 0⟩ (stateWithStack [.number 5, .number 10, .number 20]) =
        .ok (⟨true, ⟨true, 1⟩, "", 0⟩,
          ⟨[.number 5, .number 10, .number 20], ⟨[(1, .number 20)], [], 1⟩, Heap.empty⟩) ∧
      LuaObjRef.getAs_int ⟨true, ⟨true, 1⟩, "", 0⟩
          ⟨[.number 5], ⟨[(1, .number 20)], [], 1⟩, Heap.empty⟩ =
        .ok (20, ⟨[.number 5], ⟨[(1, .number 20)], [], 1⟩, Heap.empty⟩) ∧
      LuaObjRef.getAs_int ⟨true, ⟨true, 1⟩, "", 0⟩
          ⟨[.number 5], ⟨[(1, .number (2 ^ 31))], [], 1⟩, Heap.empty⟩ =
        .ok (-2 ^ 31, ⟨[.number 5], ⟨[(1, .number (2 ^ 31))], [], 1⟩, Heap.empty⟩) ∧
      ∃ item h s2 s3, LuaTempResult.getItem ⟨true, 0, 1, 2⟩ 2 = .ok item ∧
        LuaObjRef.ctorItem item (stateWithStack [.number 5, .number 10, .number 20]) =
          .ok (h, s2) ∧
        h.isError = false ∧
        s2.stack = (stateWithStack [.number 5, .number 10, .number 20]).stack ∧
        LuaTempResult.dtor ⟨true, 0, 1, 2⟩ s2 = .ok s3 ∧
        s3.stack = (stateWithStack [.number 5, .number 10, .number 20]).stack.take 1 ∧
        lua_gettop s3 = ((1 : Nat) : Int) ∧
        h.pushObj s3 = .ok (pushValue s3 (.number 20)) ∧
        ∃ n, item.getAs_int (stateWithStack [.number 5, .number 10, .number 20]) = .ok n ∧
          h.getAs_int s3 = .ok (n, s3) ∧
          getObjFromStack_int true (-1) (pushValue s3 (.number 20)) = .ok n ∧
          ∀ m : Int, LuaValue.number 20 = .number m →
            n = toInt32 m ∧ (-2 ^ 31 ≤ m → m < 2 ^ 31 → n = m) :=
  ⟨rfl, rfl, rfl,
    LuaObjRef.promoted_item_outlives_result 1 0 ""
      (stateWithStack [.number 5, .number 10, .number 20])
      (stateWithStack [.number 5, .number 10, .number 20]) ⟨true, 0, 1, 2⟩ rfl rfl
      (by decide) 2 (.number 20) rfl⟩

/-! ## Metatable hooks and the function environment -/

/-- C21 (the code evaluated at the failing inputs): `hasMetaBase()` does not
compute "has a metatable whose `__index` field is not nil". For the table of
`stateWithMetatable`, whose metatable has no `__index` field, it returns
true. For the table of `exampleState`, which has no metatable, it does not
return false: the lookup is made on the slot below the object, here a number,
which is a runtime error outside any protected call; and with nothing below
the object the lookup addresses no slot at all. -/
theorem LuaObjRef.hasMetaBase_reads_wrong_slot :
    stateWithMetatable.heap.metatableOf (.table 1) = some 2 ∧
      stateWithMetatable.heap.metafield (.table 1) "__index" = LuaValue.nil ∧
      exampleHandle.hasMetaBase idleRuntime stateWithMetatable =
        .ok (true, stateWithMetatable) ∧
      exampleState.heap.metatableOf (.table 1) = none ∧
      exampleHandle.hasMetaBase idleRuntime exampleState = .error Fault.panic ∧
      exampleHandle.hasMetaBase idleRuntime
          ⟨[], exampleState.registry, exampleState.heap⟩ = .error Fault.undefined :=
  ⟨rfl, rfl, rfl, rfl, rfl, rfl⟩

/-- C22 (the code evaluated at the failing input): `setMetaMethod(MM_ADD,
func)` on a table that has no metatable returns, but the table it creates
(address 4, holding `__add = func`) is never attached: afterwards the object
still has no metatable, `hasMetaTable()` is false and the object has no
`__add` handler. -/
theorem LuaObjRef.setMetaMethod_drops_new_metatable :
    stateWithFunction.heap.metatableOf (.table 1) = none ∧
      ∃ s1, exampleHandle.setMetaMethod idleRuntime .MM_ADD exampleFunction
          stateWithFunction = .ok ((), s1) ∧
        s1.heap.metatableOf (.table 1) = none ∧
        s1.heap.metafield (.table 1) "__add" = LuaValue.nil ∧
        exampleHandle.hasMetaTable s1 = .ok (false, s1) ∧
        s1.heap.table? 4 = some ⟨[(.string "__add", .function 7)], none⟩ :=
  ⟨rfl, _, rfl, rfl, rfl, rfl, rfl⟩

/-- C24 (the code evaluated at the failing input): the function at address 7
is given the table at address 1 as environment with `setEnv`, which returns
true. `getEnv()` then returns an error-free pending result of two items: the
first is the function itself, the environment table is the second. The
handle constructed from the result therefore refers to the function, also
once the result is destroyed. -/
theorem LuaFuncRef.getEnv_first_item_is_function :
    ∃ s0 r s1 h s2 s3,
      LuaFuncRef.setEnv exampleFunction exampleHandle stateWithFunction = .ok (true, s0) ∧
      LuaFuncRef.getEnv exampleFunction s0 = .ok (r, s1) ∧
      r.isError = false ∧ r.getNumItems = 2 ∧
      stackValue s1 (r.getStackPos 1) = .ok (.function 7) ∧
      stackValue s1 (r.getStackPos 2) = .ok (.table 1) ∧
      LuaObjRef.ctorResult r s1 = .ok (h, s2) ∧ r.dtor s2 = .ok s3 ∧
      h.pushObj s3 = .ok (pushValue s3 (.function 7)) :=
  ⟨_, _, _, _, _, _, rfl, rfl, rfl, rfl, rfl, rfl, rfl, rfl, rfl⟩

/-! ## Invalid items and `setNil` -/

/-- C29: an item constructed by `Item(lua, position, errCode)` (which asserts
the connection) that is invalid, its error code being set or its position
being `LUA_UNACCEPTABLE_STACK_POS`, behaves as nil in every state of the
runtime, whatever the stack holds and however deep it is: `isNil()` is true,
`getTypeID()` is the nil type tag, `getAs<int>()` is 0, `getAs<std::string>()`
is the empty string, and `push()` and `pushValToStack(lua, item)` return the
state with exactly one nil added on top of the stack. -/
theorem LuaTempResult.Item.invalid_item_behaves_as_nil (rt : Runtime) (lua : Bool)
    (pos e : Int) (it : LuaTempResult.Item) (s : lua_State)
    (hc : LuaTempResult.Item.ctor lua pos e = .ok it) (hinv : it.isInvalid = true) :
    it.isNil s = .ok true ∧ it.getTypeID s = .ok LUA_TNIL ∧
      it.getAs_int s = .ok 0 ∧ it.getAs_string s = .ok ("", s) ∧
      it.push s = .ok { s with stack := s.stack ++ [LuaValue.nil] } ∧
      pushValToStack rt it.mLua (.item it) s =
        .ok { s with stack := s.stack ++ [LuaValue.nil] } := by
  cases lua with
  | false => simp [LuaTempResult.Item.ctor, cassert, bind, Except.bind] at hc
  | true =>
    simp only [LuaTempResult.Item.ctor, cassert, if_true, bind, Except.bind, pure,
      Except.pure, Except.ok.injEq] at hc
    subst hc
    have hpos : (if (e != 0) = true then LUA_UNACCEPTABLE_STACK_POS else pos) = 0 := by
      by_cases he : (e != 0) = true
      · simp [he, LUA_UNACCEPTABLE_STACK_POS]
      · simp only [LuaTempResult.Item.isInvalid, he, Bool.false_or, beq_iff_eq,
          LUA_UNACCEPTABLE_STACK_POS] at hinv
        simp [he, hinv]
    refine ⟨?_, ?_, ?_, ?_, ?_, ?_⟩
    · simp only [LuaTempResult.Item.isNil, hinv, if_true]
      rfl
    · simp only [LuaTempResult.Item.getTypeID, hinv, if_true]
      rfl
    · simp only [LuaTempResult.Item.getAs_int, hpos]
      rfl
    · simp only [LuaTempResult.Item.getAs_string, hpos]
      rfl
    · simp only [LuaTempResult.Item.push, hinv, if_true]
      rfl
    · simp only [pushValToStack, LuaTempResult.Item.push, hinv, if_true]
      by_cases he : (e != 0) = true
      · simp only [he, if_true]
        rfl
      · simp only [he]
        rfl

/-- Witness for C29: item 5 of a result of two values is out of range, so
its position is `LUA_UNACCEPTABLE_STACK_POS`. -/
theorem LuaTempResult.Item.invalid_item_behaves_as_nil_witness :
    ∃ it, LuaTempResult.getItem ⟨true, 0, 1, 2⟩ 5 = .ok it ∧ it.isInvalid = true ∧
      it.isNil (stateWithStack [.number 5, .number 10, .number 20]) = .ok true ∧
      it.getAs_int (stateWithStack [.number 5, .number 10, .number 20]) = .ok 0 ∧
      it.push (stateWithStack [.number 5, .number 10, .number 20]) =
        .ok (stateWithStack [.number 5, .number 10, .number 20, .nil]) :=
  ⟨⟨true, 0, 0⟩, rfl, rfl,
    (LuaTempResult.Item.invalid_item_behaves_as_nil idleRuntime true 0 0 ⟨true, 0, 0⟩
      (stateWithStack [.number 5, .number 10, .number 20]) rfl rfl).1,
    (LuaTempResult.Item.invalid_item_behaves_as_nil idleRuntime true 0 0 ⟨true, 0, 0⟩
      (stateWithStack [.number 5, .number 10, .number 20]) rfl rfl).2.2.1,
    (LuaTempResult.Item.invalid_item_behaves_as_nil idleRuntime true 0 0 ⟨true, 0, 0⟩
      (stateWithStack [.number 5, .number 10, .number 20]) rfl rfl).2.2.2.2.1⟩

/-- C30 (as stated, refuted): on the default-constructed handle, which has
no connection, `setNil()` fails the assertion `assert(mLua)` of
`LuaRegRef::setNil`, in every state of the runtime. -/
theorem LuaObjRef.setNil_asserts_without_connection :
    ∃ h, LuaObjRef.ctorNil "nil" = .ok h ∧
      ∀ s, h.setNil s = .error Fault.assertion :=
  ⟨⟨false, ⟨false, LUA_NOREF⟩, "nil", LUA_NO_LUA⟩, rfl, fun _ => rfl⟩

/-- C30 (amended): `setNil()` on an object handle whose registry reference
has a connection (Bound-Valid or Bound-Error) returns without violating an
assertion, leaves the error code (and so `isError()`) unchanged, makes
`isNil()` true and leaves stack and heap as they were; a handle that owns no
slot (negative key) leaves the state unchanged, a handle that owns a slot of a
consistent registry releases it (one slot less outstanding, the key no longer
live, the registry still consistent), and a later destruction of the handle
releases nothing more. On a handle whose registry reference has no
connection, as after default construction, `setNil()` fails the assertion of
`LuaRegRef::setNil`. -/
theorem LuaObjRef.setNil_with_connection (h : LuaObjRef) (s : lua_State) :
    (h.mRegKey.mLua = true →
      ∃ h' s1, h.setNil s = .ok (h', s1) ∧ h'.isNil = true ∧ h'.mErrCode = h.mErrCode ∧
        h'.isError = h.isError ∧ s1.stack = s.stack ∧ s1.heap = s.heap ∧
        (h.mRegKey.mRegKey < 0 → s1 = s) ∧
        (s.registry.WF → h.mRegKey.mRegKey ∈ s.registry.keys →
          s1.registry.outstanding + 1 = s.registry.outstanding ∧
          h.mRegKey.mRegKey ∉ s1.registry.keys ∧ s1.registry.WF) ∧
        h'.dtor s1 = s1) ∧
    (h.mRegKey.mLua = false → h.setNil s = .error Fault.assertion) := by
  obtain ⟨lua, ⟨rl, k⟩, id, e⟩ := h
  constructor
  · intro hlive
    simp only at hlive
    subst hlive
    refine ⟨⟨lua, ⟨true, LUA_REFNIL⟩, id, e⟩, luaL_unref s LUA_REGISTRYINDEX k, ?_, ?_, rfl,
      rfl, ?_, ?_, ?_, ?_, ?_⟩
    · simp [LuaObjRef.setNil, LuaRegRef.setNil, cassert, bind, Except.bind, pure,
        Except.pure]
    · simp [LuaObjRef.isNil, LuaRegRef.isNil]
    · simp only [luaL_unref]
      split <;> rfl
    · simp only [luaL_unref]
      split <;> rfl
    · intro hk
      exact luaL_unref_negative s k hk
    · intro hwf hk
      have hk0 : 0 ≤ k := by
        have := (hwf.2.2.2.2 k hk).1
        omega
      rw [luaL_unref_eq s k hk0]
      refine ⟨?_, ?_, Registry.WF_release s.registry k hwf hk⟩
      · exact Registry.length_filter_key s.registry.slots k hwf.1 hk
      · intro hm
        exact ((Registry.mem_keys_filter s.registry.slots k k).mp hm).2 rfl
    · simp [LuaObjRef.dtor, LuaRegRef.dtor, luaL_unref, LUA_REFNIL]
  · intro hdead
    simp only at hdead
    subst hdead
    simp [LuaObjRef.setNil, LuaRegRef.setNil, cassert, bind, Except.bind]

/-- Witness for C30: a handle in the error state and an error-free handle,
both owning key 1 on the number 7, are set to nil; the slot is released and
the error code is kept. -/
theorem LuaObjRef.setNil_with_connection_witness :
    LuaObjRef.setNil ⟨true, ⟨true, 1⟩, "", LUA_ERR_RUN⟩ stateWithOneRef =
        .ok (⟨true, ⟨true, LUA_REFNIL⟩, "", LUA_ERR_RUN⟩,
          ⟨[.number 7], ⟨[], [1], 1⟩, Heap.empty⟩) ∧
      ∃ h' s1, LuaObjRef.setNil ⟨true, ⟨true, 1⟩, "", LUA_ERR_NONE⟩ stateWithOneRef =
          .ok (h', s1) ∧ h'.isNil = true ∧ h'.mErrCode = LUA_ERR_NONE ∧
        s1.registry.outstanding + 1 = stateWithOneRef.registry.outstanding :=
  ⟨rfl, ((LuaObjRef.setNil_with_connection ⟨true, ⟨true, 1⟩, "", LUA_ERR_NONE⟩
      stateWithOneRef).1 rfl).elim
    fun h' hh => hh.elim fun s1 hs =>
      ⟨h', s1, hs.1, hs.2.1, hs.2.2.1, (hs.2.2.2.2.2.2.2.1 (by decide) (by decide)).1⟩⟩

/-! ## Table fields -/

theorem stackValue_neg1 (st : List LuaValue) (v : LuaValue) (rg : Registry) (hp : Heap) :
    stackValue ⟨st ++ [v], rg, hp⟩ (-1) = .ok v := by
  rw [stackValue_eq_ok_iff]
  exact index2adr_neg1 st v rg hp

theorem index2adr_neg2 (st : List LuaValue) (a b : LuaValue) (rg : Registry) (hp : Heap) :
    index2adr ⟨st ++ [a, b], rg, hp⟩ (-2) = some (some a) := by
  simp [index2adr]

theorem stackValue_neg2 (st : List LuaValue) (a b : LuaValue) (rg : Registry) (hp : Heap) :
    stackValue ⟨st ++ [a, b], rg, hp⟩ (-2) = .ok a := by
  rw [stackValue_eq_ok_iff]
  exact index2adr_neg2 st a b rg hp

theorem index2adr_above (st rest : List LuaValue) (v : LuaValue) (rg : Registry) (hp : Heap) :
    index2adr ⟨st ++ v :: rest, rg, hp⟩ ((st.length : Int) + 1) = some (some v) := by
  have h : (st.length : Int) + 1 > 0 := by omega
  have hg : (st ++ v :: rest)[st.length]? = some v := by
    rw [List.getElem?_append_right (le_refl _)]
    simp
  simp [index2adr, h, hg]

theorem lua_isnil_neg1 (st : List LuaValue) (v : LuaValue) (rg : Registry) (hp : Heap) :
    lua_isnil ⟨st ++ [v], rg, hp⟩ (-1) = .ok (v.typeTag == LUA_TNIL) := by
  simp only [lua_isnil, lua_type, index2adr_neg1]
  rfl

theorem LuaValue.typeTag_nil_iff (v : LuaValue) :
    (v.typeTag == LUA_TNIL) = true ↔ v = LuaValue.nil := by
  cases v <;> simp [LuaValue.typeTag, LUA_TNIL, LUA_TBOOLEAN, LUA_TNUMBER, LUA_TSTRING,
    LUA_TTABLE, LUA_TFUNCTION, LUA_TUSERDATA]

theorem Heap.table?_setTable (h : Heap) (id : Nat) (t : LuaTable) :
    (h.setTable id t).table? id = some t := by
  simp [Heap.table?, Heap.setTable]

theorem List.find?_filter_ne {α β : Type} [DecidableEq α] (l : List (α × β)) (k k' : α)
    (hne : k' ≠ k) :
    (l.filter (fun p => decide (p.1 ≠ k))).find? (fun p => p.1 == k') =
      l.find? (fun p => p.1 == k') := by
  induction l with
  | nil => rfl
  | cons q rest ih =>
    by_cases e : q.1 = k
    · have e' : ¬ q.1 = k' := fun c => hne (c ▸ e)
      have e2 : (q.1 == k') = false := by simpa using e'
      rw [List.filter_cons_of_neg (by simpa using e), List.find?_cons, e2, ih]
    · rw [List.filter_cons_of_pos (by simpa using e), List.find?_cons, List.find?_cons, ih]

theorem List.find?_filter_self {α β : Type} [DecidableEq α] (l : List (α × β)) (k : α) :
    (l.filter (fun p => decide (p.1 ≠ k))).find? (fun p => p.1 == k) = none := by
  simp [List.find?_eq_none]

theorem LuaTable.rawget_rawset_self (t : LuaTable) (k v : LuaValue) :
    (t.rawset k v).rawget k = v := by
  by_cases hv : v = LuaValue.nil
  · subst hv
    simp only [LuaTable.rawget, LuaTable.rawset, if_true, ne_eq]
    rw [List.find?_filter_self]
    rfl
  · simp [LuaTable.rawget, LuaTable.rawset, hv]

theorem LuaTable.rawget_rawset_other (t : LuaTable) (k k' v : LuaValue) (hne : k' ≠ k) :
    (t.rawset k v).rawget k' = t.rawget k' := by
  have hne' : ¬ k = k' := fun c => hne c.symm
  by_cases hv : v = LuaValue.nil
  · simp only [LuaTable.rawget, LuaTable.rawset, hv, if_true, ne_eq]
    rw [List.find?_filter_ne _ _ _ hne]
  · simp only [LuaTable.rawget, LuaTable.rawset, hv, if_false, ne_eq]
    rw [List.find?_cons_of_neg _ (by simpa using hne'), List.find?_filter_ne _ _ _ hne]

theorem Heap.metafield_no_metatable (h : Heap) (id : Nat) (t : LuaTable) (ev : String)
    (ht : h.table? id = some t) (hm : t.metatable = none) :
    h.metafield (.table id) ev = LuaValue.nil := by
  simp [Heap.metafield, Heap.metatableOf, ht, hm]

theorem luaV_gettable_raw (rt : Runtime) (n : Nat) (h : Heap) (id : Nat) (t : LuaTable)
    (key : LuaValue) (ht : h.table? id = some t) (hm : t.metatable = none) :
    luaV_gettable rt (n + 1) h (.table id) key = .ok (t.rawget key, h) := by
  simp only [luaV_gettable, ht, Heap.metafield_no_metatable h id t "__index" ht hm]
  by_cases e : t.rawget key = LuaValue.nil
  · simp [e]
  · simp [e]

theorem luaV_settable_raw (rt : Runtime) (n : Nat) (h : Heap) (id : Nat) (t : LuaTable)
    (key val : LuaValue) (ht : h.table? id = some t) (hm : t.metatable = none)
    (hk : key ≠ LuaValue.nil) :
    luaV_settable rt (n + 1) h (.table id) key val =
      .ok (h.setTable id (t.rawset key val)) := by
  simp [luaV_settable, ht, Heap.metafield_no_metatable h id t "__newindex" ht hm, hk]

theorem LuaObjRef.pushObj_eval (self : LuaObjRef) (st : List LuaValue) (rg : Registry)
    (hp : Heap) (h2 : self.mRegKey.mLua = true) (h3 : self.mErrCode = 0) :
    self.pushObj ⟨st, rg, hp⟩ = .ok ⟨st ++ [rg.lookup self.mRegKey.mRegKey], rg, hp⟩ := by
  simp [LuaObjRef.pushObj, h3, LuaRegRef.pushObj_eq _ _ h2, pushValue]

theorem lua_getfield_raw (rt : Runtime) (st : List LuaValue) (rg : Registry) (hp : Heap)
    (id : Nat) (t : LuaTable) (k : String) (ht : hp.table? id = some t)
    (hm : t.metatable = none) :
    lua_getfield rt ⟨st ++ [.table id], rg, hp⟩ (-1) k =
      .ok ⟨st ++ [.table id, t.rawget (.string (c_str k))], rg, hp⟩ := by
  have hfuel : MAXTAGLOOP = 99 + 1 := rfl
  simp [lua_getfield, stackValue_neg1, hfuel, luaV_gettable_raw rt 99 hp id t _ ht hm, bind,
    Except.bind, pure, Except.pure]

theorem lua_setfield_raw (rt : Runtime) (st : List LuaValue) (rg : Registry) (hp : Heap)
    (id : Nat) (t : LuaTable) (k : String) (v : LuaValue) (ht : hp.table? id = some t)
    (hm : t.metatable = none) :
    lua_setfield rt ⟨st ++ [.table id, v], rg, hp⟩ (-2) k =
      .ok ⟨st ++ [.table id], rg, hp.setTable id (t.rawset (.string (c_str k)) v)⟩ := by
  have hfuel : MAXTAGLOOP = 99 + 1 := rfl
  have hl : (st ++ [LuaValue.table id, v]).getLast? = some v := by simp
  have hd : (st ++ [LuaValue.table id, v]).dropLast = st ++ [LuaValue.table id] := by
    rw [show st ++ [LuaValue.table id, v] = (st ++ [LuaValue.table id]) ++ [v] by simp]
    exact List.dropLast_concat
  simp only [lua_setfield, stackValue_neg2, hl, hfuel,
    luaV_settable_raw rt 99 hp id t (.string (c_str k)) v ht hm (by simp), hd, bind,
    Except.bind,
    pure, Except.pure]

theorem LuaTableRef.getField_raw (rt : Runtime) (self : LuaObjRef) (st : List LuaValue)
    (rg : Registry) (hp : Heap) (id : Nat) (t : LuaTable) (k : String)
    (h1 : self.mLua = true) (h2 : self.mRegKey.mLua = true) (h3 : self.mErrCode = 0)
    (hreg : rg.lookup self.mRegKey.mRegKey = .table id) (ht : hp.table? id = some t)
    (hm : t.metatable = none) :
    LuaTableRef.getField rt self (.text k) ⟨st, rg, hp⟩ =
      .ok (⟨true, 0, st.length, 1⟩, ⟨st ++ [t.rawget (.string (c_str k))], rg, hp⟩) := by
  have hrem : lua_remove ⟨st ++ [.table id, t.rawget (.string (c_str k))], rg, hp⟩ (-2) =
      .ok ⟨st ++ [t.rawget (.string (c_str k))], rg, hp⟩ := by
    simp only [lua_remove, stackSlot_neg2, List.eraseIdx_length_append_two, bind,
      Except.bind, pure, Except.pure]
  simp only [LuaTableRef.getField, LuaTableRef.pushFieldValue, deref, h1, if_true,
    LuaObjRef.pushObj_eval self st rg hp h2 h3, hreg, cassert, lua_checkstack,
    lua_getfield_raw rt st rg hp id t k ht hm, hrem, bind, Except.bind, pure, Except.pure]
  simp [LuaTempResult.ctor, lua_gettop, cassert, LUA_ERR_NONE, bind, Except.bind, pure,
    Except.pure]

theorem LuaTableRef.hasField_raw (rt : Runtime) (self : LuaObjRef) (st : List LuaValue)
    (rg : Registry) (hp : Heap) (id : Nat) (t : LuaTable) (k : String)
    (h1 : self.mLua = true) (h2 : self.mRegKey.mLua = true) (h3 : self.mErrCode = 0)
    (hreg : rg.lookup self.mRegKey.mRegKey = .table id) (ht : hp.table? id = some t)
    (hm : t.metatable = none) :
    LuaTableRef.hasField rt self (.text k) ⟨st, rg, hp⟩ =
      .ok (!((t.rawget (.string (c_str k))).typeTag == LUA_TNIL), ⟨st, rg, hp⟩) := by
  have hnil : lua_isnil ⟨st ++ [.table id, t.rawget (.string (c_str k))], rg, hp⟩ (-1) =
      .ok ((t.rawget (.string (c_str k))).typeTag == LUA_TNIL) := by
    rw [show st ++ [LuaValue.table id, t.rawget (.string (c_str k))] =
      (st ++ [LuaValue.table id]) ++ [t.rawget (.string (c_str k))] by simp]
    exact lua_isnil_neg1 _ _ _ _
  have hset : lua_settop ⟨st ++ [.table id, t.rawget (.string (c_str k))], rg, hp⟩ (st.length : Int) =
      .ok ⟨st, rg, hp⟩ := lua_settop_restore st _ rg hp
  simp [LuaTableRef.hasField, LuaTableRef.pushFieldValue, deref, h1,
    LuaStackCleaner.ctor, LuaStackCleaner.dtor, LuaStackCleaner.willPop,
    LuaObjRef.pushObj_eval self st rg hp h2 h3, hreg, cassert, lua_checkstack,
    lua_getfield_raw rt st rg hp id t k ht hm, hnil, hset, lua_gettop, bind, Except.bind, pure,
    Except.pure]

theorem LuaTableRef.setField_raw (rt : Runtime) (self : LuaObjRef) (st : List LuaValue)
    (rg : Registry) (hp : Heap) (id : Nat) (t : LuaTable) (k : String) (obj : HostValue)
    (v : LuaValue)
    (h1 : self.mLua = true) (h2 : self.mRegKey.mLua = true) (h3 : self.mErrCode = 0)
    (hreg : rg.lookup self.mRegKey.mRegKey = .table id) (ht : hp.table? id = some t)
    (hm : t.metatable = none)
    (hpush : pushValToStack rt true obj ⟨st ++ [.table id], rg, hp⟩ =
      .ok ⟨st ++ [.table id] ++ [v], rg, hp⟩) :
    LuaTableRef.setField rt self (.text k) obj ⟨st, rg, hp⟩ =
      .ok ((), ⟨st, rg, hp.setTable id (t.rawset (.string (c_str k)) v)⟩) := by
  have hset : lua_settop ⟨st ++ [.table id], rg, hp.setTable id (t.rawset (.string (c_str k)) v)⟩
      (st.length : Int) = .ok ⟨st, rg, hp.setTable id (t.rawset (.string (c_str k)) v)⟩ :=
    lua_settop_restore st _ rg _
  have happ : st ++ [LuaValue.table id] ++ [v] = st ++ [LuaValue.table id, v] := by simp
  rw [happ] at hpush
  simp [LuaTableRef.setField, h1, LuaStackCleaner.ctor, LuaStackCleaner.dtor,
    LuaStackCleaner.willPop, LuaObjRef.pushObj_eval self st rg hp h2 h3, hreg, cassert,
    hpush, lua_setfield_raw rt st rg hp id t k v ht hm, hset, lua_gettop, bind, Except.bind,
    pure, Except.pure]

theorem LuaTableRef.delField_raw (rt : Runtime) (self : LuaObjRef) (st : List LuaValue)
    (rg : Registry) (hp : Heap) (id : Nat) (t : LuaTable) (k : String)
    (h1 : self.mLua = true) (h2 : self.mRegKey.mLua = true) (h3 : self.mErrCode = 0)
    (hreg : rg.lookup self.mRegKey.mRegKey = .table id) (ht : hp.table? id = some t)
    (hm : t.metatable = none) :
    LuaTableRef.delField rt self (.text k) ⟨st, rg, hp⟩ =
      .ok ((), ⟨st, rg, hp.setTable id (t.rawset (.string (c_str k)) .nil)⟩) := by
  have hset : lua_settop ⟨st ++ [.table id], rg, hp.setTable id (t.rawset (.string (c_str k)) .nil)⟩
      (st.length : Int) = .ok ⟨st, rg, hp.setTable id (t.rawset (.string (c_str k)) .nil)⟩ :=
    lua_settop_restore st _ rg _
  simp [LuaTableRef.delField, h1, LuaStackCleaner.ctor, LuaStackCleaner.dtor,
    LuaStackCleaner.willPop, LuaObjRef.pushObj_eval self st rg hp h2 h3, hreg, cassert,
    lua_checkstack, lua_pushnil, pushValue,
    lua_setfield_raw rt st rg hp id t k .nil ht hm, hset, lua_gettop, bind, Except.bind,
    pure, Except.pure]

/-- C23 (as stated, refuted): the table of `stateWithTable` holds the field
`j = 1`. The key `j`, a NUL character, `x` is a string key other than `j`,
but `setField` with it writes the field `j`: `getField("j")` gives 1 before
and 42 after. The key is handed to the runtime as a C string, which ends
before its first NUL character. -/
theorem LuaTableRef.setField_cuts_key_at_nul :
    "j" ≠ "j\x00x" ∧
    LuaTableRef.getField idleRuntime exampleHandle (.text "j") stateWithTable =
      .ok (⟨true, 0, 1, 1⟩, { stateWithTable with stack := [.number 5, .number 1] }) ∧
    ∃ s1, LuaTableRef.setField idleRuntime exampleHandle (.text "j\x00x")
        (.arg (.key (.integer 42))) stateWithTable = .ok ((), s1) ∧
      s1.heap.table? 1 = some ⟨[(.string "j", .number 42)], none⟩ ∧
      LuaTableRef.getField idleRuntime exampleHandle (.text "j") s1 =
        .ok (⟨true, 0, 1, 1⟩, { s1 with stack := [.number 5, .number 42] }) :=
  ⟨by decide, rfl, _, rfl, rfl, rfl⟩

/-- C23 (amended): table field round trip. Let the handle refer, on a live
connection and with no error code, to a table that has no metatable, let `k`
be a string key and `obj` a host value whose push puts the non-nil value `v`
on the stack and changes nothing else. Then `setField(k, obj)` returns and
leaves the stack as it was; after it `getField(k)` is an error-free pending
result with exactly one item, whose slot holds `v`, and `hasField(k)` is
true; `delField(k)` returns, leaves the stack as it was, and after it
`hasField(k)` is false. A string key names the field of its C string (its
text before the first NUL character): the raw field under every other key
value, of any type, is the same after `setField` and after `delField` as
before, and `getField` of every string key whose C string differs from that
of `k` gives the same result and the same pushed value in the three
states. -/
theorem LuaTableRef.field_round_trip (rt : Runtime) (self : LuaObjRef) (s : lua_State)
    (id : Nat) (t : LuaTable) (k : String) (obj : HostValue) (v : LuaValue)
    (h1 : self.mLua = true) (h2 : self.mRegKey.mLua = true) (h3 : self.mErrCode = 0)
    (hreg : s.registry.lookup self.mRegKey.mRegKey = .table id)
    (ht : s.heap.table? id = some t) (hm : t.metatable = none) (hv : v ≠ LuaValue.nil)
    (hpush : ∀ st, pushValToStack rt true obj ⟨st, s.registry, s.heap⟩ =
      .ok ⟨st ++ [v], s.registry, s.heap⟩) :
    ∃ s1 r s2 s3,
      LuaTableRef.setField rt self (.text k) obj s = .ok ((), s1) ∧ s1.stack = s.stack ∧
      LuaTableRef.getField rt self (.text k) s1 = .ok (r, s2) ∧
      r.isError = false ∧ r.getNumItems = 1 ∧ stackValue s2 (r.getStackPos 1) = .ok v ∧
      LuaTableRef.hasField rt self (.text k) s1 = .ok (true, s1) ∧
      LuaTableRef.delField rt self (.text k) s1 = .ok ((), s3) ∧ s3.stack = s.stack ∧
      LuaTableRef.hasField rt self (.text k) s3 = .ok (false, s3) ∧
      (∀ kv : LuaValue, kv ≠ .string (c_str k) →
        ∃ t1 t3, s1.heap.table? id = some t1 ∧ s3.heap.table? id = some t3 ∧
          t1.rawget kv = t.rawget kv ∧ t3.rawget kv = t.rawget kv) ∧
      (∀ k' : String, c_str k' ≠ c_str k →
        ∃ r', LuaTableRef.getField rt self (.text k') s =
            .ok (r', pushValue s (t.rawget (.string (c_str k')))) ∧
          LuaTableRef.getField rt self (.text k') s1 =
            .ok (r', pushValue s1 (t.rawget (.string (c_str k')))) ∧
          LuaTableRef.getField rt self (.text k') s3 =
            .ok (r', pushValue s3 (t.rawget (.string (c_str k'))))) := by
  obtain ⟨st, rg, hp⟩ := s
  simp only at hreg ht hpush
  have hm1 : (t.rawset (.string (c_str k)) v).metatable = none := hm
  have ht1 := Heap.table?_setTable hp id (t.rawset (.string (c_str k)) v)
  have hm3 : ((t.rawset (.string (c_str k)) v).rawset (.string (c_str k)) .nil).metatable = none := hm
  have ht3 := Heap.table?_setTable (hp.setTable id (t.rawset (.string (c_str k)) v)) id
    ((t.rawset (.string (c_str k)) v).rawset (.string (c_str k)) .nil)
  have hget1 : (t.rawset (.string (c_str k)) v).rawget (.string (c_str k)) = v :=
    LuaTable.rawget_rawset_self _ _ _
  have hget3 : ((t.rawset (.string (c_str k)) v).rawset (.string (c_str k)) .nil).rawget (.string (c_str k)) =
      LuaValue.nil := LuaTable.rawget_rawset_self _ _ _
  have hother : ∀ kv : LuaValue, kv ≠ .string (c_str k) →
      (t.rawset (.string (c_str k)) v).rawget kv = t.rawget kv ∧
      ((t.rawset (.string (c_str k)) v).rawset (.string (c_str k)) .nil).rawget kv = t.rawget kv := by
    intro kv hne
    have a := LuaTable.rawget_rawset_other t (.string (c_str k)) kv v hne
    exact ⟨a, (LuaTable.rawget_rawset_other _ (.string (c_str k)) kv .nil hne).trans a⟩
  have hvtag : (v.typeTag == LUA_TNIL) = false := by
    cases hb : (v.typeTag == LUA_TNIL) with
    | false => rfl
    | true => exact absurd ((LuaValue.typeTag_nil_iff v).mp hb) hv
  refine ⟨⟨st, rg, hp.setTable id (t.rawset (.string (c_str k)) v)⟩, ⟨true, 0, st.length, 1⟩,
    ⟨st ++ [v], rg, hp.setTable id (t.rawset (.string (c_str k)) v)⟩,
    ⟨st, rg, (hp.setTable id (t.rawset (.string (c_str k)) v)).setTable id
      ((t.rawset (.string (c_str k)) v).rawset (.string (c_str k)) .nil)⟩, ?_, rfl, ?_, rfl, rfl, ?_, ?_, ?_,
    rfl, ?_, ?_, ?_⟩
  · exact LuaTableRef.setField_raw rt self st rg hp id t k obj v h1 h2 h3 hreg ht hm
      (hpush _)
  · rw [LuaTableRef.getField_raw rt self st rg _ id _ k h1 h2 h3 hreg ht1 hm1, hget1]
  · rw [stackValue_eq_ok_iff]
    have hp1 : LuaTempResult.getStackPos ⟨true, 0, st.length, 1⟩ 1 = (st.length : Int) + 1 := by
      simp [LuaTempResult.getStackPos, LuaTempResult.FIRST_ITEM_INDEX]
    rw [hp1]
    exact index2adr_above st [] v rg _
  · rw [LuaTableRef.hasField_raw rt self st rg _ id _ k h1 h2 h3 hreg ht1 hm1, hget1, hvtag]
    rfl
  · exact LuaTableRef.delField_raw rt self st rg _ id _ k h1 h2 h3 hreg ht1 hm1
  · rw [LuaTableRef.hasField_raw rt self st rg _ id _ k h1 h2 h3 hreg ht3 hm3, hget3]
    rfl
  · intro kv hne
    exact ⟨_, _, ht1, ht3, (hother kv hne).1, (hother kv hne).2⟩
  · intro k' hne
    have hne' : LuaValue.string (c_str k') ≠ LuaValue.string (c_str k) :=
      fun c => hne (LuaValue.string.inj c)
    refine ⟨⟨true, 0, st.length, 1⟩, ?_, ?_, ?_⟩
    · rw [LuaTableRef.getField_raw rt self st rg _ id _ k' h1 h2 h3 hreg ht hm]
      rfl
    · rw [LuaTableRef.getField_raw rt self st rg _ id _ k' h1 h2 h3 hreg ht1 hm1,
        (hother _ hne').1]
      rfl
    · rw [LuaTableRef.getField_raw rt self st rg _ id _ k' h1 h2 h3 hreg ht3 hm3,
        (hother _ hne').2]
      rfl

/-- Witness for C23: `k = "k"`, `v = 42` on the table of `stateWithTable`,
which holds the field `j = 1`. -/
theorem LuaTableRef.field_round_trip_witness :
    LuaTableRef.setField idleRuntime exampleHandle (.text "k")
        (.arg (.key (.integer 42))) stateWithTable =
      .ok ((), ⟨[.number 5], ⟨[(1, .table 1)], [], 1⟩,
        ⟨[(1, ⟨[(.string "k", .number 42), (.string "j", .number 1)], none⟩)],
          [], [], []⟩⟩) ∧
    ∃ s1 r s2 s3,
      LuaTableRef.setField idleRuntime exampleHandle (.text "k")
        (.arg (.key (.integer 42))) stateWithTable = .ok ((), s1) ∧
      LuaTableRef.getField idleRuntime exampleHandle (.text "k") s1 = .ok (r, s2) ∧
      r.isError = false ∧ r.getNumItems = 1 ∧
      stackValue s2 (r.getStackPos 1) = .ok (.number 42) ∧
      LuaTableRef.hasField idleRuntime exampleHandle (.text "k") s1 = .ok (true, s1) ∧
      LuaTableRef.delField idleRuntime exampleHandle (.text "k") s1 = .ok ((), s3) ∧
      LuaTableRef.hasField idleRuntime exampleHandle (.text "k") s3 = .ok (false, s3) :=
  ⟨rfl, (LuaTableRef.field_round_trip idleRuntime exampleHandle stateWithTable 1
      ⟨[(.string "j", .number 1)], none⟩ "k" (.arg (.key (.integer 42))) (.number 42)
      rfl rfl rfl rfl rfl rfl (by decide) (fun _ => rfl)).elim
    fun s1 h => h.elim fun r h => h.elim fun s2 h => h.elim fun s3 h =>
      ⟨s1, r, s2, s3, h.1, h.2.2.1, h.2.2.2.1, h.2.2.2.2.1, h.2.2.2.2.2.1,
        h.2.2.2.2.2.2.1, h.2.2.2.2.2.2.2.1, h.2.2.2.2.2.2.2.2.2.1⟩⟩

/-! ## Function calls -/

theorem LuaFuncCallParams.appendAll_values (rt : Runtime) (rg : Registry) (hp : Heap)
    (args : List CallArg) (vals : List LuaValue)
    (hargs : List.Forall₂ (PushesValue rt rg hp) args vals) :
    ∀ (fid : String) (pre n : Int) (st : List LuaValue),
      LuaFuncCallParams.appendAll rt ⟨true, fid, pre, n⟩ args ⟨st, rg, hp⟩ =
        .ok (⟨true, fid, pre, n + args.length⟩, ⟨st ++ vals, rg, hp⟩) := by
  induction hargs with
  | nil =>
    intro fid pre n st
    simp [LuaFuncCallParams.appendAll, pure, Except.pure]
  | @cons a v args vals ha _ ih =>
    intro fid pre n st
    simp only [LuaFuncCallParams.appendAll, LuaFuncCallParams.append, ha st, bind,
      Except.bind, pure, Except.pure]
    rw [ih]
    simp only [List.length_cons, Nat.cast_add, Nat.cast_one, List.append_assoc,
      List.singleton_append]
    congr 3
    omega

theorem lua_pcall_eval (rt : Runtime) (st : List LuaValue) (rg : Registry) (hp : Heap)
    (f : LuaValue) (args : List LuaValue) :
    lua_pcall rt ⟨st ++ f :: args, rg, hp⟩ args.length LUA_MULTRET 0 =
      match rt.call hp f args with
      | (.returned vals, h) => .ok (0, ⟨st ++ vals, rg, h⟩)
      | (.raised kind err, h) => .ok (kind.code, ⟨st ++ [err], rg, h⟩) := by
  have h1 : ¬ ((args.length : Int) < 0 ∨
      (((st ++ f :: args).length : Nat) : Int) < (args.length : Int) + 1) := by
    simp only [List.length_append, List.length_cons]
    push_cast
    omega
  have hb : (st ++ f :: args).length - ((args.length : Int).toNat + 1) = st.length := by
    simp only [List.length_append, List.length_cons, Int.toNat_ofNat]
    omega
  simp only [lua_pcall, h1, if_false, hb, List.drop_left, List.take_left]

theorem CallError.code_ne_zero (kind : CallError) : (kind.code != 0) = true := by
  cases kind <;> rfl

theorem LuaTempResult.ctor_returned (st rs : List LuaValue) (rg : Registry) (hp : Heap)
    (p : String) :
    LuaTempResult.ctor true st.length 0 p ⟨st ++ rs, rg, hp⟩ =
      .ok (⟨true, 0, st.length, rs.length⟩, ⟨st ++ rs, rg, hp⟩) := by
  simp [LuaTempResult.ctor, lua_gettop, cassert, LUA_ERR_NONE, bind, Except.bind, pure,
    Except.pure]

theorem lua_tostring_top (st : List LuaValue) (v : LuaValue) (rg : Registry) (hp : Heap) :
    ∃ w, lua_tostring ⟨st ++ [v], rg, hp⟩ ((st.length : Int) + 1) =
      .ok (v.cText, ⟨st ++ [w], rg, hp⟩) := by
  have hslot : stackSlot ⟨st ++ [v], rg, hp⟩ ((st.length : Int) + 1) = .ok st.length := by
    have h : (0 : Int) < (st.length : Int) + 1 := by omega
    simp [stackSlot, h]
  cases v with
  | number n =>
    exact ⟨.string (toString n), by
      simp only [lua_tostring, index2adr_top, hslot, bind, Except.bind, pure, Except.pure,
        List.set_length_append_one, LuaValue.cText]⟩
  | nil => exact ⟨.nil, by simp only [lua_tostring, index2adr_top, LuaValue.cText]⟩
  | boolean b => exact ⟨.boolean b, by simp only [lua_tostring, index2adr_top, LuaValue.cText]⟩
  | string str => exact ⟨.string str, by simp only [lua_tostring, index2adr_top, LuaValue.cText]⟩
  | table id => exact ⟨.table id, by simp only [lua_tostring, index2adr_top, LuaValue.cText]⟩
  | function id => exact ⟨.function id, by simp only [lua_tostring, index2adr_top, LuaValue.cText]⟩
  | userdata id => exact ⟨.userdata id, by simp only [lua_tostring, index2adr_top, LuaValue.cText]⟩

theorem LuaTempResult.ctor_raised (st : List LuaValue) (rg : Registry) (hp : Heap)
    (p t : String) (v : LuaValue) (e : Int) (he : (e != 0) = true)
    (hv : v.cText = some t) :
    LuaTempResult.ctor true st.length e p ⟨st ++ [v], rg, hp⟩ =
      .ok (⟨true, e, st.length, 1⟩, ⟨st ++ [.string (c_str (p ++ ": " ++ t))], rg, hp⟩) := by
  obtain ⟨w, htop⟩ := lua_tostring_top st v rg hp
  rw [hv] at htop
  have hrep : lua_replace ⟨st ++ [w, .string (c_str (p ++ ": " ++ t))], rg, hp⟩
      ((st.length : Int) + 1) = .ok ⟨st ++ [.string (c_str (p ++ ": " ++ t))], rg, hp⟩ :=
    lua_replace_top st _ _ rg hp
  simp [LuaTempResult.ctor, lua_gettop, cassert, LUA_ERR_NONE, he, htop, lua_checkstack,
    lua_pushstring, pushValue, hrep, bind, Except.bind, pure, Except.pure]

theorem LuaTempResult.ctor_raised_no_text (st : List LuaValue) (rg : Registry) (hp : Heap)
    (p : String) (v : LuaValue) (e : Int) (he : (e != 0) = true) (hv : v.cText = none) :
    LuaTempResult.ctor true st.length e p ⟨st ++ [v], rg, hp⟩ = .error Fault.undefined := by
  obtain ⟨w, htop⟩ := lua_tostring_top st v rg hp
  rw [hv] at htop
  simp [LuaTempResult.ctor, lua_gettop, cassert, LUA_ERR_NONE, he, htop, bind, Except.bind,
    pure, Except.pure, throw, throwThe, MonadExceptOf.throw]

theorem LuaFuncCallParams.doCall_eval (rt : Runtime) (st : List LuaValue) (rg : Registry)
    (hp : Heap) (f : LuaValue) (args : List LuaValue) (fid : String) :
    LuaFuncCallParams.doCall rt ⟨true, fid, st.length, args.length⟩
        ⟨st ++ f :: args, rg, hp⟩ =
      match rt.call hp f args with
      | (.returned vals, h) =>
        LuaTempResult.ctor true st.length 0 ("Function call " ++ fid ++ "()")
          ⟨st ++ vals, rg, h⟩
      | (.raised kind err, h) =>
        LuaTempResult.ctor true st.length kind.code ("Function call " ++ fid ++ "()")
          ⟨st ++ [err], rg, h⟩ := by
  simp only [LuaFuncCallParams.doCall, cassert, if_true, lua_pcall_eval, bind, Except.bind]
  rcases hc : rt.call hp f args with ⟨out, h⟩
  cases out <;> rfl

theorem LuaFuncRef.prepCall_eval (self : LuaObjRef) (st : List LuaValue) (rg : Registry)
    (hp : Heap) (h1 : self.mLua = true) (h2 : self.mRegKey.mLua = true)
    (h3 : self.mErrCode = 0) :
    LuaFuncRef.prepCall self ⟨st, rg, hp⟩ =
      .ok (⟨true, if self.getID.isEmpty then "<anonymous>" else self.getID, st.length, 0⟩,
        ⟨st ++ [rg.lookup self.mRegKey.mRegKey], rg, hp⟩) := by
  simp [LuaFuncRef.prepCall, LuaObjRef.pushObj_eval self st rg hp h2 h3, h1,
    LuaFuncCallParams.ctor, lua_gettop, bind, Except.bind, pure, Except.pure]

theorem LuaFuncRef.call_eval (rt : Runtime) (self : LuaObjRef) (st : List LuaValue)
    (rg : Registry) (hp : Heap) (args : List CallArg) (vals : List LuaValue)
    (h1 : self.mLua = true) (h2 : self.mRegKey.mLua = true) (h3 : self.mErrCode = 0)
    (hargs : List.Forall₂ (PushesValue rt rg hp) args vals) :
    LuaFuncRef.call rt self args ⟨st, rg, hp⟩ =
      LuaFuncCallParams.doCall rt
        ⟨true, if self.getID.isEmpty then "<anonymous>" else self.getID, st.length,
          vals.length⟩
        ⟨st ++ rg.lookup self.mRegKey.mRegKey :: vals, rg, hp⟩ := by
  simp only [LuaFuncRef.call, LuaFuncRef.prepCall_eval self st rg hp h1 h2 h3,
    LuaFuncCallParams.appendAll_values rt rg hp args vals hargs, bind, Except.bind,
    hargs.length_eq, zero_add, List.append_assoc, List.singleton_append]

theorem String.call_message (fid m : String) :
    "Function call " ++ fid ++ "()" ++ ": " ++ m = "Function call " ++ fid ++ "(): " ++ m := by
  rw [String.append_assoc ("Function call " ++ fid) "()" ": "]
  rfl

theorem index2adr_result (st rs : List LuaValue) (rg : Registry) (hp : Heap) (i : Nat)
    (hi : i < rs.length) :
    index2adr ⟨st ++ rs, rg, hp⟩ ((st.length : Int) + ((i : Int) + 1)) =
      some (some (rs.get ⟨i, hi⟩)) := by
  have h : (st.length : Int) + ((i : Int) + 1) > 0 := by omega
  have ht : ((st.length : Int) + ((i : Int) + 1) - 1).toNat = st.length + i := by omega
  have hg : (st ++ rs)[st.length + i]? = some (rs.get ⟨i, hi⟩) := by
    rw [List.getElem?_append_right (by omega)]
    simp [hi]
  simp only [index2adr, h, if_true, ht, hg]

/-- Function invocation wraps the outcome, for error values that have a
text. Let `f` be a function handle on a live connection with no error code,
called with arguments whose pushes put the values `vals` on the stack, in
order, and change nothing else. What `call` hands to the protected call is
the stack as it was with the function and then the argument values on top,
with argument count the number of arguments and the depth before the call
recorded. If the runtime, run on the function and these values, returns the
values `rs`, the call returns a pending result with `ok()` true and
`getNumItems()` the number of values returned, the stack being the one
before the call with `rs` on top: item `i` is at position `depth + i` and
holds the `i`-th value. If the runtime fails with an error value whose text
is `t`, the call returns a pending result with `ok()` false, the status of
the protected call as error code and exactly one value above the depth
before the call, and `getErrMsg()` is the C string of
`"Function call " ++ id ++ "(): " ++ t`, where `id` is the identifier of the
handle, or `<anonymous>` when that identifier is empty. If the runtime fails
with an error value that has no text, the call does not return. -/
theorem LuaFuncRef.call_outcome (rt : Runtime) (self : LuaObjRef) (s : lua_State)
    (args : List CallArg) (vals : List LuaValue)
    (h1 : self.mLua = true) (h2 : self.mRegKey.mLua = true) (h3 : self.mErrCode = 0)
    (hargs : List.Forall₂ (PushesValue rt s.registry s.heap) args vals) :
    (∃ p0 s1 p, LuaFuncRef.prepCall self s = .ok (p0, s1) ∧
      p0.appendAll rt args s1 =
        .ok (p, { s with
          stack := s.stack ++ s.registry.lookup self.mRegKey.mRegKey :: vals }) ∧
      p.argsOnStack = args.length ∧ p.preStackTop = lua_gettop s) ∧
    (∀ rs h, rt.call s.heap (s.registry.lookup self.mRegKey.mRegKey) vals =
        (.returned rs, h) →
      ∃ r, LuaFuncRef.call rt self args s =
          .ok (r, { s with stack := s.stack ++ rs, heap := h }) ∧
        r.ok = true ∧ r.getNumItems = rs.length ∧
        ∀ (i : Nat) (hi : i < rs.length),
          r.getStackPos ((i : Int) + 1) = lua_gettop s + ((i : Int) + 1) ∧
          stackValue { s with stack := s.stack ++ rs, heap := h }
            (r.getStackPos ((i : Int) + 1)) = .ok (rs.get ⟨i, hi⟩)) ∧
    (∀ kind err t h, rt.call s.heap (s.registry.lookup self.mRegKey.mRegKey) vals =
        (.raised kind err, h) → err.cText = some t →
      ∃ r, LuaFuncRef.call rt self args s =
          .ok (r, { s with
            stack := s.stack ++ [.string (c_str ("Function call " ++
              (if self.getID.isEmpty then "<anonymous>" else self.getID) ++ "(): " ++ t))]
            heap := h }) ∧
        r.ok = false ∧ r.getErrCode = kind.code ∧ r.getNumItems = 1 ∧
        r.getErrMsg { s with
            stack := s.stack ++ [.string (c_str ("Function call " ++
              (if self.getID.isEmpty then "<anonymous>" else self.getID) ++ "(): " ++ t))]
            heap := h } =
          .ok (c_str ("Function call " ++
              (if self.getID.isEmpty then "<anonymous>" else self.getID) ++ "(): " ++ t),
            { s with
              stack := s.stack ++ [.string (c_str ("Function call " ++
                (if self.getID.isEmpty then "<anonymous>" else self.getID) ++ "(): " ++ t))]
              heap := h })) ∧
    (∀ kind err h, rt.call s.heap (s.registry.lookup self.mRegKey.mRegKey) vals =
        (.raised kind err, h) → err.cText = none →
      LuaFuncRef.call rt self args s = .error Fault.undefined) := by
  obtain ⟨st, rg, hp⟩ := s
  simp only at hargs
  simp only [lua_gettop]
  refine ⟨?_, ?_, ?_, ?_⟩
  · refine ⟨_, _,
      ⟨true, if self.getID.isEmpty then "<anonymous>" else self.getID, st.length,
        0 + args.length⟩,
      LuaFuncRef.prepCall_eval self st rg hp h1 h2 h3, ?_, ?_, rfl⟩
    · rw [LuaFuncCallParams.appendAll_values rt rg hp args vals hargs]
      simp only [List.append_assoc, List.singleton_append]
    · simp
  · intro rs h hcall
    refine ⟨⟨true, 0, st.length, rs.length⟩, ?_, rfl, rfl, ?_⟩
    · rw [LuaFuncRef.call_eval rt self st rg hp args vals h1 h2 h3 hargs,
        LuaFuncCallParams.doCall_eval, hcall]
      exact LuaTempResult.ctor_returned st rs rg h _
    · intro i hi
      have hpos : LuaTempResult.getStackPos ⟨true, 0, st.length, rs.length⟩ ((i : Int) + 1) =
          (st.length : Int) + ((i : Int) + 1) := by
        have c : (i : Int) + 1 > 0 ∧ (i : Int) + 1 ≤ (rs.length : Int) := by omega
        simp [LuaTempResult.getStackPos, c, LuaTempResult.FIRST_ITEM_INDEX]
      rw [hpos, stackValue_eq_ok_iff]
      exact ⟨rfl, index2adr_result st rs rg h i hi⟩
  · intro kind err t h hcall ht
    refine ⟨⟨true, kind.code, st.length, 1⟩, ?_, ?_, rfl, rfl, ?_⟩
    · rw [LuaFuncRef.call_eval rt self st rg hp args vals h1 h2 h3 hargs,
        LuaFuncCallParams.doCall_eval, hcall]
      simp only
      rw [LuaTempResult.ctor_raised st rg h _ t err kind.code (CallError.code_ne_zero kind) ht,
        String.call_message]
    · simp [LuaTempResult.ok, LuaTempResult.isError, LUA_ERR_NONE,
        CallError.code_ne_zero kind]
    · have hne := CallError.code_ne_zero kind
      simp only [LuaTempResult.getErrMsg, hne, if_true, lua_tostring, index2adr_top,
        c_str_idem]
      rfl
  · intro kind err h hcall ht
    rw [LuaFuncRef.call_eval rt self st rg hp args vals h1 h2 h3 hargs,
      LuaFuncCallParams.doCall_eval, hcall]
    exact LuaTempResult.ctor_raised_no_text st rg h _ err kind.code
      (CallError.code_ne_zero kind) ht

/-- C25 (the code evaluated at the failing inputs): the function of
`stateWithFunction`, a handle with a live connection and no error code, is
called with no argument and with the argument 5. On a runtime whose calls
fail with the message `boom` the call returns a pending result in the error
state, with the message `Function call f(): boom`. On a runtime whose calls
fail with the error value nil, as `error()` does, and on one whose calls fail
with a table as error value, the protected call returns its status and the
error value, and the constructor of the pending result appends the `NULL`
that `lua_tostring` gives for that value to a `std::string`: the call does
not return a pending result, the behaviour is undefined. -/
theorem LuaFuncRef.call_undefined_on_error_without_text :
    LuaFuncRef.call failingRuntime exampleFunction [.key (.integer 5)] stateWithFunction =
      .ok (⟨true, LUA_ERR_RUN, 1, 1⟩,
        { stateWithFunction with
          stack := [.number 5, .string "Function call f(): boom"] }) ∧
    lua_pcall nilErrorRuntime
        { stateWithFunction with stack := [.number 5, .function 7] } 0 LUA_MULTRET 0 =
      .ok (LUA_ERR_RUN, { stateWithFunction with stack := [.number 5, .nil] }) ∧
    lua_tostring { stateWithFunction with stack := [.number 5, .nil] } 2 =
      .ok (none, { stateWithFunction with stack := [.number 5, .nil] }) ∧
    LuaFuncRef.call nilErrorRuntime exampleFunction [] stateWithFunction =
      .error Fault.undefined ∧
    LuaFuncRef.call tableErrorRuntime exampleFunction [.key (.integer 5)] stateWithFunction =
      .error Fault.undefined :=
  ⟨rfl, rfl, rfl, rfl, rfl⟩

/-! ## Bound methods -/

theorem Registry.lookup_cons_ne (slots : List (Int × LuaValue)) (fr fr' : List Int)
    (sz sz' : Nat) (k k0 : Int) (v : LuaValue) (hne : k0 ≠ k) :
    Registry.lookup ⟨(k, v) :: slots, fr, sz⟩ k0 = Registry.lookup ⟨slots, fr', sz'⟩ k0 := by
  have e : ((k, v).1 == k0) = false := by simpa using fun c => hne c.symm
  simp only [Registry.lookup, List.find?_cons, e]

theorem Registry.lookup_negative (rg : Registry) (hwf : rg.WF) (k : Int) (hk : k < 0) :
    rg.lookup k = LuaValue.nil := by
  apply Registry.lookup_not_key
  intro hm
  have := (hwf.2.2.2.2 k hm).1
  omega

/-- What `luaL_ref` of a pushed value gives over a consistent registry. -/
theorem luaL_ref_push_spec (s : lua_State) (v : LuaValue) (hwf : s.registry.WF) :
    ∃ k s', luaL_ref (pushValue s v) LUA_REGISTRYINDEX = .ok (k, s') ∧
      s'.stack = s.stack ∧ s'.heap = s.heap ∧ s'.registry.WF ∧
      s'.registry.lookup k = v ∧
      (∀ k0, k0 < 0 ∨ k0 ∈ s.registry.keys →
        s'.registry.lookup k0 = s.registry.lookup k0 ∧
          (k0 < 0 ∨ k0 ∈ s'.registry.keys)) ∧
      (k < 0 ∨ k ∈ s'.registry.keys) ∧
      (s.registry.lookup k ≠ LuaValue.nil → False) := by
  by_cases hv : v = LuaValue.nil
  · subst hv
    refine ⟨LUA_REFNIL, s, luaL_ref_push_nil s, rfl, rfl, hwf,
      Registry.lookup_negative _ hwf _ (by decide), fun k0 h0 => ⟨rfl, h0⟩,
      Or.inl (by decide), fun h => h (Registry.lookup_negative _ hwf _ (by decide))⟩
  · obtain ⟨k, s', href, hsl, hfresh, hwf', hst, hhp⟩ := luaL_ref_push_fresh s v hwf hv
    have hkmem : k ∈ s'.registry.keys := by simp [Registry.keys, hsl]
    have hk1 := (hwf'.2.2.2.2 k hkmem).1
    refine ⟨k, s', href, hst, hhp, hwf',
      Registry.lookup_of_mem _ k v hwf'.1 (by rw [hsl]; exact List.mem_cons_self _ _), ?_,
      Or.inr hkmem, fun h => h (Registry.lookup_not_key _ _ hfresh)⟩
    intro k0 h0
    have hne : k0 ≠ k := by
      rcases h0 with h0 | h0
      · omega
      · exact fun c => hfresh (c ▸ h0)
    constructor
    · obtain ⟨st', ⟨sl', fr', sz'⟩, hp'⟩ := s'
      obtain ⟨st, ⟨sl, fr, sz⟩, hp⟩ := s
      simp only at hsl
      subst hsl
      exact Registry.lookup_cons_ne sl fr' fr sz' sz k k0 v hne
    · rcases h0 with h0 | h0
      · exact Or.inl h0
      · right
        simp only [Registry.keys, hsl, List.map_cons, List.mem_cons]
        exact Or.inr h0

/-- Two handles that agree on connection and error code and whose keys hold
the same value push the same value. -/
theorem LuaObjRef.pushObj_congr (a b : LuaObjRef) (s : lua_State)
    (h1 : a.mLua = b.mLua) (h2 : a.mRegKey.mLua = b.mRegKey.mLua)
    (h3 : a.mErrCode = b.mErrCode)
    (hl : s.registry.lookup a.mRegKey.mRegKey = s.registry.lookup b.mRegKey.mRegKey) :
    a.pushObj s = b.pushObj s := by
  simp only [LuaObjRef.pushObj, LuaRegRef.pushObj, lua_rawgeti, if_true, h1, h2, h3, hl]

theorem LuaObjRef.pushObj_registry {self : LuaObjRef} {s s' : lua_State}
    (h : self.pushObj s = .ok s') : s'.registry = s.registry ∧ s'.heap = s.heap := by
  unfold LuaObjRef.pushObj at h
  split at h
  · simp only [Except.bind_eq_ok_iff, Except.pure_eq_ok_iff] at h
    obtain ⟨_, -, _, -, h⟩ := h
    subst h
    exact ⟨rfl, rfl⟩
  · simp only [LuaRegRef.pushObj, lua_rawgeti, if_true, Except.bind_eq_ok_iff] at h
    obtain ⟨_, -, h⟩ := h
    simp only [Except.ok.injEq] at h
    subst h
    exact ⟨rfl, rfl⟩

/-- What the copy of a handle is, over a consistent registry. -/
theorem LuaObjRef.copyCtor_spec (o c : LuaObjRef) (s s1 : lua_State) (hwf : s.registry.WF)
    (hc : o.copyCtor s = .ok (c, s1)) :
    s1.stack = s.stack ∧ s1.heap = s.heap ∧ s1.registry.WF ∧
      c.mLua = o.mLua ∧ c.mRegKey.mLua = o.mRegKey.mLua ∧ c.mErrCode = o.mErrCode ∧
      c.mID = o.mID ∧
      s1.registry.lookup c.mRegKey.mRegKey = s.registry.lookup o.mRegKey.mRegKey ∧
      s1.registry.lookup o.mRegKey.mRegKey = s.registry.lookup o.mRegKey.mRegKey ∧
      (∀ k0, k0 < 0 ∨ k0 ∈ s.registry.keys →
        s1.registry.lookup k0 = s.registry.lookup k0 ∧
          (k0 < 0 ∨ k0 ∈ s1.registry.keys)) ∧
      (c.mRegKey.mRegKey < 0 ∨ c.mRegKey.mRegKey ∈ s1.registry.keys) := by
  obtain ⟨lua, ⟨rl, k⟩, id, e⟩ := o
  simp only [LuaObjRef.copyCtor, LuaRegRef.copyCtor, LuaRegRef.copyRef,
    Except.bind_eq_ok_iff, Except.pure_eq_ok_iff, Prod.mk.injEq, Prod.exists] at hc
  obtain ⟨rk, s', ⟨key, s'', hcp, hrk, hs'⟩, hcc, hs1⟩ := hc
  subst hcc hrk hs' hs1
  by_cases hnil : LuaRegRef.isNil ⟨rl, k⟩ = true
  · simp only [hnil, if_true, pure, Except.pure, Except.ok.injEq, Prod.mk.injEq] at hcp
    obtain ⟨hk, hs⟩ := hcp
    subst hk hs
    have hkneg : k < 0 := by
      simp only [LuaRegRef.isNil, Bool.or_eq_true, beq_iff_eq, LUA_NOREF, LUA_REFNIL] at hnil
      omega
    have hnoref : LUA_NOREF < 0 := by decide
    refine ⟨rfl, rfl, hwf, rfl, rfl, rfl, rfl, ?_, rfl, fun k0 h0 => ⟨rfl, h0⟩,
      Or.inl hnoref⟩
    rw [Registry.lookup_negative _ hwf _ hkneg]
    exact Registry.lookup_negative _ hwf _ hnoref
  · have hnil' : LuaRegRef.isNil ⟨rl, k⟩ = false := by simpa using hnil
    rw [hnil'] at hcp
    simp only [Bool.false_eq_true, if_false, Except.bind_eq_ok_iff,
      cassert_eq_ok_iff] at hcp
    obtain ⟨_, hrl, s0, hpush, href⟩ := hcp
    subst hrl
    rw [LuaRegRef.pushObj_eq _ _ rfl] at hpush
    simp only [Except.ok.injEq] at hpush
    subst hpush
    obtain ⟨k', sx, href', hst, hhp, hwf', hlook, hpres, hkey, hfresh⟩ :=
      luaL_ref_push_spec s (s.registry.lookup k) hwf
    rw [href'] at href
    simp only [Except.ok.injEq, Prod.mk.injEq] at href
    obtain ⟨hk, hs⟩ := href
    subst hk hs
    refine ⟨hst, hhp, hwf', rfl, rfl, rfl, rfl, hlook, ?_, hpres, hkey⟩
    by_cases hmem : k ∈ s.registry.keys
    · exact (hpres k (Or.inr hmem)).1
    · have hn : s.registry.lookup k = LuaValue.nil := Registry.lookup_not_key _ _ hmem
      rw [hn] at href'
      rw [luaL_ref_push_nil] at href'
      simp only [Except.ok.injEq, Prod.mk.injEq] at href'
      rw [← href'.2]

theorem LuaFuncRef.call_eq_pcallInput (rt : Runtime) (self : LuaObjRef)
    (args : List CallArg) (s : lua_State) :
    LuaFuncRef.call rt self args s =
      (LuaFuncRef.pcallInput rt self args s).bind fun x => x.1.doCall rt x.2 := by
  simp only [LuaFuncRef.call, LuaFuncRef.pcallInput, bind, Except.bind]
  cases LuaFuncRef.prepCall self s with
  | error e => rfl
  | ok v => rfl

theorem LuaFuncRef.pcallInput_congr (rt : Runtime) (f f' o o' : LuaObjRef)
    (args : List CallArg) (s : lua_State)
    (hf1 : f'.mLua = f.mLua) (hf2 : f'.mRegKey.mLua = f.mRegKey.mLua)
    (hf3 : f'.mErrCode = f.mErrCode) (hf4 : f'.mID = f.mID)
    (hfl : s.registry.lookup f'.mRegKey.mRegKey = s.registry.lookup f.mRegKey.mRegKey)
    (ho1 : o'.mLua = o.mLua) (ho2 : o'.mRegKey.mLua = o.mRegKey.mLua)
    (ho3 : o'.mErrCode = o.mErrCode)
    (hol : s.registry.lookup o'.mRegKey.mRegKey = s.registry.lookup o.mRegKey.mRegKey) :
    LuaFuncRef.pcallInput rt f' (.key (.objRef o') :: args) s =
      LuaFuncRef.pcallInput rt f (.key (.objRef o) :: args) s := by
  have hprep : LuaFuncRef.prepCall f' s = LuaFuncRef.prepCall f s := by
    simp only [LuaFuncRef.prepCall, LuaObjRef.pushObj_congr f' f s hf1 hf2 hf3 hfl, hf1,
      LuaObjRef.getID, hf4]
  simp only [LuaFuncRef.pcallInput, hprep]
  cases hp : LuaFuncRef.prepCall f s with
  | error e => rfl
  | ok v =>
    obtain ⟨p, s2⟩ := v
    have hreg : s2.registry = s.registry := by
      simp only [LuaFuncRef.prepCall, Except.bind_eq_ok_iff, Except.pure_eq_ok_iff,
        Prod.mk.injEq] at hp
      obtain ⟨sx, hpush, -, hs⟩ := hp
      subst hs
      exact (LuaObjRef.pushObj_registry hpush).1
    have hpush : o'.pushObj s2 = o.pushObj s2 :=
      LuaObjRef.pushObj_congr o' o s2 ho1 ho2 ho3 (by rw [hreg]; exact hol)
    simp only [bind, Except.bind, LuaFuncCallParams.appendAll, LuaFuncCallParams.append,
      pushValToStack_arg, pushValToStack_key, hpush]

/-- C26: bound-method invocation prepends the receiver. Let the bound method
`bm` be built by `LuaBoundMethRef(o, f)`, which copies both handles, over a
consistent registry in which `o` is nil or owns a live key. Building it
leaves stack and heap as they were, and for every argument list (the source
declares 0 to 9 arguments; the statement holds for every number of them)
calling `bm` hands to the protected call exactly what calling `f` with the
arguments `(o, a1, ..., ak)` hands to it (same parameters, argument count
and state), and the two calls are the same computation: same fault, or same
pending result and same final state. -/
theorem LuaBoundMethRef.call_prepends_receiver (rt : Runtime) (o f : LuaObjRef)
    (args : List CallArg) (s s1 : lua_State) (bm : LuaBoundMethRef)
    (hwf : s.registry.WF)
    (ho : o.mRegKey.mRegKey < 0 ∨ o.mRegKey.mRegKey ∈ s.registry.keys)
    (hc : LuaBoundMethRef.ctor o f s = .ok (bm, s1)) :
    s1.stack = s.stack ∧ s1.heap = s.heap ∧
      LuaFuncRef.pcallInput rt bm.mMethRef (.key (.objRef bm.mObjRef) :: args) s1 =
        LuaFuncRef.pcallInput rt f (.key (.objRef o) :: args) s1 ∧
      bm.call rt args s1 = LuaFuncRef.call rt f (.key (.objRef o) :: args) s1 := by
  simp only [LuaBoundMethRef.ctor, Except.bind_eq_ok_iff, Except.pure_eq_ok_iff,
    Prod.mk.injEq, Prod.exists] at hc
  obtain ⟨o', sA, hco, f', sB, hcf, hbm, hs⟩ := hc
  subst hbm hs
  obtain ⟨a1, a2, a3, a4, a5, a6, -, a8, -, a10, a11⟩ :=
    LuaObjRef.copyCtor_spec o o' s sA hwf hco
  obtain ⟨b1, b2, -, b4, b5, b6, b7, b8, b9, b10, -⟩ :=
    LuaObjRef.copyCtor_spec f f' sA sB a3 hcf
  have hin : LuaFuncRef.pcallInput rt f' (.key (.objRef o') :: args) sB =
      LuaFuncRef.pcallInput rt f (.key (.objRef o) :: args) sB := by
    apply LuaFuncRef.pcallInput_congr rt f f' o o' args sB b4 b5 b6 b7 (b8.trans b9.symm) a4
      a5 a6
    rw [(b10 _ a11).1, a8, (b10 _ (a10 _ ho).2).1, (a10 _ ho).1]
  refine ⟨b1.trans a1, b2.trans a2, hin, ?_⟩
  simp only [LuaBoundMethRef.call, LuaFuncRef.call_eq_pcallInput, hin]

/-- Witness for C26: the function of `stateWithFunction` bound to its table;
the bound method called with the argument 5 is the function called with the
table and 5. -/
theorem LuaBoundMethRef.call_prepends_receiver_witness :
    LuaBoundMethRef.ctor exampleHandle exampleFunction stateWithFunction =
      .ok (⟨⟨true, ⟨true, 3⟩, "t", 0⟩, ⟨true, ⟨true, 4⟩, "f", 0⟩⟩,
        { stateWithFunction with
          registry := ⟨[(4, .function 7), (3, .table 1), (2, .function 7), (1, .table 1)],
            [], 4⟩ }) ∧
    LuaFuncRef.pcallInput echoRuntime exampleFunction
        [.key (.objRef exampleHandle), .key (.integer 5)]
        { stateWithFunction with
          registry := ⟨[(4, .function 7), (3, .table 1), (2, .function 7), (1, .table 1)],
            [], 4⟩ } =
      .ok (⟨true, "f", 1, 2⟩,
        { stateWithFunction with
          stack := [.number 5, .function 7, .table 1, .number 5]
          registry := ⟨[(4, .function 7), (3, .table 1), (2, .function 7), (1, .table 1)],
            [], 4⟩ }) ∧
    LuaBoundMethRef.call echoRuntime
        ⟨⟨true, ⟨true, 3⟩, "t", 0⟩, ⟨true, ⟨true, 4⟩, "f", 0⟩⟩ [.key (.integer 5)]
        { stateWithFunction with
          registry := ⟨[(4, .function 7), (3, .table 1), (2, .function 7), (1, .table 1)],
            [], 4⟩ } =
      LuaFuncRef.call echoRuntime exampleFunction
        [.key (.objRef exampleHandle), .key (.integer 5)]
        { stateWithFunction with
          registry := ⟨[(4, .function 7), (3, .table 1), (2, .function 7), (1, .table 1)],
            [], 4⟩ } :=
  ⟨rfl, rfl,
    (LuaBoundMethRef.call_prepends_receiver echoRuntime exampleHandle exampleFunction
      [.key (.integer 5)] stateWithFunction _ _ (by decide) (by decide) rfl).2.2.2⟩

/-! ## The error a handle reports -/

theorem stackSlot_above (st : List LuaValue) (v : LuaValue) (rg : Registry) (hp : Heap) :
    stackSlot ⟨st ++ [v], rg, hp⟩ ((st.length : Int) + 1) = .ok st.length := by
  have h : (st.length : Int) + 1 > 0 ∧
      (st.length : Int) + 1 ≤ ((st ++ [v]).length : Nat) := by
    simp
  simp only [stackSlot, h, and_self, if_true]
  congr 1
  omega

/-- A pending result constructed in the error state: the stack is the slots
below the recorded depth and the prefixed message. -/
theorem LuaTempResult.ctor_error_state (d e : Int) (p : String) (s0 s1 : lua_State)
    (r : LuaTempResult) (hc : LuaTempResult.ctor true d e p s0 = .ok (r, s1))
    (he : e ≠ 0) :
    ∃ base msg, c_str msg = msg ∧ (base.length : Int) = d ∧
      s1 = ⟨base ++ [.string msg], s0.registry, s0.heap⟩ ∧ r = ⟨true, e, d, 1⟩ := by
  obtain ⟨hr, -, h1⟩ := LuaTempResult.ctor_ok_shape true d e p s0 s1 r hc
  have hn : lua_gettop s0 - d = 1 := by
    rcases h1 with h1 | h1
    · exact absurd h1 he
    · rw [hr] at h1
      exact h1
  obtain ⟨st, rg, hp⟩ := s0
  simp only [lua_gettop] at hn
  have hebool : (e != 0) = true := by simpa using he
  have hne : st ≠ [] := by
    intro c
    subst c
    have hd : d = -1 := by
      simp only [List.length_nil, Nat.cast_zero] at hn
      omega
    subst hd
    simp [LuaTempResult.ctor, cassert, lua_gettop, hebool, lua_tostring, index2adr, bind,
      Except.bind, pure, Except.pure] at hc
  obtain ⟨base, x, hst⟩ : ∃ base x, st = base ++ [x] :=
    ⟨st.dropLast, st.getLast hne, (List.dropLast_append_getLast hne).symm⟩
  subst hst
  have hd : d = (base.length : Int) := by
    simp only [List.length_append, List.length_singleton] at hn
    push_cast at hn
    omega
  subst hd
  refine ⟨base, ?_⟩
  simp only [LuaTempResult.ctor, Bool.not_true, Bool.false_eq_true, if_false, cassert,
    if_true, hebool, lua_gettop, bind, Except.bind, pure, Except.pure] at hc
  cases x with
  | string str =>
    refine ⟨c_str (p ++ ": " ++ c_str str), c_str_idem _, rfl, ?_,
      by rw [hr]; simp [lua_gettop]⟩
    simp [lua_tostring, index2adr_top, LUA_ERR_NONE, hebool, lua_checkstack,
      lua_pushstring, pushValue, lua_replace_top] at hc
    exact hc.2.symm
  | number n =>
    refine ⟨c_str (p ++ ": " ++ toString n), c_str_idem _, rfl, ?_,
      by rw [hr]; simp [lua_gettop]⟩
    simp [lua_tostring, index2adr_top, stackSlot_above, List.set_length_append_one,
      LUA_ERR_NONE, hebool, lua_checkstack, lua_pushstring, pushValue, lua_replace_top, bind,
      Except.bind, pure, Except.pure] at hc
    exact hc.2.symm
  | nil =>
    simp [lua_tostring, index2adr_top, LUA_ERR_NONE, hebool, throw, throwThe,
      MonadExceptOf.throw] at hc
  | boolean b =>
    simp [lua_tostring, index2adr_top, LUA_ERR_NONE, hebool, throw, throwThe,
      MonadExceptOf.throw] at hc
  | table t =>
    simp [lua_tostring, index2adr_top, LUA_ERR_NONE, hebool, throw, throwThe,
      MonadExceptOf.throw] at hc
  | function f =>
    simp [lua_tostring, index2adr_top, LUA_ERR_NONE, hebool, throw, throwThe,
      MonadExceptOf.throw] at hc
  | userdata u =>
    simp [lua_tostring, index2adr_top, LUA_ERR_NONE, hebool, throw, throwThe,
      MonadExceptOf.throw] at hc

theorem LuaObjRef.getErrMsg_value (self : LuaObjRef) (s : lua_State) (msg : String)
    (h1 : self.mLua = true) (h2 : self.mRegKey.mLua = true) (h3 : self.mErrCode ≠ 0)
    (h4 : self.mErrCode ≠ LUA_NO_LUA) (hcs : c_str msg = msg)
    (hl : s.registry.lookup self.mRegKey.mRegKey = .string msg) :
    self.getErrMsg s = .ok (msg, s) := by
  obtain ⟨st, rg, hp⟩ := s
  simp only at hl
  have hb3 : (self.mErrCode != 0) = true := by simpa using h3
  have hb4 : (self.mErrCode == LUA_NO_LUA) = false := by simpa using h4
  simp [LuaObjRef.getErrMsg, hb3, hb4, LuaStackCleaner.ctor, LuaRegRef.pushObj, lua_rawgeti,
    pushValue, getObjFromStack_string, lua_tostring, index2adr_neg1, hl,
    LuaStackCleaner.dtor, cassert, h1, h2, lua_gettop, LUA_UNACCEPTABLE_STACK_POS, bind,
    Except.bind, pure, Except.pure, lua_settop_restore, hcs]

theorem LuaObjRef.getErrMsg_ok (self : LuaObjRef) (s : lua_State) (h3 : self.mErrCode = 0) :
    self.getErrMsg s = .ok ("", s) := by
  simp [LuaObjRef.getErrMsg, h3, pure, Except.pure]

theorem LuaRegRef.getRef_lookup (s : lua_State) (pos : Int) (v : LuaValue)
    (hwf : s.registry.WF) (hval : index2adr s pos = some (some v)) :
    ∃ k s', LuaRegRef.getRef true pos s = .ok (k, s') ∧ s'.stack = s.stack ∧
      s'.heap = s.heap ∧ s'.registry.lookup k = v := by
  obtain ⟨k, s', hc, h1, h2, h3⟩ := LuaRegRef.ctor_lookup s pos v hwf hval
  refine ⟨k, s', ?_, h1, h2, h3⟩
  simp only [LuaRegRef.ctor, Except.bind_eq_ok_iff, Except.pure_eq_ok_iff, Prod.mk.injEq,
    Prod.exists] at hc
  obtain ⟨k', s'', hg, hk, hs⟩ := hc
  simp only [LuaRegRef.mk.injEq, true_and] at hk
  subst hk hs
  exact hg

theorem LuaObjRef.error_handle_keeps_message (base : List LuaValue) (msg id : String)
    (rg : Registry) (hp : Heap) (lua : Bool) (k e : Int) (he : e ≠ 0) (hne : e ≠ LUA_NO_LUA)
    (hlua : lua = true) (hcs : c_str msg = msg) (hl : rg.lookup k = .string msg) :
    LuaObjRef.getErrMsg ⟨lua, ⟨true, k⟩, id, e⟩ ⟨base ++ [.string msg], rg, hp⟩ =
        .ok (msg, ⟨base ++ [.string msg], rg, hp⟩) ∧
      LuaTempResult.dtor ⟨true, e, base.length, 1⟩ ⟨base ++ [.string msg], rg, hp⟩ =
        .ok ⟨base, rg, hp⟩ ∧
      LuaObjRef.getErrMsg ⟨lua, ⟨true, k⟩, id, e⟩ ⟨base, rg, hp⟩ = .ok (msg, ⟨base, rg, hp⟩) := by
  refine ⟨LuaObjRef.getErrMsg_value _ _ msg hlua rfl he hne hcs hl, ?_,
    LuaObjRef.getErrMsg_value _ _ msg hlua rfl he hne hcs hl⟩
  simp [LuaTempResult.dtor, cassert, lua_gettop, lua_settop_restore, bind, Except.bind]

/-- C27: a handle reports the error of the result it was taken from. Let
`r` be a pending result constructed over a consistent registry with an error
code that is a status of the runtime (not `LUA_NO_LUA`, the code of a handle
without connection, with which the library constructs no result), and `h0` an
object handle that has no connection or owns nothing or owns a live key.
Constructing a handle from `r`, constructing one from `r.item(1)`, and
repointing `h0` with `resetRef(r)` all return, and each of the three handles
has `isError()` equal to `r.isError()`. If `r` is error-free, `getErrMsg()`
of each is the empty string, in every state. If `r` is in the error state,
`getErrMsg()` of each is the message `r.getErrMsg()` returns, the prefixed
one, and it still is after `r` has been destroyed. -/
theorem LuaObjRef.handle_reports_result_error (d e : Int) (p : String)
    (s0 s1 : lua_State) (r : LuaTempResult) (h0 : LuaObjRef)
    (hc : LuaTempResult.ctor true d e p s0 = .ok (r, s1)) (hwf : s0.registry.WF)
    (hne : e ≠ LUA_NO_LUA)
    (hown : h0.mRegKey.mLua = true →
      h0.mRegKey.mRegKey < 0 ∨ h0.mRegKey.mRegKey ∈ s0.registry.keys) :
    ∃ item ha sa hb sb hr sr,
      r.getItem 1 = .ok item ∧ LuaObjRef.ctorResult r s1 = .ok (ha, sa) ∧
      LuaObjRef.ctorItem item s1 = .ok (hb, sb) ∧ h0.resetRefResult r s1 = .ok (hr, sr) ∧
      ha.isError = r.isError ∧ hb.isError = r.isError ∧ hr.isError = r.isError ∧
      (r.isError = false →
        ∀ s, ha.getErrMsg s = .ok ("", s) ∧ hb.getErrMsg s = .ok ("", s) ∧
          hr.getErrMsg s = .ok ("", s)) ∧
      (r.isError = true →
        ∃ msg, r.getErrMsg s1 = .ok (msg, s1) ∧
          ha.getErrMsg sa = .ok (msg, sa) ∧ hb.getErrMsg sb = .ok (msg, sb) ∧
          hr.getErrMsg sr = .ok (msg, sr) ∧
          ∃ sa' sb' sr', r.dtor sa = .ok sa' ∧ r.dtor sb = .ok sb' ∧ r.dtor sr = .ok sr' ∧
            ha.getErrMsg sa' = .ok (msg, sa') ∧ hb.getErrMsg sb' = .ok (msg, sb') ∧
            hr.getErrMsg sr' = .ok (msg, sr')) := by
  -- the state `reset` works on, and its registry
  have hreset : ∃ sx : lua_State, sx.stack = s1.stack ∧ sx.heap = s1.heap ∧
      (s1.registry = s0.registry → sx.registry.WF) ∧
      ∀ pos, LuaRegRef.reset h0.mRegKey true pos s1 =
        (LuaRegRef.getRef true pos sx).map fun q => (⟨true, q.1⟩, q.2) := by
    obtain ⟨lua0, ⟨rl, k0⟩, id0, e0⟩ := h0
    cases rl with
    | false =>
      refine ⟨s1, rfl, rfl, fun hreg => hreg ▸ hwf, fun pos => ?_⟩
      simp only [LuaRegRef.reset, Bool.false_eq_true, if_false, cassert, if_true, bind,
        Except.bind, pure, Except.pure, Except.map]
    | true =>
      refine ⟨luaL_unref s1 LUA_REGISTRYINDEX k0, ?_, ?_, ?_, fun pos => ?_⟩
      · simp only [luaL_unref]
        split <;> rfl
      · simp only [luaL_unref]
        split <;> rfl
      · intro hreg
        rcases hown rfl with hk | hk
        · rw [luaL_unref_negative s1 k0 hk, hreg]
          exact hwf
        · have hk0 : 0 ≤ k0 := by
            have := (hwf.2.2.2.2 k0 hk).1
            omega
          rw [luaL_unref_eq s1 k0 hk0, hreg]
          exact Registry.WF_release s0.registry k0 hwf hk
      · simp only [LuaRegRef.reset, if_true, cassert, bind, Except.bind, pure, Except.pure,
          Except.map]
  obtain ⟨sx, hxst, hxhp, hxwf, hxreset⟩ := hreset
  have hitem : r.getItem 1 = .ok ⟨true, r.getStackPos 1, r.mErrCode⟩ := by
    obtain ⟨hr, -, -⟩ := LuaTempResult.ctor_ok_shape true d e p s0 s1 r hc
    subst hr
    rfl
  have hrlua : r.getLuaState = true ∧ r.getErrCode = e ∧ r.mErrCode = e := by
    obtain ⟨hr, -, -⟩ := LuaTempResult.ctor_ok_shape true d e p s0 s1 r hc
    subst hr
    exact ⟨rfl, rfl, rfl⟩
  by_cases he : e = 0
  · -- error-free result
    subst he
    obtain ⟨ka, sa, hga, -, -⟩ := LuaRegRef.getRef_returns s1 (r.getStackPos 1)
    obtain ⟨kr, sr, hgr, -, -⟩ := LuaRegRef.getRef_returns sx (r.getStackPos 1)
    have hnoerr : r.isError = false := by
      simp [LuaTempResult.isError, hrlua.2.2, LUA_ERR_NONE]
    refine ⟨_, ⟨true, ⟨true, ka⟩, "", 0⟩, sa, ⟨true, ⟨true, ka⟩, "", 0⟩, sa,
      ⟨true, ⟨true, kr⟩, h0.mID, 0⟩, sr, hitem, ?_, ?_, ?_, ?_, ?_, ?_, ?_, ?_⟩
    · simp [LuaObjRef.ctorResult, LuaRegRef.ctor, hrlua.1, hrlua.2.1, hga, bind,
        Except.bind, pure, Except.pure]
    · simp [LuaObjRef.ctorItem, LuaRegRef.ctor, hrlua.2.2, hga, bind, Except.bind, pure,
        Except.pure]
    · simp [LuaObjRef.resetRefResult, LuaTempResult.index, hitem, LuaObjRef.resetRef,
        hxreset, hgr, hrlua.2.2, Except.map, bind, Except.bind, pure, Except.pure]
    · rw [hnoerr]
      rfl
    · rw [hnoerr]
      rfl
    · rw [hnoerr]
      rfl
    · intro _ s
      exact ⟨LuaObjRef.getErrMsg_ok _ s rfl, LuaObjRef.getErrMsg_ok _ s rfl,
        LuaObjRef.getErrMsg_ok _ s rfl⟩
    · intro h
      rw [hnoerr] at h
      exact absurd h (by decide)
  · -- result in the error state
    obtain ⟨base, msg, hcs, hd, hs1, hr⟩ :=
      LuaTempResult.ctor_error_state d e p s0 s1 r hc he
    subst hd
    have hebool : (e != 0) = true := by simpa using he
    have hpos : r.getStackPos 1 = (base.length : Int) + 1 := by
      subst hr
      simp [LuaTempResult.getStackPos, hebool]
    have hv1 : index2adr s1 ((base.length : Int) + 1) = some (some (.string msg)) := by
      rw [hs1]
      exact index2adr_top base _ _ _
    have hvx : index2adr sx ((base.length : Int) + 1) = some (some (.string msg)) := by
      rw [index2adr_congr s1 sx _ hxst]
      exact hv1
    have hreg1 : s1.registry = s0.registry := by rw [hs1]
    obtain ⟨ka, sa, hga, hsta, hhpa, hla⟩ :=
      LuaRegRef.getRef_lookup s1 _ _ (hreg1 ▸ hwf) hv1
    obtain ⟨kr, sr, hgr, hstr, hhpr, hlr⟩ :=
      LuaRegRef.getRef_lookup sx _ _ (hxwf hreg1) hvx
    have hiserr : r.isError = true := by
      simp [LuaTempResult.isError, hrlua.2.2, LUA_ERR_NONE, he]
    have hsa : sa = ⟨base ++ [.string msg], sa.registry, s0.heap⟩ := by
      obtain ⟨st, rg, hp⟩ := sa
      simp only at hsta hhpa
      rw [hsta, hhpa, hs1]
    have hsr : sr = ⟨base ++ [.string msg], sr.registry, s0.heap⟩ := by
      obtain ⟨st, rg, hp⟩ := sr
      simp only at hstr hhpr
      rw [hstr, hhpr, hxst, hxhp, hs1]
    obtain ⟨a1, a2, a3⟩ := LuaObjRef.error_handle_keeps_message base msg "" sa.registry
      s0.heap true ka e he hne rfl hcs hla
    obtain ⟨r1, r2, r3⟩ := LuaObjRef.error_handle_keeps_message base msg h0.mID sr.registry
      s0.heap true kr e he hne rfl hcs hlr
    refine ⟨_, ⟨true, ⟨true, ka⟩, "", e⟩, sa, ⟨true, ⟨true, ka⟩, "", e⟩, sa,
      ⟨true, ⟨true, kr⟩, h0.mID, e⟩, sr, hitem, ?_, ?_, ?_, ?_, ?_, ?_, ?_, ?_⟩
    · simp [LuaObjRef.ctorResult, LuaRegRef.ctor, hrlua.1, hrlua.2.1, hpos, hga, bind,
        Except.bind, pure, Except.pure]
    · simp [LuaObjRef.ctorItem, LuaRegRef.ctor, hrlua.2.2, hpos, hga, bind, Except.bind,
        pure, Except.pure]
    · simp [LuaObjRef.resetRefResult, LuaTempResult.index, hitem, LuaObjRef.resetRef,
        hxreset, hpos, hgr, hrlua.2.2, Except.map, bind, Except.bind, pure, Except.pure]
    · rw [hiserr]
      simp [LuaObjRef.isError, LUA_ERR_NONE, he]
    · rw [hiserr]
      simp [LuaObjRef.isError, LUA_ERR_NONE, he]
    · rw [hiserr]
      simp [LuaObjRef.isError, LUA_ERR_NONE, he]
    · intro h
      rw [hiserr] at h
      exact absurd h (by decide)
    · intro _
      refine ⟨msg, ?_, ?_, ?_, ?_, ⟨base, sa.registry, s0.heap⟩,
        ⟨base, sa.registry, s0.heap⟩, ⟨base, sr.registry, s0.heap⟩, ?_, ?_, ?_, a3, a3, r3⟩
      · rw [hs1, hr]
        simp [LuaTempResult.getErrMsg, hebool, lua_tostring, index2adr_top, bind,
          Except.bind, pure, Except.pure, hcs]
      · rw [hsa]
        exact a1
      · rw [hsa]
        exact a1
      · rw [hsr]
        exact r1
      · rw [hsa, hr]
        exact a2
      · rw [hsa, hr]
        exact a2
      · rw [hsr, hr]
        exact r2

/-- Witness for C27: the result of a syntax error with message `boom`, and
the default-constructed handle repointed to it. -/
theorem LuaObjRef.handle_reports_result_error_witness :
    LuaObjRef.ctorResult ⟨true, LUA_ERR_SYNTAX, 0, 1⟩
        (stateWithStack [.string "Syntax error in: boom"]) =
      .ok (⟨true, ⟨true, 1⟩, "", LUA_ERR_SYNTAX⟩,
        ⟨[.string "Syntax error in: boom"],
          ⟨[(1, .string "Syntax error in: boom")], [], 1⟩, Heap.empty⟩) ∧
    LuaObjRef.getErrMsg ⟨true, ⟨true, 1⟩, "", LUA_ERR_SYNTAX⟩
        ⟨[], ⟨[(1, .string "Syntax error in: boom")], [], 1⟩, Heap.empty⟩ =
      .ok ("Syntax error in: boom",
        ⟨[], ⟨[(1, .string "Syntax error in: boom")], [], 1⟩, Heap.empty⟩) ∧
    ∃ ha sa hr sr,
      LuaObjRef.ctorResult ⟨true, LUA_ERR_SYNTAX, 0, 1⟩
        (stateWithStack [.string "Syntax error in: boom"]) = .ok (ha, sa) ∧
      LuaObjRef.resetRefResult ⟨false, ⟨false, LUA_NOREF⟩, "nil", LUA_NO_LUA⟩
        ⟨true, LUA_ERR_SYNTAX, 0, 1⟩
        (stateWithStack [.string "Syntax error in: boom"]) = .ok (hr, sr) ∧
      ha.isError = true ∧ hr.isError = true :=
  ⟨rfl, rfl,
    (LuaObjRef.handle_reports_result_error 0 LUA_ERR_SYNTAX "Syntax error in"
      (stateWithStack [.string "boom"]) (stateWithStack [.string "Syntax error in: boom"])
      ⟨true, LUA_ERR_SYNTAX, 0, 1⟩ ⟨false, ⟨false, LUA_NOREF⟩, "nil", LUA_NO_LUA⟩ rfl
      (by decide) (by decide) (fun h => absurd h (by decide))).elim
    fun _ h => h.elim fun ha h => h.elim fun sa h => h.elim fun _ h => h.elim fun _ h =>
      h.elim fun hr h => h.elim fun sr h =>
        ⟨ha, sa, hr, sr, h.2.1, h.2.2.2.1, h.2.2.2.2.1, h.2.2.2.2.2.2.1⟩⟩

/-! ## Method calls on class instances -/

theorem LuaObjRef.pushObj_registry_free (o : LuaObjRef) (st : List LuaValue) (rg : Registry)
    (hp : Heap) :
    (∃ e, ∀ rg' : Registry, o.pushObj ⟨st, rg', hp⟩ = .error e) ∨
    (∃ v, ∀ rg' : Registry, rg'.lookup o.mRegKey.mRegKey = rg.lookup o.mRegKey.mRegKey →
      o.pushObj ⟨st, rg', hp⟩ = .ok ⟨st ++ [v], rg', hp⟩) := by
  obtain ⟨lua, ⟨rl, k⟩, id, e⟩ := o
  by_cases he : (e != 0) = true
  · cases lua with
    | false =>
      exact Or.inl ⟨Fault.undefined, fun rg' => by
        simp [LuaObjRef.pushObj, he, deref, bind, Except.bind]⟩
    | true =>
      exact Or.inr ⟨.nil, fun rg' _ => by
        simp [LuaObjRef.pushObj, he, deref, cassert, lua_checkstack, lua_pushnil, pushValue,
          bind, Except.bind, pure, Except.pure]⟩
  · cases rl with
    | false =>
      exact Or.inl ⟨Fault.assertion, fun rg' => by
        simp [LuaObjRef.pushObj, he, LuaRegRef.pushObj, cassert, bind, Except.bind]⟩
    | true =>
      refine Or.inr ⟨rg.lookup k, fun rg' h => ?_⟩
      simp only at h
      simp [LuaObjRef.pushObj, he, LuaRegRef.pushObj_eq, pushValue, h]

theorem pushValToStack_key_registry_free (L : Bool) (k : HostKey) (st : List LuaValue)
    (rg : Registry) (hp : Heap) :
    (∃ e, ∀ rg' : Registry, pushValToStack_key L k ⟨st, rg', hp⟩ = .error e) ∨
    (∃ v, ∀ rg' : Registry,
      (∀ o ∈ k.handles, rg'.lookup o.mRegKey.mRegKey = rg.lookup o.mRegKey.mRegKey) →
      pushValToStack_key L k ⟨st, rg', hp⟩ = .ok ⟨st ++ [v], rg', hp⟩) := by
  cases k with
  | objRef o =>
    rcases LuaObjRef.pushObj_registry_free o st rg hp with ⟨e, he⟩ | ⟨v, hv⟩
    · exact Or.inl ⟨e, fun rg' => by simp only [pushValToStack_key, he rg']⟩
    · exact Or.inr ⟨v, fun rg' hag => by
        simp only [pushValToStack_key, hv rg' (hag o (by simp [HostKey.handles]))]⟩
  | boolean b =>
    cases L with
    | false =>
      exact Or.inl ⟨Fault.undefined, fun rg' => by
        simp [pushValToStack_key, deref, bind, Except.bind]⟩
    | true =>
      exact Or.inr ⟨.boolean b, fun rg' _ => by
        simp [pushValToStack_key, deref, cassert, lua_checkstack, lua_pushboolean, pushValue,
          bind, Except.bind, pure, Except.pure]⟩
  | integer n =>
    cases L with
    | false =>
      exact Or.inl ⟨Fault.undefined, fun rg' => by
        simp [pushValToStack_key, deref, bind, Except.bind]⟩
    | true =>
      exact Or.inr ⟨.number n, fun rg' _ => by
        simp [pushValToStack_key, deref, cassert, lua_checkstack, lua_pushinteger, pushValue,
          bind, Except.bind, pure, Except.pure]⟩
  | text str =>
    cases L with
    | false =>
      exact Or.inl ⟨Fault.undefined, fun rg' => by
        simp [pushValToStack_key, deref, bind, Except.bind]⟩
    | true =>
      exact Or.inr ⟨.string (c_str str), fun rg' _ => by
        simp [pushValToStack_key, deref, cassert, lua_checkstack, lua_pushstring, pushValue,
          bind, Except.bind, pure, Except.pure]⟩

theorem lua_rawgeti_top (st : List LuaValue) (tv : LuaValue) (rg : Registry) (hp : Heap)
    (n : Int) :
    lua_rawgeti ⟨st ++ [tv], rg, hp⟩ (-1) n =
      match tv with
      | .table id =>
        match hp.table? id with
        | some tbl => .ok ⟨st ++ [tv, tbl.rawget (.number n)], rg, hp⟩
        | none => .error Fault.undefined
      | _ => .error Fault.undefined := by
  have hne : ¬ ((-1 : Int) = LUA_REGISTRYINDEX) := by decide
  simp only [lua_rawgeti, hne, if_false, stackValue_neg1, bind, Except.bind]
  cases tv with
  | table id =>
    simp only
    cases hp.table? id with
    | some tbl => simp [pushValue, pure, Except.pure]
    | none => rfl
  | nil => rfl
  | boolean b => rfl
  | number n => rfl
  | string str => rfl
  | function id => rfl
  | userdata id => rfl

theorem lua_getfield_top (rt : Runtime) (st : List LuaValue) (tv : LuaValue) (rg : Registry)
    (hp : Heap) (k : String) :
    lua_getfield rt ⟨st ++ [tv], rg, hp⟩ (-1) k =
      match luaV_gettable rt MAXTAGLOOP hp tv (.string (c_str k)) with
      | .ok (v, h) => .ok ⟨st ++ [tv, v], rg, h⟩
      | .error e => .error e := by
  simp only [lua_getfield, stackValue_neg1, bind, Except.bind]
  cases luaV_gettable rt MAXTAGLOOP hp tv (.string (c_str k)) with
  | error e => rfl
  | ok x => simp [pure, Except.pure]

theorem lua_gettable_top (rt : Runtime) (st : List LuaValue) (tv kv : LuaValue)
    (rg : Registry) (hp : Heap) :
    lua_gettable rt ⟨st ++ [tv, kv], rg, hp⟩ (-2) =
      match luaV_gettable rt MAXTAGLOOP hp tv kv with
      | .ok (v, h) => .ok ⟨st ++ [tv, v], rg, h⟩
      | .error e => .error e := by
  have hl : (st ++ [tv, kv]).getLast? = some kv := by simp
  have hd : (st ++ [tv, kv]).dropLast = st ++ [tv] := by
    rw [show st ++ [tv, kv] = (st ++ [tv]) ++ [kv] by simp]
    exact List.dropLast_concat
  simp only [lua_gettable, stackValue_neg2, hl, hd, bind, Except.bind]
  cases luaV_gettable rt MAXTAGLOOP hp tv kv with
  | error e => rfl
  | ok x => simp [pure, Except.pure]

theorem lua_remove_below_top (st : List LuaValue) (a b : LuaValue) (rg : Registry)
    (hp : Heap) :
    lua_remove ⟨st ++ [a, b], rg, hp⟩ (-2) = .ok ⟨st ++ [b], rg, hp⟩ := by
  simp only [lua_remove, stackSlot_neg2, bind, Except.bind, pure, Except.pure,
    List.eraseIdx_length_append_two]

theorem LuaTableRef.pushFieldValue_registry_free (rt : Runtime) (self : LuaObjRef)
    (key : HostKey) (st : List LuaValue) (tv : LuaValue) (rg : Registry) (hp : Heap) :
    (∃ e, ∀ rg' : Registry,
      (∀ o ∈ key.handles, rg'.lookup o.mRegKey.mRegKey = rg.lookup o.mRegKey.mRegKey) →
      LuaTableRef.pushFieldValue rt self key ⟨st ++ [tv], rg', hp⟩ = .error e) ∨
    (∃ v h, ∀ rg' : Registry,
      (∀ o ∈ key.handles, rg'.lookup o.mRegKey.mRegKey = rg.lookup o.mRegKey.mRegKey) →
      LuaTableRef.pushFieldValue rt self key ⟨st ++ [tv], rg', hp⟩ =
        .ok ⟨st ++ [tv, v], rg', h⟩) := by
  have hgen : ∀ k : HostKey,
      (∃ e, ∀ rg' : Registry,
        (∀ o ∈ k.handles, rg'.lookup o.mRegKey.mRegKey = rg.lookup o.mRegKey.mRegKey) →
        (pushValToStack_key self.mLua k ⟨st ++ [tv], rg', hp⟩ >>= fun s1 =>
          lua_gettable rt s1 (-2)) = .error e) ∨
      (∃ v h, ∀ rg' : Registry,
        (∀ o ∈ k.handles, rg'.lookup o.mRegKey.mRegKey = rg.lookup o.mRegKey.mRegKey) →
        (pushValToStack_key self.mLua k ⟨st ++ [tv], rg', hp⟩ >>= fun s1 =>
          lua_gettable rt s1 (-2)) = .ok ⟨st ++ [tv, v], rg', h⟩) := by
    intro k
    rcases pushValToStack_key_registry_free self.mLua k (st ++ [tv]) rg hp with
      ⟨e, he⟩ | ⟨kv, hkv⟩
    · exact Or.inl ⟨e, fun rg' _ => by simp only [he rg', bind, Except.bind]⟩
    · cases hg : luaV_gettable rt MAXTAGLOOP hp tv kv with
      | error e =>
        exact Or.inl ⟨e, fun rg' hag => by
          simp only [hkv rg' hag, bind, Except.bind, List.append_assoc, List.singleton_append,
            lua_gettable_top, hg]⟩
      | ok x =>
        exact Or.inr ⟨x.1, x.2, fun rg' hag => by
          simp only [hkv rg' hag, bind, Except.bind, List.append_assoc, List.singleton_append,
            lua_gettable_top, hg]⟩
  cases key with
  | boolean b => exact hgen (.boolean b)
  | objRef o => exact hgen (.objRef o)
  | integer n =>
    cases hl : self.mLua with
    | false =>
      exact Or.inl ⟨Fault.undefined, fun rg' _ => by
        simp [LuaTableRef.pushFieldValue, hl, deref, bind, Except.bind]⟩
    | true =>
      cases tv with
      | table id =>
        cases ht : hp.table? id with
        | some tbl =>
          exact Or.inr ⟨tbl.rawget (.number n), hp, fun rg' _ => by
            simp [LuaTableRef.pushFieldValue, hl, deref, cassert, lua_checkstack,
              lua_rawgeti_top, ht, bind, Except.bind]⟩
        | none =>
          exact Or.inl ⟨Fault.undefined, fun rg' _ => by
            simp [LuaTableRef.pushFieldValue, hl, deref, cassert, lua_checkstack,
              lua_rawgeti_top, ht, bind, Except.bind]⟩
      | nil =>
        exact Or.inl ⟨Fault.undefined, fun rg' _ => by
          simp [LuaTableRef.pushFieldValue, hl, deref, cassert, lua_checkstack,
            lua_rawgeti_top, bind, Except.bind]⟩
      | boolean b =>
        exact Or.inl ⟨Fault.undefined, fun rg' _ => by
          simp [LuaTableRef.pushFieldValue, hl, deref, cassert, lua_checkstack,
            lua_rawgeti_top, bind, Except.bind]⟩
      | number m =>
        exact Or.inl ⟨Fault.undefined, fun rg' _ => by
          simp [LuaTableRef.pushFieldValue, hl, deref, cassert, lua_checkstack,
            lua_rawgeti_top, bind, Except.bind]⟩
      | string str =>
        exact Or.inl ⟨Fault.undefined, fun rg' _ => by
          simp [LuaTableRef.pushFieldValue, hl, deref, cassert, lua_checkstack,
            lua_rawgeti_top, bind, Except.bind]⟩
      | function id =>
        exact Or.inl ⟨Fault.undefined, fun rg' _ => by
          simp [LuaTableRef.pushFieldValue, hl, deref, cassert, lua_checkstack,
            lua_rawgeti_top, bind, Except.bind]⟩
      | userdata id =>
        exact Or.inl ⟨Fault.undefined, fun rg' _ => by
          simp [LuaTableRef.pushFieldValue, hl, deref, cassert, lua_checkstack,
            lua_rawgeti_top, bind, Except.bind]⟩
  | text str =>
    cases hl : self.mLua with
    | false =>
      exact Or.inl ⟨Fault.undefined, fun rg' _ => by
        simp [LuaTableRef.pushFieldValue, hl, deref, bind, Except.bind]⟩
    | true =>
      cases hg : luaV_gettable rt MAXTAGLOOP hp tv (.string (c_str str)) with
      | error e =>
        exact Or.inl ⟨e, fun rg' _ => by
          simp [LuaTableRef.pushFieldValue, hl, deref, cassert, lua_checkstack,
            lua_getfield_top, hg, bind, Except.bind]⟩
      | ok x =>
        exact Or.inr ⟨x.1, x.2, fun rg' _ => by
          simp [LuaTableRef.pushFieldValue, hl, deref, cassert, lua_checkstack,
            lua_getfield_top, hg, bind, Except.bind]⟩

theorem LuaTableRef.Field.field_pushObj_registry_free (rt : Runtime) (table : LuaObjRef)
    (key : HostKey) (st : List LuaValue) (rg : Registry) (hp : Heap) :
    (∃ e, ∀ rg' : Registry,
      (∀ o ∈ table :: key.handles,
        rg'.lookup o.mRegKey.mRegKey = rg.lookup o.mRegKey.mRegKey) →
      LuaTableRef.Field.pushObj rt table key ⟨st, rg', hp⟩ = .error e) ∨
    (∃ v h, ∀ rg' : Registry,
      (∀ o ∈ table :: key.handles,
        rg'.lookup o.mRegKey.mRegKey = rg.lookup o.mRegKey.mRegKey) →
      LuaTableRef.Field.pushObj rt table key ⟨st, rg', hp⟩ = .ok ⟨st ++ [v], rg', h⟩) := by
  rcases LuaObjRef.pushObj_registry_free table st rg hp with ⟨e, he⟩ | ⟨tv, htv⟩
  · exact Or.inl ⟨e, fun rg' _ => by
      simp only [LuaTableRef.Field.pushObj, he rg', bind, Except.bind]⟩
  · rcases LuaTableRef.pushFieldValue_registry_free rt table key st tv rg hp with
      ⟨e, he⟩ | ⟨v, h, hv⟩
    · exact Or.inl ⟨e, fun rg' hag => by
        simp only [LuaTableRef.Field.pushObj, htv rg' (hag table (List.mem_cons_self _ _)),
          he rg' (fun o ho => hag o (List.mem_cons_of_mem _ ho)), bind, Except.bind]⟩
    · cases hl : table.mLua with
      | false =>
        exact Or.inl ⟨Fault.undefined, fun rg' hag => by
          simp [LuaTableRef.Field.pushObj, htv rg' (hag table (List.mem_cons_self _ _)),
            hv rg' (fun o ho => hag o (List.mem_cons_of_mem _ ho)), LuaObjRef.getLuaState,
            hl, deref, bind, Except.bind]⟩
      | true =>
        exact Or.inr ⟨v, h, fun rg' hag => by
          simp [LuaTableRef.Field.pushObj, htv rg' (hag table (List.mem_cons_self _ _)),
            hv rg' (fun o ho => hag o (List.mem_cons_of_mem _ ho)), LuaObjRef.getLuaState,
            hl, deref, lua_remove_below_top, bind, Except.bind]⟩

theorem pushValToStack_arg_registry_free (rt : Runtime) (L : Bool) (a : CallArg)
    (st : List LuaValue) (rg : Registry) (hp : Heap) :
    (∃ e, ∀ rg' : Registry,
      (∀ o ∈ a.handles, rg'.lookup o.mRegKey.mRegKey = rg.lookup o.mRegKey.mRegKey) →
      pushValToStack_arg rt L a ⟨st, rg', hp⟩ = .error e) ∨
    (∃ v h, ∀ rg' : Registry,
      (∀ o ∈ a.handles, rg'.lookup o.mRegKey.mRegKey = rg.lookup o.mRegKey.mRegKey) →
      pushValToStack_arg rt L a ⟨st, rg', hp⟩ = .ok ⟨st ++ [v], rg', h⟩) := by
  cases a with
  | key k =>
    rcases pushValToStack_key_registry_free L k st rg hp with ⟨e, he⟩ | ⟨v, hv⟩
    · exact Or.inl ⟨e, fun rg' _ => by simp only [pushValToStack_arg, he rg']⟩
    · exact Or.inr ⟨v, hp, fun rg' hag => by simp only [pushValToStack_arg, hv rg' hag]⟩
  | field table k =>
    exact LuaTableRef.Field.field_pushObj_registry_free rt table k st rg hp

/-- The arguments of a call are pushed in the same way over every registry
that agrees on the keys of the handles they mention: the same fault, or one
value for each argument, in order, and the same heap; the registry is left
as it is. -/
theorem LuaFuncCallParams.appendAll_registry_free (rt : Runtime) (rg : Registry) :
    ∀ (args : List CallArg) (st : List LuaValue) (hp : Heap),
      (∃ e, ∀ (rg' : Registry) (fid : String) (pre n : Int),
        (∀ a ∈ args, ∀ o ∈ a.handles,
          rg'.lookup o.mRegKey.mRegKey = rg.lookup o.mRegKey.mRegKey) →
        LuaFuncCallParams.appendAll rt ⟨true, fid, pre, n⟩ args ⟨st, rg', hp⟩ = .error e) ∨
      (∃ vals h, vals.length = args.length ∧
        ∀ (rg' : Registry) (fid : String) (pre n : Int),
        (∀ a ∈ args, ∀ o ∈ a.handles,
          rg'.lookup o.mRegKey.mRegKey = rg.lookup o.mRegKey.mRegKey) →
        LuaFuncCallParams.appendAll rt ⟨true, fid, pre, n⟩ args ⟨st, rg', hp⟩ =
          .ok (⟨true, fid, pre, n + (args.length : Int)⟩, ⟨st ++ vals, rg', h⟩)) := by
  intro args
  induction args with
  | nil =>
    intro st hp
    exact Or.inr ⟨[], hp, rfl, fun rg' fid pre n _ => by
      simp [LuaFuncCallParams.appendAll, pure, Except.pure]⟩
  | cons a rest ih =>
    intro st hp
    rcases pushValToStack_arg_registry_free rt true a st rg hp with ⟨e, he⟩ | ⟨v, h, hv⟩
    · exact Or.inl ⟨e, fun rg' fid pre n hag => by
        simp only [LuaFuncCallParams.appendAll, LuaFuncCallParams.append,
          he rg' (hag a (List.mem_cons_self _ _)), bind, Except.bind]⟩
    · rcases ih (st ++ [v]) h with ⟨e, he⟩ | ⟨vals, h2, hlen, hvals⟩
      · exact Or.inl ⟨e, fun rg' fid pre n hag => by
          simp only [LuaFuncCallParams.appendAll, LuaFuncCallParams.append,
            hv rg' (hag a (List.mem_cons_self _ _)), bind, Except.bind, pure, Except.pure,
            he rg' fid pre (n + 1) (fun b hb => hag b (List.mem_cons_of_mem _ hb))]⟩
      · refine Or.inr ⟨v :: vals, h2, by simp [hlen], fun rg' fid pre n hag => ?_⟩
        simp only [LuaFuncCallParams.appendAll, LuaFuncCallParams.append,
          hv rg' (hag a (List.mem_cons_self _ _)), bind, Except.bind, pure, Except.pure,
          hvals rg' fid pre (n + 1) (fun b hb => hag b (List.mem_cons_of_mem _ hb)),
          List.append_assoc, List.singleton_append, List.length_cons]
        congr 3
        push_cast
        omega

theorem LuaRegRef.ctor_spec (s : lua_State) (pos : Int) (v : LuaValue)
    (hwf : s.registry.WF) (hval : index2adr s pos = some (some v)) :
    ∃ k s', LuaRegRef.ctor true pos s = .ok (⟨true, k⟩, s') ∧ s'.stack = s.stack ∧
      s'.heap = s.heap ∧ s'.registry.WF ∧ s'.registry.lookup k = v ∧
      (∀ k0, k0 < 0 ∨ k0 ∈ s.registry.keys →
        s'.registry.lookup k0 = s.registry.lookup k0 ∧
          (k0 < 0 ∨ k0 ∈ s'.registry.keys)) ∧
      (k < 0 ∨ k ∈ s'.registry.keys) := by
  obtain ⟨k, s', href, hst, hhp, hwf', hl, hpres, hk, -⟩ := luaL_ref_push_spec s v hwf
  refine ⟨k, s', ?_, hst, hhp, hwf', hl, hpres, hk⟩
  rw [LuaRegRef.ctor_eq, LuaRegRef.getRef_in_range s pos v hval, href]
  rfl

theorem lua_getfield_eval (rt : Runtime) (st : List LuaValue) (rg : Registry) (hp hp1 : Heap)
    (ov fv : LuaValue) (m : String)
    (hget : luaV_gettable rt MAXTAGLOOP hp ov (.string (c_str m)) = .ok (fv, hp1)) :
    lua_getfield rt ⟨st ++ [ov], rg, hp⟩ (-1) m = .ok ⟨st ++ [ov, fv], rg, hp1⟩ := by
  simp [lua_getfield, stackValue_neg1, hget, bind, Except.bind, pure, Except.pure]

theorem LuaClassObjRef.method_prepCall_eval (rt : Runtime) (self : LuaObjRef) (st : List LuaValue)
    (rg : Registry) (hp hp1 : Heap) (fv : LuaValue) (m : String)
    (h1 : self.mLua = true) (h2 : self.mRegKey.mLua = true) (h3 : self.mErrCode = 0)
    (hget : luaV_gettable rt MAXTAGLOOP hp (rg.lookup self.mRegKey.mRegKey)
      (.string (c_str m)) = .ok (fv, hp1)) :
    LuaClassObjRef.prepCall rt self m ⟨st, rg, hp⟩ =
      .ok (⟨true, if self.getID.isEmpty then "<anonymous>" else self.getID, st.length, 1⟩,
        ⟨st ++ [fv, rg.lookup self.mRegKey.mRegKey], rg, hp1⟩) := by
  have hins : lua_insert ⟨st ++ [rg.lookup self.mRegKey.mRegKey, fv], rg, hp1⟩ (-2) =
      .ok ⟨st ++ [fv, rg.lookup self.mRegKey.mRegKey], rg, hp1⟩ := by
    have hl : (st ++ [rg.lookup self.mRegKey.mRegKey, fv]).getLast? = some fv := by simp
    have hd : (st ++ [rg.lookup self.mRegKey.mRegKey, fv]).dropLast =
        st ++ [rg.lookup self.mRegKey.mRegKey] := by
      rw [show st ++ [rg.lookup self.mRegKey.mRegKey, fv] =
        (st ++ [rg.lookup self.mRegKey.mRegKey]) ++ [fv] by simp]
      exact List.dropLast_concat
    simp only [lua_insert, stackSlot_neg2, hl, hd, List.insertIdx_length_append_one, bind,
      Except.bind, pure, Except.pure]
  simp [LuaClassObjRef.prepCall, LuaObjRef.pushObj_eval self st rg hp h2 h3, h1, deref,
    lua_getfield_eval rt st rg hp hp1 _ fv m hget, hins, cassert, lua_gettop,
    LuaFuncCallParams.ctor, bind, Except.bind, pure, Except.pure]

theorem LuaClassObjRef.callMethod_eq_pcallInput (rt : Runtime) (self : LuaObjRef)
    (m : String) (args : List CallArg) (s : lua_State) :
    LuaClassObjRef.callMethod rt self m args s =
      (LuaClassObjRef.pcallInput rt self m args s).bind fun x => x.1.doCall rt x.2 := by
  simp only [LuaClassObjRef.callMethod, LuaClassObjRef.pcallInput, bind, Except.bind]
  cases LuaClassObjRef.prepCall rt self m s with
  | error e => rfl
  | ok v => rfl

theorem LuaClassObjRef.getBoundMethod_eval (rt : Runtime) (self : LuaObjRef)
    (st : List LuaValue) (rg : Registry) (hp hp1 : Heap) (fv : LuaValue) (m : String)
    (h1 : self.mLua = true) (h2 : self.mRegKey.mLua = true) (h3 : self.mErrCode = 0)
    (hwf : rg.WF)
    (hget : luaV_gettable rt MAXTAGLOOP hp (rg.lookup self.mRegKey.mRegKey)
      (.string (c_str m)) = .ok (fv, hp1)) :
    ∃ ko kf rg2, LuaClassObjRef.getBoundMethod rt self m ⟨st, rg, hp⟩ =
        .ok (⟨⟨true, ⟨true, ko⟩, "", 0⟩, ⟨true, ⟨true, kf⟩, "", 0⟩⟩, ⟨st, rg2, hp1⟩) ∧
      rg2.WF ∧ rg2.lookup ko = rg.lookup self.mRegKey.mRegKey ∧ rg2.lookup kf = fv ∧
      ∀ k0, k0 < 0 ∨ k0 ∈ rg.keys → rg2.lookup k0 = rg.lookup k0 := by
  have hv1 : index2adr ⟨st ++ [rg.lookup self.mRegKey.mRegKey, fv], rg, hp1⟩
      ((st.length : Int) + 1) = some (some (rg.lookup self.mRegKey.mRegKey)) :=
    index2adr_above st [fv] _ rg hp1
  obtain ⟨ko, sA, hcA, hstA, hhpA, hwfA, hlA, hpresA, hkA⟩ :=
    LuaRegRef.ctor_spec _ _ _ hwf hv1
  have hv2 : index2adr sA ((st.length : Int) + 1 + 1) = some (some fv) := by
    rw [index2adr_congr _ sA _ hstA]
    have := index2adr_top (st ++ [rg.lookup self.mRegKey.mRegKey]) fv rg hp1
    simp only [List.length_append, List.length_singleton, Nat.cast_add, Nat.cast_one,
      List.append_assoc, List.singleton_append] at this
    exact this
  obtain ⟨kf, sB, hcB, hstB, hhpB, hwfB, hlB, hpresB, -⟩ :=
    LuaRegRef.ctor_spec sA _ _ hwfA hv2
  have hsB : sB = ⟨st ++ [rg.lookup self.mRegKey.mRegKey, fv], sB.registry, hp1⟩ := by
    obtain ⟨x, y, z⟩ := sB
    simp only at hstB hhpB
    rw [hstB, hhpB, hstA, hhpA]
  refine ⟨ko, kf, sB.registry, ?_, hwfB, ?_, hlB, ?_⟩
  · have hp1' : LuaTempResult.getStackPos ⟨true, 0, st.length, 2⟩ 1 =
        (st.length : Int) + 1 := by
      simp [LuaTempResult.getStackPos, LuaTempResult.FIRST_ITEM_INDEX]
    have hp2' : LuaTempResult.getStackPos ⟨true, 0, st.length, 2⟩ 2 =
        (st.length : Int) + 1 + 1 := by
      simp [LuaTempResult.getStackPos, LuaTempResult.FIRST_ITEM_INDEX]
      omega
    have hctor : LuaTempResult.ctor true (st.length : Int) 0 ""
        ⟨st ++ [rg.lookup self.mRegKey.mRegKey, fv], rg, hp1⟩ =
        .ok (⟨true, 0, st.length, 2⟩,
          ⟨st ++ [rg.lookup self.mRegKey.mRegKey, fv], rg, hp1⟩) :=
      LuaTempResult.ctor_returned st [_, _] rg hp1 ""
    have hdtor : LuaTempResult.dtor ⟨true, 0, st.length, 2⟩ sB = .ok ⟨st, sB.registry, hp1⟩ := by
      rw [hsB]
      simp [LuaTempResult.dtor, cassert, lua_gettop, lua_settop_restore, bind, Except.bind]
    simp only [LuaClassObjRef.getBoundMethod, deref, h1, if_true,
      LuaObjRef.pushObj_eval self st rg hp h2 h3, cassert, lua_checkstack,
      lua_getfield_eval rt st rg hp hp1 _ fv m hget, lua_gettop, hctor,
      LuaBoundMethRef.ctorResult, LuaTempResult.index, LuaTempResult.getItem,
      LuaTempResult.Item.ctor, hp1', hp2', LuaObjRef.ctorItem, hcA, hcB, hdtor, bind,
      Except.bind, pure, Except.pure]
  · rw [(hpresB ko hkA).1, hlA]
  · intro k0 hk0
    rw [(hpresB k0 (hpresA k0 hk0).2).1, (hpresA k0 hk0).1]

theorem LuaFuncCallParams.doCall_returned (rt : Runtime) (st : List LuaValue) (rg : Registry)
    (hp h : Heap) (f : LuaValue) (xs rs : List LuaValue) (fid : String) (k : Int)
    (hk : k = (xs.length : Int)) (hcall : rt.call hp f xs = (.returned rs, h)) :
    LuaFuncCallParams.doCall rt ⟨true, fid, st.length, k⟩ ⟨st ++ f :: xs, rg, hp⟩ =
      .ok (⟨true, 0, st.length, rs.length⟩, ⟨st ++ rs, rg, h⟩) := by
  subst hk
  rw [LuaFuncCallParams.doCall_eval, hcall]
  exact LuaTempResult.ctor_returned st rs rg h _

theorem LuaFuncCallParams.doCall_raised (rt : Runtime) (st : List LuaValue) (rg : Registry)
    (hp h : Heap) (f err : LuaValue) (xs : List LuaValue) (fid t : String) (k : Int)
    (kind : CallError) (hk : k = (xs.length : Int))
    (hcall : rt.call hp f xs = (.raised kind err, h)) (ht : err.cText = some t) :
    LuaFuncCallParams.doCall rt ⟨true, fid, st.length, k⟩ ⟨st ++ f :: xs, rg, hp⟩ =
      .ok (⟨true, kind.code, st.length, 1⟩,
        ⟨st ++ [.string (c_str ("Function call " ++ fid ++ "(): " ++ t))], rg, h⟩) := by
  subst hk
  rw [LuaFuncCallParams.doCall_eval, hcall]
  simp only
  rw [LuaTempResult.ctor_raised st rg h _ t err kind.code (CallError.code_ne_zero kind) ht,
    String.call_message]

theorem LuaFuncCallParams.doCall_raised_no_text (rt : Runtime) (st : List LuaValue)
    (rg : Registry) (hp h : Heap) (f err : LuaValue) (xs : List LuaValue) (fid : String)
    (k : Int) (kind : CallError) (hk : k = (xs.length : Int))
    (hcall : rt.call hp f xs = (.raised kind err, h)) (ht : err.cText = none) :
    LuaFuncCallParams.doCall rt ⟨true, fid, st.length, k⟩ ⟨st ++ f :: xs, rg, hp⟩ =
      .error Fault.undefined := by
  subst hk
  rw [LuaFuncCallParams.doCall_eval, hcall]
  exact LuaTempResult.ctor_raised_no_text st rg h _ err kind.code
    (CallError.code_ne_zero kind) ht

/-- C28 (as stated, refuted): the table of `stateWithMethod`, whose handle
has the identifier `t`, holds the method `m`; the runtime fails with `boom`.
`callMethod("m", 5)` and the bound method `getBoundMethod("m")` called with
5 hand the same stack and argument count to the protected call, but not the
same pending result: the message of the first is
`Function call t(): boom`, that of the second
`Function call <anonymous>(): boom`. -/
theorem LuaClassObjRef.callMethod_message_names_object :
    ∃ bm s1 r1 s2 r2 s3,
      LuaClassObjRef.getBoundMethod failingRuntime exampleHandle "m" stateWithMethod =
        .ok (bm, s1) ∧
      LuaClassObjRef.callMethod failingRuntime exampleHandle "m" [.key (.integer 5)]
        stateWithMethod = .ok (r1, s2) ∧
      bm.call failingRuntime [.key (.integer 5)] s1 = .ok (r2, s3) ∧
      LuaClassObjRef.pcallInput failingRuntime exampleHandle "m" [.key (.integer 5)]
        stateWithMethod =
          .ok (⟨true, "t", 1, 2⟩,
            { stateWithMethod with
              stack := [.number 5, .function 7, .table 1, .number 5] }) ∧
      LuaFuncRef.pcallInput failingRuntime bm.mMethRef
        [.key (.objRef bm.mObjRef), .key (.integer 5)] s1 =
          .ok (⟨true, "<anonymous>", 1, 2⟩,
            { s1 with stack := [.number 5, .function 7, .table 1, .number 5] }) ∧
      r1.getErrMsg s2 = .ok ("Function call t(): boom", s2) ∧
      r2.getErrMsg s3 = .ok ("Function call <anonymous>(): boom", s3) ∧
      s2.stack ≠ s3.stack :=
  ⟨_, _, _, _, _, _, rfl, rfl, rfl, rfl, rfl, rfl, rfl, by decide⟩

/-- C28 (amended): `callMethod` is lookup-then-bound-call up to the
identifier in the error message. Let `o` be a class-instance handle on a live
connection with no error code, over a consistent registry, `m` a method name
and let every handle that the arguments mention be nil or hold a reference
that has not been released (the source declares 0 to 8 arguments; the
statement holds for every number of them). If the lookup of `m` (as a C
string) on `o` faults, `getBoundMethod(m)` and `callMethod(m, a1..ak)` stop
in that fault. If it returns the value `fv`, `getBoundMethod(m)` returns and
leaves the stack (depth and every slot) as it was. Pushing the arguments
then either stops in the same fault for `callMethod(m, a1..ak)` and for the
bound method called with `(a1..ak)`, or both hand the protected call the
same stack, `fv` followed by `o` and one value for each argument, in order,
with argument count `k + 1`, the same recorded depth and the same heap; the
identifier kept for the message is that of `o` (`<anonymous>` when it is
empty) for `callMethod` and `<anonymous>` for the bound method. When the
runtime then returns, both give the same pending result and the same stack
and heap. When it fails with an error value whose text is `t`, both give the
same pending result (`ok()` false, the status as error code, one item),
whose message is the C string of `"Function call " ++ id ++ "(): " ++ t` for
`callMethod` and of `"Function call <anonymous>(): " ++ t` for the bound
method. When it fails with an error value that has no text, neither call
returns. The registry after the bound call is the one after
`getBoundMethod`, which holds the two references of the bound method; the
one after `callMethod` is the one before. -/
theorem LuaClassObjRef.callMethod_is_bound_call (rt : Runtime) (self : LuaObjRef)
    (s : lua_State) (m : String) (args : List CallArg)
    (h1 : self.mLua = true) (h2 : self.mRegKey.mLua = true) (h3 : self.mErrCode = 0)
    (hwf : s.registry.WF)
    (hown : ∀ a ∈ args, ∀ o ∈ a.handles, o.Owned s.registry) :
    (∀ e, luaV_gettable rt MAXTAGLOOP s.heap (s.registry.lookup self.mRegKey.mRegKey)
        (.string (c_str m)) = .error e →
      LuaClassObjRef.getBoundMethod rt self m s = .error e ∧
        LuaClassObjRef.pcallInput rt self m args s = .error e ∧
        LuaClassObjRef.callMethod rt self m args s = .error e) ∧
    (∀ fv hp1, luaV_gettable rt MAXTAGLOOP s.heap (s.registry.lookup self.mRegKey.mRegKey)
        (.string (c_str m)) = .ok (fv, hp1) →
      ∃ bm s1, LuaClassObjRef.getBoundMethod rt self m s = .ok (bm, s1) ∧
        s1.stack = s.stack ∧ s1.heap = hp1 ∧
        ((∃ e, LuaClassObjRef.pcallInput rt self m args s = .error e ∧
            LuaFuncRef.pcallInput rt bm.mMethRef (.key (.objRef bm.mObjRef) :: args) s1 =
              .error e ∧
            LuaClassObjRef.callMethod rt self m args s = .error e ∧
            bm.call rt args s1 = .error e) ∨
          (∃ vals hp2, vals.length = args.length ∧
            LuaClassObjRef.pcallInput rt self m args s =
              .ok (⟨true, if self.getID.isEmpty then "<anonymous>" else self.getID,
                  lua_gettop s, (args.length : Int) + 1⟩,
                ⟨s.stack ++ fv :: s.registry.lookup self.mRegKey.mRegKey :: vals,
                  s.registry, hp2⟩) ∧
            LuaFuncRef.pcallInput rt bm.mMethRef (.key (.objRef bm.mObjRef) :: args) s1 =
              .ok (⟨true, "<anonymous>", lua_gettop s, (args.length : Int) + 1⟩,
                ⟨s.stack ++ fv :: s.registry.lookup self.mRegKey.mRegKey :: vals,
                  s1.registry, hp2⟩) ∧
            (∀ rs h, rt.call hp2 fv (s.registry.lookup self.mRegKey.mRegKey :: vals) =
                (.returned rs, h) →
              ∃ r, LuaClassObjRef.callMethod rt self m args s =
                  .ok (r, ⟨s.stack ++ rs, s.registry, h⟩) ∧
                bm.call rt args s1 = .ok (r, ⟨s.stack ++ rs, s1.registry, h⟩) ∧
                r.ok = true ∧ r.getNumItems = rs.length) ∧
            (∀ kind err t h,
                rt.call hp2 fv (s.registry.lookup self.mRegKey.mRegKey :: vals) =
                  (.raised kind err, h) → err.cText = some t →
              ∃ r, LuaClassObjRef.callMethod rt self m args s =
                  .ok (r, ⟨s.stack ++ [.string (c_str ("Function call " ++
                    (if self.getID.isEmpty then "<anonymous>" else self.getID) ++
                      "(): " ++ t))], s.registry, h⟩) ∧
                bm.call rt args s1 =
                  .ok (r, ⟨s.stack ++
                    [.string (c_str ("Function call <anonymous>(): " ++ t))],
                    s1.registry, h⟩) ∧
                r.ok = false ∧ r.getErrCode = kind.code ∧ r.getNumItems = 1) ∧
            (∀ kind err h,
                rt.call hp2 fv (s.registry.lookup self.mRegKey.mRegKey :: vals) =
                  (.raised kind err, h) → err.cText = none →
              LuaClassObjRef.callMethod rt self m args s = .error Fault.undefined ∧
                bm.call rt args s1 = .error Fault.undefined)))) := by
  obtain ⟨st, rg, hp⟩ := s
  simp only at hwf hown
  simp only [lua_gettop]
  refine ⟨?_, ?_⟩
  · intro e hget
    have hgf : lua_getfield rt ⟨st ++ [rg.lookup self.mRegKey.mRegKey], rg, hp⟩ (-1) m =
        .error e := by
      rw [lua_getfield_top, hget]
    have hprep : LuaClassObjRef.prepCall rt self m ⟨st, rg, hp⟩ = .error e := by
      simp [LuaClassObjRef.prepCall, LuaObjRef.pushObj_eval self st rg hp h2 h3, h1, deref,
        hgf, bind, Except.bind]
    refine ⟨?_, ?_, ?_⟩
    · simp [LuaClassObjRef.getBoundMethod, deref, h1,
        LuaObjRef.pushObj_eval self st rg hp h2 h3, cassert, lua_checkstack, hgf, bind,
        Except.bind]
    · simp only [LuaClassObjRef.pcallInput, hprep, bind, Except.bind]
    · simp only [LuaClassObjRef.callMethod, hprep, bind, Except.bind]
  intro fv hp1 hget
  obtain ⟨ko, kf, rg2, hbm, -, hlo, hlf, hpres⟩ :=
    LuaClassObjRef.getBoundMethod_eval rt self st rg hp hp1 fv m h1 h2 h3 hwf hget
  refine ⟨_, _, hbm, rfl, rfl, ?_⟩
  have hag : ∀ a ∈ args, ∀ o ∈ a.handles,
      rg.lookup o.mRegKey.mRegKey = rg.lookup o.mRegKey.mRegKey := fun _ _ _ _ => rfl
  have hag2 : ∀ a ∈ args, ∀ o ∈ a.handles,
      rg2.lookup o.mRegKey.mRegKey = rg.lookup o.mRegKey.mRegKey :=
    fun a ha o ho => hpres _ (hown a ha o ho)
  have hprep := LuaClassObjRef.method_prepCall_eval rt self st rg hp hp1 fv m h1 h2 h3 hget
  have hprep2 : LuaFuncRef.prepCall ⟨true, ⟨true, kf⟩, "", 0⟩ ⟨st, rg2, hp1⟩ =
      .ok (⟨true, "<anonymous>", st.length, 0⟩, ⟨st ++ [fv], rg2, hp1⟩) := by
    rw [LuaFuncRef.prepCall_eval _ st rg2 hp1 rfl rfl rfl]
    simp only [hlf]
    rfl
  have hpush2 : pushValToStack_arg rt true (.key (.objRef ⟨true, ⟨true, ko⟩, "", 0⟩))
      ⟨st ++ [fv], rg2, hp1⟩ =
      .ok ⟨st ++ [fv, rg.lookup self.mRegKey.mRegKey], rg2, hp1⟩ := by
    simp only [pushValToStack_arg, pushValToStack_key,
      LuaObjRef.pushObj_eval ⟨true, ⟨true, ko⟩, "", 0⟩ (st ++ [fv]) rg2 hp1 rfl rfl, hlo,
      List.append_assoc, List.singleton_append]
  have hinC : LuaClassObjRef.pcallInput rt self m args ⟨st, rg, hp⟩ =
      LuaFuncCallParams.appendAll rt
        ⟨true, if self.getID.isEmpty then "<anonymous>" else self.getID, st.length, 1⟩ args
        ⟨st ++ [fv, rg.lookup self.mRegKey.mRegKey], rg, hp1⟩ := by
    simp only [LuaClassObjRef.pcallInput, hprep, bind, Except.bind]
  have hinF : LuaFuncRef.pcallInput rt ⟨true, ⟨true, kf⟩, "", 0⟩
      (.key (.objRef ⟨true, ⟨true, ko⟩, "", 0⟩) :: args) ⟨st, rg2, hp1⟩ =
      LuaFuncCallParams.appendAll rt ⟨true, "<anonymous>", st.length, 0 + 1⟩ args
        ⟨st ++ [fv, rg.lookup self.mRegKey.mRegKey], rg2, hp1⟩ := by
    simp only [LuaFuncRef.pcallInput, hprep2, LuaFuncCallParams.appendAll,
      LuaFuncCallParams.append, hpush2, bind, Except.bind, pure, Except.pure]
  rcases LuaFuncCallParams.appendAll_registry_free rt rg args
      (st ++ [fv, rg.lookup self.mRegKey.mRegKey]) hp1 with ⟨e, he⟩ | ⟨vals, hp2, hlen, hvals⟩
  · left
    have eC := hinC.trans (he rg _ _ _ hag)
    have eF := hinF.trans (he rg2 _ _ _ hag2)
    refine ⟨e, eC, eF, ?_, ?_⟩
    · rw [LuaClassObjRef.callMethod_eq_pcallInput, eC]
      rfl
    · simp only [LuaBoundMethRef.call]
      rw [LuaFuncRef.call_eq_pcallInput, eF]
      rfl
  · right
    have hstk : st ++ [fv, rg.lookup self.mRegKey.mRegKey] ++ vals =
        st ++ fv :: rg.lookup self.mRegKey.mRegKey :: vals := by simp
    have hc1 : (1 : Int) + (args.length : Int) = (args.length : Int) + 1 := by omega
    have hc2 : (0 : Int) + 1 + (args.length : Int) = (args.length : Int) + 1 := by omega
    have eC := hinC.trans (hvals rg _ _ _ hag)
    have eF := hinF.trans (hvals rg2 _ _ _ hag2)
    rw [hstk, hc1] at eC
    rw [hstk, hc2] at eF
    have hk : (args.length : Int) + 1 =
        (((rg.lookup self.mRegKey.mRegKey :: vals).length : Nat) : Int) := by
      simp only [List.length_cons, hlen]
      push_cast
      rfl
    have hcallC : LuaClassObjRef.callMethod rt self m args ⟨st, rg, hp⟩ =
        LuaFuncCallParams.doCall rt
          ⟨true, if self.getID.isEmpty then "<anonymous>" else self.getID, st.length,
            (args.length : Int) + 1⟩
          ⟨st ++ fv :: rg.lookup self.mRegKey.mRegKey :: vals, rg, hp2⟩ := by
      rw [LuaClassObjRef.callMethod_eq_pcallInput, eC]
      rfl
    have hcallF : LuaBoundMethRef.call rt
        ⟨⟨true, ⟨true, ko⟩, "", 0⟩, ⟨true, ⟨true, kf⟩, "", 0⟩⟩ args ⟨st, rg2, hp1⟩ =
        LuaFuncCallParams.doCall rt ⟨true, "<anonymous>", st.length, (args.length : Int) + 1⟩
          ⟨st ++ fv :: rg.lookup self.mRegKey.mRegKey :: vals, rg2, hp2⟩ := by
      simp only [LuaBoundMethRef.call]
      rw [LuaFuncRef.call_eq_pcallInput, eF]
      rfl
    refine ⟨vals, hp2, hlen, eC, eF, ?_, ?_, ?_⟩
    · intro rs h hcall
      refine ⟨⟨true, 0, st.length, rs.length⟩, ?_, ?_, rfl, rfl⟩
      · rw [hcallC]
        exact LuaFuncCallParams.doCall_returned rt st rg hp2 h fv _ rs _ _ hk hcall
      · rw [hcallF]
        exact LuaFuncCallParams.doCall_returned rt st rg2 hp2 h fv _ rs _ _ hk hcall
    · intro kind err t h hcall ht
      refine ⟨⟨true, kind.code, st.length, 1⟩, ?_, ?_, ?_, rfl, rfl⟩
      · rw [hcallC]
        exact LuaFuncCallParams.doCall_raised rt st rg hp2 h fv err _ _ t _ kind hk hcall ht
      · rw [hcallF]
        have hs : "Function call <anonymous>(): " ++ t =
            "Function call " ++ "<anonymous>" ++ "(): " ++ t := by
          have : "Function call " ++ "<anonymous>" ++ "(): " =
              "Function call <anonymous>(): " := by decide
          rw [this]
        rw [hs]
        exact LuaFuncCallParams.doCall_raised rt st rg2 hp2 h fv err _ _ t _ kind hk hcall ht
      · simp [LuaTempResult.ok, LuaTempResult.isError, LUA_ERR_NONE,
          CallError.code_ne_zero kind]
    · intro kind err h hcall ht
      refine ⟨?_, ?_⟩
      · rw [hcallC]
        exact LuaFuncCallParams.doCall_raised_no_text rt st rg hp2 h fv err _ _ _ kind hk
          hcall ht
      · rw [hcallF]
        exact LuaFuncCallParams.doCall_raised_no_text rt st rg2 hp2 h fv err _ _ _ kind hk
          hcall ht

/-- Witness for C28: the method `m` of the table of `stateWithMethod` called
on a runtime that returns its arguments, with three arguments: the handle of
the table, the field `m` of the table, and the number 5. -/
theorem LuaClassObjRef.callMethod_is_bound_call_witness :
    (∀ a ∈ [CallArg.key (.objRef exampleHandle), .field exampleHandle (.text "m"),
        .key (.integer 5)], ∀ o ∈ a.handles, o.Owned stateWithMethod.registry) ∧
    LuaClassObjRef.callMethod echoRuntime exampleHandle "m"
        [.key (.objRef exampleHandle), .field exampleHandle (.text "m"), .key (.integer 5)]
        stateWithMethod =
      .ok (⟨true, 0, 1, 4⟩,
        { stateWithMethod with
          stack := [.number 5, .table 1, .table 1, .function 7, .number 5] }) ∧
    ∃ bm s1 r stk h,
      LuaClassObjRef.getBoundMethod echoRuntime exampleHandle "m" stateWithMethod =
        .ok (bm, s1) ∧ s1.stack = stateWithMethod.stack ∧
      LuaClassObjRef.callMethod echoRuntime exampleHandle "m"
        [.key (.objRef exampleHandle), .field exampleHandle (.text "m"), .key (.integer 5)]
        stateWithMethod = .ok (r, ⟨stk, stateWithMethod.registry, h⟩) ∧
      bm.call echoRuntime
        [.key (.objRef exampleHandle), .field exampleHandle (.text "m"), .key (.integer 5)]
        s1 = .ok (r, ⟨stk, s1.registry, h⟩) ∧
      r.ok = true :=
  ⟨by decide, rfl,
    ((LuaClassObjRef.callMethod_is_bound_call echoRuntime exampleHandle stateWithMethod "m"
      [.key (.objRef exampleHandle), .field exampleHandle (.text "m"), .key (.integer 5)]
      rfl rfl rfl (by decide) (by decide)).2 (.function 7) stateWithMethod.heap rfl).elim
    fun bm h => h.elim fun s1 h => h.2.2.2.elim
      (fun he => he.elim fun _ he =>
        Except.noConfusion ((show LuaClassObjRef.callMethod echoRuntime exampleHandle "m"
          [.key (.objRef exampleHandle), .field exampleHandle (.text "m"), .key (.integer 5)]
          stateWithMethod = .ok (⟨true, 0, 1, 4⟩,
            { stateWithMethod with
              stack := [.number 5, .table 1, .table 1, .function 7, .number 5] })
          from rfl).symm.trans he.2.2.1))
      (fun hv => hv.elim fun vals hv => hv.elim fun hp2 hv =>
        (hv.2.2.2.1 _ _ rfl).elim fun r hr =>
          ⟨bm, s1, r, _, _, h.1, h.2.1, hr.1, hr.2.1, hr.2.2.1⟩)⟩
